import Mathlib

/-!
# The attentive AT-command line parser

A shallow embedding of `src/parser.c`: the line-accumulating stream parser of
the AT-command engine, and theorems about it.

Conventions of the embedding.

* A C `char` / `uint8_t` is a natural number (a value below 256); a byte
  string is a `List Nat`.  C strings are lists read up to their first NUL, a
  list that ends without one being followed by the terminator.
* `size_t` cursors are natural numbers.  The one subtraction the source does
  not guard, `buf_size - 1`, wraps as in C (`size_minus_one`).  An `int` has
  32 bits and a `size_t` 64; a response type is the 32-bit pattern of an `int`.
* The response buffer is the memory `buf`, a list whose length is `buf_size`;
  the bytes at and after `buf_used` are stale memory.
* The callbacks receive the driver's `priv` and may change it; the parser
  threads it through.  Every call of `handle_urc` and of `handle_response` is
  also recorded, with its arguments, as an `at_event`.
-/

namespace Attentive

/-! ## Data model -/

/-- The parser states of `enum at_parser_state`. -/
inductive at_parser_state where
  | STATE_IDLE
  | STATE_READLINE
  | STATE_DATAPROMPT
  | STATE_RAWDATA
  | STATE_HEXDATA
  deriving DecidableEq, Repr

open at_parser_state

/-- Modelled from the spec: the enumerators of `enum at_response_type`, which
`attentive/parser.h` declares and the sources under `src/` only use.  A
response type is an integer: the tag in its low 8 bits, a payload length above
them.  `AT_RESPONSE_UNKNOWN` is 0 (the source tests it with `!type`). -/
def AT_RESPONSE_UNKNOWN : Nat := 0

/-- Modelled from the spec: the tag of an intermediate line (see
`AT_RESPONSE_UNKNOWN`). -/
def AT_RESPONSE_INTERMEDIATE : Nat := 1

/-- Modelled from the spec: the tag of a successful final line (see
`AT_RESPONSE_UNKNOWN`). -/
def AT_RESPONSE_FINAL_OK : Nat := 2

/-- Modelled from the spec: the tag of a final line carrying an error (see
`AT_RESPONSE_UNKNOWN`). -/
def AT_RESPONSE_FINAL : Nat := 3

/-- Modelled from the spec: the tag of an unsolicited line (see
`AT_RESPONSE_UNKNOWN`). -/
def AT_RESPONSE_URC : Nat := 4

/-- Modelled from the spec: the tag of a header line that raw payload bytes
follow (see `AT_RESPONSE_UNKNOWN`). -/
def _AT_RESPONSE_RAWDATA_FOLLOWS : Nat := 5

/-- Modelled from the spec: the tag of a header line that hex-encoded payload
bytes follow (see `AT_RESPONSE_UNKNOWN`). -/
def _AT_RESPONSE_HEXDATA_FOLLOWS : Nat := 6

/-- Modelled from the spec: the bit position of the packed length; the source
unpacks it with `>> 8`. -/
def _AT_RESPONSE_ENCODED_LENGTH_BIT : Nat := 8

/-- Modelled from the spec: the mask selecting the tag of a response type. -/
def _AT_RESPONSE_TYPE_MASK : Nat := 0xff

/-- Modelled from the spec: the macro `AT_RESPONSE_RAWDATA_FOLLOWS(amount)`,
packing tag and length by a shift. -/
def AT_RESPONSE_RAWDATA_FOLLOWS (amount : Nat) : Nat :=
  _AT_RESPONSE_RAWDATA_FOLLOWS ||| (amount <<< _AT_RESPONSE_ENCODED_LENGTH_BIT)

/-- Modelled from the spec: the macro `AT_RESPONSE_HEXDATA_FOLLOWS(amount)`,
packing tag and length by a shift. -/
def AT_RESPONSE_HEXDATA_FOLLOWS (amount : Nat) : Nat :=
  _AT_RESPONSE_HEXDATA_FOLLOWS ||| (amount <<< _AT_RESPONSE_ENCODED_LENGTH_BIT)

/-- What one call of a character handler does: the character it returns, the
bytes it stores through its `line` pointer (pairs of an index relative to
`line` and a value), what it does to the installed handler through
`at_set_character_handler` (`none`: nothing; `some h`: installs `h`, where
`h = none` is `NULL`), and the `priv` it leaves. -/
structure at_handler_result (σ : Type) (H : Type) where
  ch : Nat
  writes : List (Nat × Nat)
  set_handler : Option (Option H)
  priv : σ

/-- A character handler (`at_character_handler_t`): called with the character,
the memory `line` points to, the length of the line in progress, and `priv`. -/
inductive at_character_handler (σ : Type) where
  | mk (run : Nat → List Nat → Nat → σ →
      at_handler_result σ (at_character_handler σ))

/-- The callbacks of `struct at_parser_callbacks`.  `scan_line` may be `NULL`
(`none`).  `line` arguments are the `len` bytes of the line (the source
NUL-terminates them in the buffer before the call). -/
structure at_parser_callbacks (σ : Type) where
  scan_line : Option (List Nat → Nat → σ → Nat × σ)
  handle_response : List Nat → Nat → σ → σ
  handle_urc : List Nat → Nat → σ → σ

/-- The parser instance, `struct at_parser`. -/
structure AtParser (σ : Type) where
  cbs : at_parser_callbacks σ
  character_handler : Option (at_character_handler σ)
  priv : σ
  state : at_parser_state
  dataprompt : Option (List Nat)
  data_left : Nat
  nibble : Int
  buf : List Nat
  buf_used : Nat
  buf_size : Nat
  buf_current : Nat

/-- A recorded callback invocation: `handle_urc(line, len, priv)` or
`handle_response(buf, buf_used, priv)`, with the bytes passed. -/
inductive at_event where
  | urc (line : List Nat) (len : Nat)
  | response (body : List Nat) (len : Nat)
  deriving DecidableEq, Repr

/-! ## C library helpers -/

/-- The largest `size_t`, for a `size_t` of 64 bits; an `int` has 32. -/
def SIZE_MAX : Nat := 2 ^ 64 - 1

/-- The value as a C `int` of a 32-bit pattern (two's complement). -/
def to_int (n : Nat) : Int :=
  if n % 2 ^ 32 < 2 ^ 31 then ((n % 2 ^ 32 : Nat) : Int)
  else ((n % 2 ^ 32 : Nat) : Int) - 2 ^ 32

/-- The conversion of a C `int` to `size_t`. -/
def to_size_t (i : Int) : Nat := (i % ((SIZE_MAX + 1 : Nat) : Int)).toNat

/-- The value of `(int)type >> 8` as it is stored into the `size_t`
`data_left`: the shift of an `int` is arithmetic, the floor of the quotient by
256, and a negative result wraps in the conversion. -/
def encoded_length (type : Nat) : Nat := to_size_t (to_int type / 256)

/-- The value of `parser->buf_size - 1` in `size_t` arithmetic. -/
def size_minus_one (buf_size : Nat) : Nat :=
  if buf_size = 0 then SIZE_MAX else buf_size - 1

/-- The characters of a C string: the bytes before the first NUL. -/
def cstr (s : List Nat) : List Nat := s.takeWhile (fun c => c != 0)

/-- The C `strlen`. -/
def strlen (s : List Nat) : Nat := (cstr s).length

/-- Whether `strncmp(a, b, n)` is 0, on NUL-terminated strings: a list that
ends is followed by its terminator. -/
def strncmp_eq : List Nat → List Nat → Nat → Bool
  | _, _, 0 => true
  | a, b, n + 1 =>
    if a.headD 0 != b.headD 0 then false
    else if a.headD 0 == 0 then true
    else strncmp_eq a.tail b.tail n

/-- Whether `memcmp(a, b, n)` is 0. -/
def memcmp_eq (a b : List Nat) (n : Nat) : Bool := a.take n == b.take n

/-! ## The tables of `parser.c` -/

/-- The string `"OK"`. -/
def str_OK : List Nat := [79, 75]

/-- The string `"ERROR"`. -/
def str_ERROR : List Nat := [69, 82, 82, 79, 82]

/-- The string `"NO CARRIER"`. -/
def str_NO_CARRIER : List Nat := [78, 79, 32, 67, 65, 82, 82, 73, 69, 82]

/-- The string `"+CME ERROR:"`. -/
def str_CME_ERROR : List Nat := [43, 67, 77, 69, 32, 69, 82, 82, 79, 82, 58]

/-- The string `"+CMS ERROR:"`. -/
def str_CMS_ERROR : List Nat := [43, 67, 77, 83, 32, 69, 82, 82, 79, 82, 58]

/-- The string `"RING"`. -/
def str_RING : List Nat := [82, 73, 78, 71]

/-- The table `final_ok_responses` (without its `NULL` sentinel). -/
def final_ok_responses : List (List Nat) := [str_OK]

/-- The table `final_responses`. -/
def final_responses : List (List Nat) :=
  [str_OK, str_ERROR, str_NO_CARRIER, str_CME_ERROR, str_CMS_ERROR]

/-- The table `urc_responses`. -/
def urc_responses : List (List Nat) := [str_RING]

/-! ## The parser operations -/

variable {σ : Type}

/-- The instance `at_parser_alloc` prepares, before its call of
`at_parser_reset`: a zeroed static buffer of `AT_BUF_SIZE` bytes and a zeroed
static `struct at_parser`. -/
def at_parser_static (AT_BUF_SIZE : Nat) (cbs : at_parser_callbacks σ)
    (priv : σ) : AtParser σ :=
  { cbs := cbs, character_handler := none, priv := priv, state := STATE_IDLE,
    dataprompt := none, data_left := 0, nibble := 0,
    buf := List.replicate AT_BUF_SIZE 0, buf_used := 0,
    buf_size := AT_BUF_SIZE, buf_current := 0 }

/-- The function `at_parser_reset`. -/
def at_parser_reset (p : AtParser σ) : AtParser σ :=
  { p with state := STATE_IDLE, dataprompt := none, buf_used := 0,
           buf_current := 0, data_left := 0, character_handler := none }

/-- The function `at_parser_alloc`; the constant `AT_BUF_SIZE` is a parameter. -/
def at_parser_alloc (AT_BUF_SIZE : Nat) (cbs : at_parser_callbacks σ)
    (priv : σ) : AtParser σ :=
  at_parser_reset (at_parser_static AT_BUF_SIZE cbs priv)

/-- The function `at_parser_set_character_handler`. -/
def at_parser_set_character_handler (p : AtParser σ)
    (handler : Option (at_character_handler σ)) : AtParser σ :=
  { p with character_handler := handler }

/-- The function `at_parser_expect_dataprompt`; `none` is a `NULL` prompt. -/
def at_parser_expect_dataprompt (p : AtParser σ)
    (prompt : Option (List Nat)) : AtParser σ :=
  { p with dataprompt := prompt }

/-- The function `at_parser_await_response`. -/
def at_parser_await_response (p : AtParser σ) : AtParser σ :=
  { p with state :=
      if p.dataprompt.isSome then STATE_DATAPROMPT else STATE_READLINE }

/-- The function `at_prefix_in_table`: the loop over the table up to its `NULL`. -/
def at_prefix_in_table (line : List Nat) : List (List Nat) → Bool
  | [] => false
  | t :: table =>
    if strncmp_eq line t (strlen t) then true
    else at_prefix_in_table line table

/-- The inner test of the first branch of `generic_line_scanner`, under its
guard `parser->dataprompt != NULL`: the line is the armed prompt. -/
def line_is_dataprompt (line : List Nat) (len : Nat) (p : AtParser σ) : Bool :=
  match p.dataprompt with
  | some prompt => decide (len = strlen prompt) && memcmp_eq line prompt len
  | none => false

/-- The function `generic_line_scanner`. -/
def generic_line_scanner (line : List Nat) (len : Nat) (p : AtParser σ) : Nat :=
  if p.state = STATE_DATAPROMPT ∧ line_is_dataprompt line len p = true then
    AT_RESPONSE_FINAL_OK
  else if at_prefix_in_table line urc_responses then AT_RESPONSE_URC
  else if at_prefix_in_table line final_ok_responses then AT_RESPONSE_FINAL_OK
  else if at_prefix_in_table line final_responses then AT_RESPONSE_FINAL
  else AT_RESPONSE_INTERMEDIATE

/-- The function `parser_append`. -/
def parser_append (p : AtParser σ) (ch : Nat) : AtParser σ :=
  if p.buf_used < size_minus_one p.buf_size then
    { p with buf := p.buf.set p.buf_used ch, buf_used := p.buf_used + 1 }
  else p

/-- The function `parser_include_line`. -/
def parser_include_line (p : AtParser σ) : AtParser σ :=
  let p := parser_append p 10
  { p with buf_current := p.buf_used }

/-- The function `parser_discard_line`. -/
def parser_discard_line (p : AtParser σ) : AtParser σ :=
  { p with buf_used := p.buf_current }

/-- The function `parser_finalize`. -/
def parser_finalize (p : AtParser σ) : AtParser σ :=
  let p := if 0 < p.buf_used then { p with buf_used := p.buf_used - 1 } else p
  { p with buf := p.buf.set p.buf_used 0 }

/-- The line in progress: the `len` bytes at `parser->buf + parser->buf_current`. -/
def current_line (p : AtParser σ) : List Nat :=
  (p.buf.drop p.buf_current).take (p.buf_used - p.buf_current)

/-- The block "Determine response type" of `parser_handle_line`: the type
returned by the driver's `scan_line`, or by the generic scanner when that is
`AT_RESPONSE_UNKNOWN` or there is no `scan_line`; with the parser after the
call. -/
def determine_type (p : AtParser σ) (line : List Nat) (len : Nat) :
    Nat × AtParser σ :=
  let r : Nat × σ :=
    match p.cbs.scan_line with
    | some scan => scan line len p.priv
    | none => (AT_RESPONSE_UNKNOWN, p.priv)
  let p := { p with priv := r.2 }
  if r.1 = 0 then (generic_line_scanner line len p, p) else (r.1, p)

/-- The switch "Act on the response type" of `parser_handle_line`, with the
callback invocation it makes. -/
def parser_act (p : AtParser σ) (type : Nat) : AtParser σ × List at_event :=
  let tag := type &&& _AT_RESPONSE_TYPE_MASK
  if tag = AT_RESPONSE_FINAL_OK ∨ tag = AT_RESPONSE_FINAL then
    let p := parser_finalize p
    let body := p.buf.take p.buf_used
    let p := { p with priv := p.cbs.handle_response body p.buf_used p.priv }
    (at_parser_reset p, [at_event.response body p.buf_used])
  else if tag = _AT_RESPONSE_RAWDATA_FOLLOWS then
    ({ p with data_left := encoded_length type, state := STATE_RAWDATA }, [])
  else if tag = _AT_RESPONSE_HEXDATA_FOLLOWS then
    ({ p with data_left := encoded_length type, nibble := -1, state := STATE_HEXDATA }, [])
  else (p, [])

/-- The call of `handle_urc` on a line, and the discarding of the line. -/
def parser_fire_urc (p : AtParser σ) (line : List Nat) (len : Nat) :
    AtParser σ × List at_event :=
  let p := { p with priv := p.cbs.handle_urc line len p.priv }
  (parser_discard_line p, [at_event.urc line len])

/-- The store `parser->buf[parser->buf_used] = 0` that opens
`parser_handle_line`. -/
def parser_terminate (p : AtParser σ) : AtParser σ :=
  { p with buf := p.buf.set p.buf_used 0 }

/-- The function `parser_handle_line`, with the callback invocations it
makes. -/
def parser_handle_line (p : AtParser σ) : AtParser σ × List at_event :=
  if p.buf_used = p.buf_current then (p, [])
  else
    let p := parser_terminate p
    let line := current_line p
    let len := p.buf_used - p.buf_current
    let r := determine_type p line len
    if r.1 = AT_RESPONSE_URC ∨ r.2.state = STATE_IDLE then
      parser_fire_urc r.2 line len
    else
      parser_act
        (if r.1 ≠ AT_RESPONSE_FINAL_OK then parser_include_line r.2
         else parser_discard_line r.2) r.1

/-- The response type `parser_handle_line` determines for the line in
progress. -/
def line_type (p : AtParser σ) : Nat :=
  (determine_type (parser_terminate p) (current_line (parser_terminate p))
    (p.buf_used - p.buf_current)).1

/-- The function `hex2int`. -/
def hex2int (c : Nat) : Int :=
  if 48 ≤ c ∧ c ≤ 57 then (c : Int) - 48
  else if 65 ≤ c ∧ c ≤ 70 then (c : Int) - 65 + 10
  else if 97 ≤ c ∧ c ≤ 102 then (c : Int) - 97 + 10
  else -1

/-- The stores a character handler made through its `line` pointer, which is
`buf + base`. -/
def apply_writes (buf : List Nat) (base : Nat) : List (Nat × Nat) → List Nat
  | [] => buf
  | w :: ws => apply_writes (buf.set (base + w.1) w.2) base ws

/-- The call of the installed character handler in `at_parser_feed`: the
parser after it and the character it returned. -/
def call_character_handler (p : AtParser σ) (ch : Nat) : AtParser σ × Nat :=
  match p.character_handler with
  | some (at_character_handler.mk run) =>
    let r := run ch (p.buf.drop p.buf_current) (p.buf_used - p.buf_current) p.priv
    ({ p with
        buf := apply_writes p.buf p.buf_current r.writes,
        priv := r.priv,
        character_handler :=
          match r.set_handler with
          | some h => h
          | none => p.character_handler }, r.ch)
  | none => (p, ch)

/-- The test of the armed prompt in `at_parser_feed`: the whole buffer up to
`buf_used` is the prompt.  (With no prompt armed the source reads through a
null pointer; the embedding takes the test to fail.) -/
def dataprompt_matches (p : AtParser σ) : Bool :=
  match p.dataprompt with
  | some prompt =>
    decide (p.buf_used = strlen prompt) && memcmp_eq p.buf prompt p.buf_used
  | none => false

/-- The case `STATE_IDLE` / `STATE_READLINE` / `STATE_DATAPROMPT` of the
switch in `at_parser_feed`. -/
def at_parser_feed_line (p : AtParser σ) (ch : Nat) :
    AtParser σ × List at_event :=
  let p := if ch ≠ 13 ∧ ch ≠ 10 then parser_append p ch else p
  let r := call_character_handler p ch
  let p := r.1
  let ch := r.2
  if ch = 10 ∨ (p.state = STATE_DATAPROMPT ∧ dataprompt_matches p = true) then
    parser_handle_line p
  else (p, [])

/-- The end of a payload, the closing `if (parser->data_left == 0)` of the
cases `STATE_RAWDATA` and `STATE_HEXDATA`. -/
def parser_data_done (p : AtParser σ) : AtParser σ :=
  if p.data_left = 0 then
    { parser_include_line p with state := STATE_READLINE }
  else p

/-- The case `STATE_RAWDATA` of the switch in `at_parser_feed`. -/
def at_parser_feed_rawdata (p : AtParser σ) (ch : Nat) : AtParser σ :=
  let p :=
    if 0 < p.data_left then
      let p := parser_append p ch
      { p with data_left := p.data_left - 1 }
    else p
  parser_data_done p

/-- The case `STATE_HEXDATA` of the switch in `at_parser_feed`.  In
`value |= (parser->nibble << 4)` the value is below 16, so the bits are
disjoint and the disjunction is the sum; `parser_append` then takes the low
byte of the `int`. -/
def at_parser_feed_hexdata (p : AtParser σ) (ch : Nat) : AtParser σ :=
  let p :=
    if 0 < p.data_left then
      let value := hex2int ch
      if value ≠ -1 then
        if p.nibble = -1 then { p with nibble := value }
        else
          let value := value + p.nibble * 16
          let p := { p with nibble := -1 }
          let p := parser_append p (value % 256).toNat
          { p with data_left := p.data_left - 1 }
      else p
    else p
  parser_data_done p

/-- The body of the loop of `at_parser_feed`: one received character. -/
def at_parser_feed_byte (p : AtParser σ) (ch : Nat) :
    AtParser σ × List at_event :=
  match p.state with
  | STATE_IDLE => at_parser_feed_line p ch
  | STATE_READLINE => at_parser_feed_line p ch
  | STATE_DATAPROMPT => at_parser_feed_line p ch
  | STATE_RAWDATA => (at_parser_feed_rawdata p ch, [])
  | STATE_HEXDATA => (at_parser_feed_hexdata p ch, [])

/-- The function `at_parser_feed`: the loop over the received bytes, with the callback
invocations in order. -/
def at_parser_feed (p : AtParser σ) : List Nat → AtParser σ × List at_event
  | [] => (p, [])
  | ch :: data =>
    let r := at_parser_feed_byte p ch
    let r' := at_parser_feed r.1 data
    (r'.1, r.2 ++ r'.2)

/-! ## Runs of API calls, and what the theorems speak of -/

/-- The calls a user of the parser can make, in any order. -/
inductive at_call (σ : Type) where
  | reset
  | await_response
  | expect_dataprompt (prompt : Option (List Nat))
  | set_character_handler (handler : Option (at_character_handler σ))
  | feed (data : List Nat)

/-- The parser after one call. -/
def at_call.apply (p : AtParser σ) : at_call σ → AtParser σ
  | .reset => at_parser_reset p
  | .await_response => at_parser_await_response p
  | .expect_dataprompt prompt => at_parser_expect_dataprompt p prompt
  | .set_character_handler handler => at_parser_set_character_handler p handler
  | .feed data => (at_parser_feed p data).1

/-- The parser after a sequence of calls. -/
def at_parser_calls (p : AtParser σ) : List (at_call σ) → AtParser σ
  | [] => p
  | c :: cs => at_parser_calls (at_call.apply p c) cs

/-- The cursor invariant: `buf_current ≤ buf_used < buf_size`. -/
def cursors_ok (p : AtParser σ) : Prop :=
  p.buf_current ≤ p.buf_used ∧ p.buf_used < p.buf_size

/-- The cursor invariant holds of `q`, whose buffer has the size of that of
`p`: what every step of the parser keeps. -/
def cursors_kept (p q : AtParser σ) : Prop :=
  cursors_ok q ∧ q.buf_size = p.buf_size

/-- The parser is in state `st`, has the callbacks `cbs`, the character handler
`hd` (`none`: no handler installed) and a buffer of `size` bytes; `body` is
what the buffer holds before `buf_current` and `line` the line in progress
after it. -/
def in_line (st : at_parser_state) (cbs : at_parser_callbacks σ)
    (hd : Option (at_character_handler σ)) (size : Nat)
    (body line : List Nat) (p : AtParser σ) : Prop :=
  p.cbs = cbs ∧ p.state = st ∧ p.character_handler = hd ∧
    p.buf_size = size ∧ p.buf.length = size ∧
    p.buf_current = body.length ∧ p.buf_used = body.length + line.length ∧
    p.buf.take (body.length + line.length) = body ++ line ∧
    body.length + line.length < size

/-- Every parser with the callbacks `cbs` that reads a response in
`STATE_READLINE` determines the type `type` for the line `line`, whatever the
driver's `priv`. -/
def classified (cbs : at_parser_callbacks σ) (line : List Nat) (type : Nat) : Prop :=
  ∀ q : AtParser σ, q.cbs = cbs → q.state = STATE_READLINE →
    (determine_type q line line.length).1 = type

/-- The bytes on the wire of a sequence of lines, each followed by CR LF. -/
def wire_lines (lines : List (List Nat)) : List Nat :=
  (lines.map (fun L => L ++ [13, 10])).flatten

/-- The lines as the buffer accumulates them, each followed by a newline. -/
def stored_lines (lines : List (List Nat)) : List Nat :=
  (lines.map (fun L => L ++ [10])).flatten

/-- The response body made of a sequence of lines: the lines separated by
single newlines, with no trailing newline. -/
def response_body (lines : List (List Nat)) : List Nat :=
  List.intercalate [10] lines

/-- A driver with no state and no `scan_line`, whose handlers do nothing. -/
def plain_callbacks : at_parser_callbacks Unit :=
  { scan_line := none, handle_response := fun _ _ s => s, handle_urc := fun _ _ s => s }

/-- A parser with a buffer of 32 bytes for the driver `plain_callbacks`, as
`at_parser_alloc` returns it. -/
def plain_instance : AtParser Unit := at_parser_alloc 32 plain_callbacks ()

/-- The line `"+CEREG: 2,1"`. -/
def str_CEREG : List Nat := [43, 67, 69, 82, 69, 71, 58, 32, 50, 44, 49]

/-- The line `"+CSQ: 15,99"`. -/
def str_CSQ : List Nat := [43, 67, 83, 81, 58, 32, 49, 53, 44, 57, 57]

/-- The line `"A"`. -/
def str_A : List Nat := [65]

/-- The parser `plain_instance` awaiting a response, the line `"RING"` received
and not yet terminated. -/
def plain_instance_RING : AtParser Unit :=
  (at_parser_feed (at_parser_await_response plain_instance) str_RING).1

/-- The parser `plain_instance` awaiting a response, the line `"ERROR"` received
and not yet terminated. -/
def plain_instance_ERROR : AtParser Unit :=
  (at_parser_feed (at_parser_await_response plain_instance) str_ERROR).1

/-- The parser `plain_instance` awaiting a response, the line `"OK"` received
and not yet terminated. -/
def plain_instance_OK : AtParser Unit :=
  (at_parser_feed (at_parser_await_response plain_instance) str_OK).1

/-- The completed lines of a stream, as received: the runs of bytes between
line feeds that a line feed ends, in order.  `cur` is the run in progress
when the stream starts. -/
def completed_lines (cur : List Nat) : List Nat → List (List Nat)
  | [] => []
  | ch :: data =>
    if ch = 10 then cur :: completed_lines [] data
    else completed_lines (cur ++ [ch]) data

/-- The run of bytes in progress at the end of a stream, after the last line
feed. -/
def pending_line (cur : List Nat) : List Nat → List Nat
  | [] => cur
  | ch :: data =>
    if ch = 10 then pending_line [] data else pending_line (cur ++ [ch]) data

/-- A received line as a parser with a buffer of `size` bytes holds it: the
carriage returns ignored, the characters past the capacity `size - 1`
dropped. -/
def delivered_line (size : Nat) (raw : List Nat) : List Nat :=
  (raw.filter (fun c => c != 13)).take (size - 1)

/-- The callback invocations the spec prescribes for a stream received while
no command is outstanding: `handle_urc` for every non-empty completed line, in
arrival order, and nothing else. -/
def idle_urcs (size : Nat) (cur data : List Nat) : List at_event :=
  (((completed_lines cur data).map (delivered_line size)).filter
    (fun l => l != [])).map (fun l => at_event.urc l l.length)

/-- The line `"OKAY"`. -/
def str_OKAY : List Nat := [79, 75, 65, 89]

/-- The line `"ERRORS"`. -/
def str_ERRORS : List Nat := [69, 82, 82, 79, 82, 83]

/-- The parser `plain_instance` awaiting a response with the prompt `"ERROR"`
armed, in `STATE_DATAPROMPT`. -/
def plain_instance_prompt_ERROR : AtParser Unit :=
  at_parser_await_response (at_parser_expect_dataprompt plain_instance (some str_ERROR))

/-- A run of calls on `plain_instance`: a command awaited, a response line and
a final line fed in two chunks, the prompt `"> "` armed, the next command
awaited and the first character of the prompt fed. -/
def plain_calls : List (at_call Unit) :=
  [at_call.await_response, at_call.feed (str_CEREG ++ [13, 10] ++ str_OK),
   at_call.feed [13, 10], at_call.expect_dataprompt (some [62, 32]),
   at_call.await_response, at_call.feed [62]]

/-- A stream received while idle: `"OK"` CR LF, an empty line, and the
unfinished line `"A"`. -/
def idle_stream : List Nat := str_OK ++ [13, 10] ++ [10] ++ str_A

/-- Modelled from the spec: the ASCII character of a hex digit as `send_hex`
emits it, "uppercase ASCII `0`–`9`, `A`–`F`" (the sender is not among the
sources). -/
def hex_digit (d : Nat) : Nat := if d < 10 then 48 + d else 55 + d

/-- Modelled from the spec: the hex encoding of a byte sequence, "two
characters per byte, no separators", high nibble first. -/
def hex_encode : List Nat → List Nat
  | [] => []
  | b :: S => hex_digit (b / 16) :: hex_digit (b % 16) :: hex_encode S

/-- An example driver with no state: its `scan_line` announces 3 raw payload
bytes after the header line `"R3"`, 2 hex-encoded payload bytes after the
header line `"X2"` and 1 after the header line `"X1"`, and returns
`AT_RESPONSE_UNKNOWN` for every other line; its handlers do nothing. -/
def payload_callbacks : at_parser_callbacks Unit :=
  { scan_line := some (fun line _ s =>
      (if line = [82, 51] then AT_RESPONSE_RAWDATA_FOLLOWS 3
       else if line = [88, 50] then AT_RESPONSE_HEXDATA_FOLLOWS 2
       else if line = [88, 49] then AT_RESPONSE_HEXDATA_FOLLOWS 1
       else AT_RESPONSE_UNKNOWN, s)),
    handle_response := fun _ _ s => s,
    handle_urc := fun _ _ s => s }

/-- A parser with a buffer of 32 bytes for the driver `payload_callbacks`,
awaiting a response in `STATE_READLINE`. -/
def payload_instance : AtParser Unit :=
  at_parser_await_response (at_parser_alloc 32 payload_callbacks ())

/-- The header line `"R3"`. -/
def str_R3 : List Nat := [82, 51]

/-- The header line `"X2"`. -/
def str_X2 : List Nat := [88, 50]

/-- A raw payload of 3 bytes: CR, LF and the letter `O`. -/
def raw_payload : List Nat := [13, 10, 79]

/-- A payload of 2 bytes, `0xDE` and `0x0A`. -/
def hex_payload : List Nat := [222, 10]

/-- The prompt `"> "`. -/
def str_prompt : List Nat := [62, 32]

/-- The parser `plain_instance` with the prompt `"> "` armed, awaiting a
response in `STATE_DATAPROMPT`, the line `"OK"` received and not yet
terminated. -/
def prompt_instance_OK : AtParser Unit :=
  (at_parser_feed (at_parser_await_response
    (at_parser_expect_dataprompt plain_instance (some str_prompt))) str_OK).1

/-- The line `"AT"`. -/
def str_AT : List Nat := [65, 84]

/-- The header line `"X1"`. -/
def str_X1 : List Nat := [88, 49]

/-- A parser with a buffer of 4 bytes for the driver `plain_callbacks`, as
`at_parser_alloc` returns it. -/
def small_instance : AtParser Unit := at_parser_alloc 4 plain_callbacks ()

/-- The line `"ABC"`. -/
def str_ABC : List Nat := [65, 66, 67]

/-- The line `"ABCD"`. -/
def str_ABCD : List Nat := [65, 66, 67, 68]

/-- The parser `payload_instance` after the header line `"X1"` CR LF, in
`STATE_HEXDATA` with one payload byte to come. -/
def hex1_instance : AtParser Unit :=
  (at_parser_feed payload_instance (str_X1 ++ [13, 10])).1

/-- The four characters `"AB C"`. -/
def str_AB_C : List Nat := [65, 66, 32, 67]

/-- The parser `plain_instance` with the prompt `"> "` armed, awaiting a
response in `STATE_DATAPROMPT`, after the echoed line `"AT"` CR LF and the
two characters of the prompt. -/
def prompt_instance_echo : AtParser Unit :=
  (at_parser_feed (at_parser_await_response
    (at_parser_expect_dataprompt plain_instance (some str_prompt)))
    (str_AT ++ [13, 10] ++ str_prompt)).1

/-- The C `isspace`, in the C locale. -/
def isspace (c : Nat) : Bool := c == 32 || (decide (9 ≤ c) && decide (c ≤ 13))

/-- Whether `sscanf(s, "%d,", &n)` returns 1, that is, whether the conversion
`%d` succeeds on the C string `s`: after optional white space and an optional
sign there is a decimal digit. -/
def sscanf_int_matches (s : List Nat) : Bool :=
  match (cstr s).dropWhile isspace with
  | [] => false
  | c :: t =>
    if c = 43 ∨ c = 45 then
      match t with
      | [] => false
      | d :: _ => decide (48 ≤ d ∧ d ≤ 57)
    else decide (48 ≤ c ∧ c ≤ 57)

/-- The function `character_handler_nmgr` of `modem/at-nb501.c`: at a comma it
terminates the line in progress (`line[len] = 0`) and, when the line starts
with a number, uninstalls itself and returns a line feed.  Its call
`at_set_character_handler(priv, NULL)` goes through the channel, which is not
among the sources, and is taken to clear the handler of the parser. -/
def character_handler_nmgr_run (ch : Nat) (line : List Nat) (len : Nat) (priv : σ) :
    at_handler_result σ (at_character_handler σ) :=
  if ch = 44 then
    if sscanf_int_matches (line.take len) = true then
      { ch := 10, writes := [(len, 0)], set_handler := some none, priv := priv }
    else
      { ch := ch, writes := [(len, 0)], set_handler := none, priv := priv }
  else
    { ch := ch, writes := [], set_handler := none, priv := priv }

/-- The handler `character_handler_nmgr` as a value. -/
def character_handler_nmgr : at_character_handler σ :=
  at_character_handler.mk character_handler_nmgr_run

/-- A parser with a buffer of 6 bytes for the driver `plain_callbacks`, as
`at_parser_alloc` returns it. -/
def six_instance : AtParser Unit := at_parser_alloc 6 plain_callbacks ()

/-- The parser `small_instance` awaiting a response, after the intermediate
line `"ABC"` CR LF, which fills its buffer of 4 bytes. -/
def small_instance_full : AtParser Unit :=
  (at_parser_feed (at_parser_await_response small_instance) (str_ABC ++ [13, 10])).1

/-- The four characters `"ERRO"`. -/
def str_ERRO : List Nat := [69, 82, 82, 79]

/-- Whether `strcmp(a, b)` is 0, on NUL-terminated strings. -/
def strcmp_eq (a b : List Nat) : Bool := cstr a == cstr b

/-- The constant `SIM800_NSOCKETS` of `modem/at-sim800.c`: the number of
elements of the array `socket_status` of `struct cellular_sim800`, whose
indices are `0 .. SIM800_NSOCKETS - 1`. -/
def SIM800_NSOCKETS : Nat := 6

/-- The enumerator `SIM800_SOCKET_STATUS_ERROR`. -/
def SIM800_SOCKET_STATUS_ERROR : Int := -1

/-- The enumerator `SIM800_SOCKET_STATUS_CONNECTED`. -/
def SIM800_SOCKET_STATUS_CONNECTED : Int := 1

/-- The table `sim800_urc_responses` of `modem/at-sim800.c` (without its `NULL`
sentinel), in order: `"+CIPRXGET: 1,"`, `"+BTSPPMAN: "`, `"+BTPAIRING: "`,
`"+BTPAIR: "`, `"+BTCONNECTING: "`, `"+BTCONNECT: "`, `"+BTDISCONN: "`,
`"+PDP: DEACT"`, `"+SAPBR 1: DEACT"`, `"*PSNWID: "`, `"*PSUTTZ: "`, `"+CTZV: "`,
`"DST: "`, `"+CIEV: "`, `"RDY"`, `"+CPIN: READY"`, `"Call Ready"`,
`"SMS Ready"`, `"NORMAL POWER DOWN"`, `"UNDER-VOLTAGE POWER DOWN"`,
`"UNDER-VOLTAGE WARNNING"`, `"OVER-VOLTAGE POWER DOWN"`,
`"OVER-VOLTAGE WARNNING"`. -/
def sim800_urc_responses : List (List Nat) :=
  [[43, 67, 73, 80, 82, 88, 71, 69, 84, 58, 32, 49, 44],
   [43, 66, 84, 83, 80, 80, 77, 65, 78, 58, 32],
   [43, 66, 84, 80, 65, 73, 82, 73, 78, 71, 58, 32],
   [43, 66, 84, 80, 65, 73, 82, 58, 32],
   [43, 66, 84, 67, 79, 78, 78, 69, 67, 84, 73, 78, 71, 58, 32],
   [43, 66, 84, 67, 79, 78, 78, 69, 67, 84, 58, 32],
   [43, 66, 84, 68, 73, 83, 67, 79, 78, 78, 58, 32],
   [43, 80, 68, 80, 58, 32, 68, 69, 65, 67, 84],
   [43, 83, 65, 80, 66, 82, 32, 49, 58, 32, 68, 69, 65, 67, 84],
   [42, 80, 83, 78, 87, 73, 68, 58, 32],
   [42, 80, 83, 85, 84, 84, 90, 58, 32],
   [43, 67, 84, 90, 86, 58, 32],
   [68, 83, 84, 58, 32],
   [43, 67, 73, 69, 86, 58, 32],
   [82, 68, 89],
   [43, 67, 80, 73, 78, 58, 32, 82, 69, 65, 68, 89],
   [67, 97, 108, 108, 32, 82, 101, 97, 100, 121],
   [83, 77, 83, 32, 82, 101, 97, 100, 121],
   [78, 79, 82, 77, 65, 76, 32, 80, 79, 87, 69, 82, 32, 68, 79, 87, 78],
   [85, 78, 68, 69, 82, 45, 86, 79, 76, 84, 65, 71, 69, 32, 80, 79, 87, 69, 82, 32, 68, 79, 87, 78],
   [85, 78, 68, 69, 82, 45, 86, 79, 76, 84, 65, 71, 69, 32, 87, 65, 82, 78, 78, 73, 78, 71],
   [79, 86, 69, 82, 45, 86, 79, 76, 84, 65, 71, 69, 32, 80, 79, 87, 69, 82, 32, 68, 79, 87, 78],
   [79, 86, 69, 82, 45, 86, 79, 76, 84, 65, 71, 69, 32, 87, 65, 82, 78, 78, 73, 78, 71]]

/-- The string `", "`. -/
def str_comma_space : List Nat := [44, 32]

/-- The string `"CONNECT OK"`. -/
def str_CONNECT_OK : List Nat := [67, 79, 78, 78, 69, 67, 84, 32, 79, 75]

/-- The string `"CONNECT FAIL"`. -/
def str_CONNECT_FAIL : List Nat := [67, 79, 78, 78, 69, 67, 84, 32, 70, 65, 73, 76]

/-- The string `"ALREADY CONNECT"`. -/
def str_ALREADY_CONNECT : List Nat :=
  [65, 76, 82, 69, 65, 68, 89, 32, 67, 79, 78, 78, 69, 67, 84]

/-- The string `"CLOSED"`. -/
def str_CLOSED : List Nat := [67, 76, 79, 83, 69, 68]

/-- What one call of the `scan_line` of `modem/at-sim800.c` does: the response
type it returns and the store it makes into the array `priv->socket_status`, as
the pair of the index and the value stored (`none`: no store).  The function
reads no field of `priv` and makes no other store. -/
structure scan_line_result where
  type : Nat
  store : Option (Nat × Int)
  deriving DecidableEq, Repr

/-- The function `scan_line` of `modem/at-sim800.c`.  The character `line[0]`
of an empty line is its terminator. -/
def sim800.scan_line (line : List Nat) (_len : Nat) : scan_line_result :=
  if at_prefix_in_table line sim800_urc_responses then
    { type := AT_RESPONSE_URC, store := none }
  else if 48 ≤ line.headD 0 ∧ line.headD 0 ≤ 48 + SIM800_NSOCKETS ∧
      strncmp_eq (line.drop 1) str_comma_space 2 = true then
    let socket := line.headD 0 - 48
    if strcmp_eq (line.drop 3) str_CONNECT_OK then
      { type := AT_RESPONSE_URC, store := some (socket, SIM800_SOCKET_STATUS_CONNECTED) }
    else if strcmp_eq (line.drop 3) str_CONNECT_FAIL ||
        strcmp_eq (line.drop 3) str_ALREADY_CONNECT ||
        strcmp_eq (line.drop 3) str_CLOSED then
      { type := AT_RESPONSE_URC, store := some (socket, SIM800_SOCKET_STATUS_ERROR) }
    else { type := AT_RESPONSE_UNKNOWN, store := none }
  else { type := AT_RESPONSE_UNKNOWN, store := none }

/-- The line `"6, CONNECT OK"`. -/
def str_6_CONNECT_OK : List Nat := [54, 44, 32, 67, 79, 78, 78, 69, 67, 84, 32, 79, 75]

/-- The line `"5, CLOSED"`. -/
def str_5_CLOSED : List Nat := [53, 44, 32, 67, 76, 79, 83, 69, 68]

/-- Whether `hex2int` takes the character for a hex digit. -/
def is_hex (c : Nat) : Bool := decide (hex2int c ≠ -1)

/-- The number of hex digits a parser in `STATE_HEXDATA` still expects: two for
every payload byte to come, one less when a high nibble is held. -/
def hex_remaining (p : AtParser σ) : Nat :=
  2 * p.data_left - (if p.nibble = -1 then 0 else 1)

/-- The hex digits `"dE"` of the byte `0xDE` and `"0a"` of the byte `0x0A`,
with a space, a CR, an LF and a comma among them. -/
def hex_payload_spaced : List Nat := [32, 100, 13, 10, 69, 44, 48, 32, 97]

/-- The parser `payload_instance` after the header line `"X2"` CR LF, in
`STATE_HEXDATA` with two payload bytes to come. -/
def hex2_instance : AtParser Unit :=
  (at_parser_feed payload_instance (str_X2 ++ [13, 10])).1

/-- The string `"C: 5"`. -/
def str_C_5 : List Nat := [67, 58, 32, 53]

/-- The function `scanner_cipstatus` of `modem/at-sim800.c`. -/
def scanner_cipstatus (line : List Nat) (_len : Nat) (arg : σ) : Nat × σ :=
  if strcmp_eq line str_OK then (AT_RESPONSE_INTERMEDIATE, arg)
  else if strncmp_eq line str_C_5 (strlen str_C_5) then (AT_RESPONSE_FINAL, arg)
  else (AT_RESPONSE_UNKNOWN, arg)

/-- A parser with a buffer of 48 bytes whose `scan_line` is the scanner
`scanner_cipstatus`, as the SIM800 driver installs it for `AT+CIPSTATUS`; its
handlers do nothing. -/
def cipstatus_instance : AtParser Unit :=
  at_parser_alloc 48
    { scan_line := some scanner_cipstatus, handle_response := fun _ _ s => s,
      handle_urc := fun _ _ s => s } ()

/-- The line `C: 5,0,"","","","INITIAL"`, the last line of the answer to
`AT+CIPSTATUS`. -/
def str_C_5_INITIAL : List Nat :=
  [67, 58, 32, 53, 44, 48, 44, 34, 34, 44, 34, 34, 44, 34, 34, 44, 34, 73, 78, 73, 84, 73, 65,
   76, 34]

/-- The `scan_line` of the callbacks `cbs`, if there is one, never returns a
type that announces payload bytes: the tag of what it returns is neither
`_AT_RESPONSE_RAWDATA_FOLLOWS` nor `_AT_RESPONSE_HEXDATA_FOLLOWS`. -/
def no_payload (cbs : at_parser_callbacks σ) : Prop :=
  ∀ scan, cbs.scan_line = some scan → ∀ (line : List Nat) (len : Nat) (s : σ),
    (scan line len s).1 &&& _AT_RESPONSE_TYPE_MASK ≠ _AT_RESPONSE_RAWDATA_FOLLOWS ∧
    (scan line len s).1 &&& _AT_RESPONSE_TYPE_MASK ≠ _AT_RESPONSE_HEXDATA_FOLLOWS

/-- The parser has the callbacks `cbs` and no character handler, is in one of
the three states that read lines, and in `STATE_DATAPROMPT` its buffer is not
the armed prompt unless the line in progress is empty. -/
def line_mode (cbs : at_parser_callbacks σ) (p : AtParser σ) : Prop :=
  p.cbs = cbs ∧ p.character_handler = none ∧
  (p.state = STATE_IDLE ∨ p.state = STATE_READLINE ∨ p.state = STATE_DATAPROMPT) ∧
  (p.state = STATE_DATAPROMPT → dataprompt_matches p = true → p.buf_used = p.buf_current)

/-- A stream with carriage returns: CR `"OK"` CR CR LF CR `"A"` CR. -/
def cr_stream : List Nat := [13] ++ str_OK ++ [13, 13, 10, 13] ++ str_A ++ [13]

/-- The table `nb501_urc_responses` of `modem/at-nb501.c`: it holds nothing but
its `NULL` sentinel. -/
def nb501_urc_responses : List (List Nat) := []

/-- The function `scan_line` of `modem/at-nb501.c`. -/
def nb501.scan_line (line : List Nat) (_len : Nat) (arg : σ) : Nat × σ :=
  if at_prefix_in_table line nb501_urc_responses then (AT_RESPONSE_URC, arg)
  else (AT_RESPONSE_UNKNOWN, arg)

/-- The C `isdigit`. -/
def isdigit (c : Nat) : Bool := decide (48 ≤ c ∧ c ≤ 57)

/-- The number a run of decimal digits denotes. -/
def decimal_value (ds : List Nat) : Nat := ds.foldl (fun n d => 10 * n + (d - 48)) 0

/-- The conversion `%d` of `sscanf` on the C string `s`: the `int` stored
when the conversion succeeds (optional white space, an optional sign, a
non-empty run of decimal digits), `none` when it fails.  A number outside the
range of `int` is stored truncated to its low 32 bits. -/
def sscanf_int (s : List Nat) : Option Int :=
  match (cstr s).dropWhile isspace with
  | [] => none
  | c :: t =>
    if c = 43 ∨ c = 45 then
      if t.takeWhile isdigit = [] then none
      else some (to_int (((if c = 45 then -1 else 1) *
        (decimal_value (t.takeWhile isdigit) : Int)) % 2 ^ 32).toNat)
    else if isdigit c = true then
      some (to_int (decimal_value ((c :: t).takeWhile isdigit) % 2 ^ 32))
    else none

/-- The C `strchr(s, c)` for a character `c` other than NUL: the string from
the first `c` on, `none` (`NULL`) when the string has none. -/
def strchr (s : List Nat) (c : Nat) : Option (List Nat) :=
  if c ∈ cstr s then some (s.dropWhile (fun x => x != c)) else none

/-- What a call of `socket_recv` does to its caller: the value returned and the
number of bytes it stores from `buffer` on (the third argument of its
`memcpy`, 0 when it copies nothing). -/
structure socket_recv_result where
  ret : Int
  copied : Nat
  deriving DecidableEq, Repr

/-- The function `nb501_socket_recv` of `modem/at-nb501.c`, from the return of
its call `at_command(modem->at, "AT+NMGR")` on: `response` is the response
body the channel returns (`none`: `NULL`).  The count `read` is converted to
`size_t` for `memcpy`. -/
def nb501_socket_recv (response : Option (List Nat)) (_length : Nat) :
    socket_recv_result :=
  match response with
  | none => { ret := -2, copied := 0 }
  | some response =>
    match sscanf_int response with
    | none => { ret := -1, copied := 0 }
    | some read =>
      match strchr response 10 with
      | none => { ret := -1, copied := 0 }
      | some _ => { ret := read, copied := to_size_t read }

/-- The function `scanner_nmgr` of `modem/at-nb501.c`: a line that starts with
a number other than 0 announces that many hex-encoded payload bytes.  The
`int` that `sscanf` converts is stored over the low 32 bits of the `size_t`
`len`, whose other bits are 0 (it held the length of the line); the packed
type is returned as an `int`, which keeps its low 32 bits. -/
def scanner_nmgr (line : List Nat) (_len : Nat) (arg : σ) : Nat × σ :=
  match sscanf_int line with
  | some n =>
    if 0 < (n % 2 ^ 32).toNat then
      (AT_RESPONSE_HEXDATA_FOLLOWS (n % 2 ^ 32).toNat % 2 ^ 32, arg)
    else (AT_RESPONSE_UNKNOWN, arg)
  | none => (AT_RESPONSE_UNKNOWN, arg)

/-- The parser as `nb501_socket_recv` sets it up for the command `AT+NMGR`: a
buffer of 32 bytes, the scanner `scanner_nmgr` consulted for every line, the
handler `character_handler_nmgr` installed, a response awaited. -/
def nmgr_recv_instance : AtParser Unit :=
  at_parser_set_character_handler
    (at_parser_await_response (at_parser_alloc 32
      { scan_line := some scanner_nmgr, handle_response := fun _ _ s => s,
        handle_urc := fun _ _ s => s } ()))
    (some character_handler_nmgr)

/-- The modem's answer to `AT+NMGR` carrying a message of 2 bytes: `"2,ABCD"`
CR LF `"OK"` CR LF. -/
def nmgr_stream : List Nat := [50, 44, 65, 66, 67, 68, 13, 10] ++ str_OK ++ [13, 10]

/-- The response body of `nmgr_stream`: the header `"2,"`, a newline, and the
bytes `0xAB`, `0xCD`. -/
def nmgr_response : List Nat := [50, 44, 10, 171, 205]

/-- In `STATE_DATAPROMPT` a prompt is armed: the pointer `parser->dataprompt`
that the test of the armed prompt in `at_parser_feed` passes to `strlen` is not
`NULL`. -/
def prompt_armed (p : AtParser σ) : Prop :=
  p.state = STATE_DATAPROMPT → p.dataprompt ≠ none

/-- A call the source completes on the parser `p`: bytes are fed only to a
parser that, in `STATE_DATAPROMPT`, has a prompt armed (with a `NULL` prompt
`at_parser_feed` reads through the null pointer). -/
def at_call.defined (p : AtParser σ) : at_call σ → Prop
  | .feed _ => prompt_armed p
  | _ => True

/-- A sequence of calls each of which the source completes. -/
def calls_defined (p : AtParser σ) : List (at_call σ) → Prop
  | [] => True
  | c :: cs => at_call.defined p c ∧ calls_defined (at_call.apply p c) cs

/-- The line `"AB"`. -/
def str_AB : List Nat := [65, 66]

/-- A parser with a buffer of 8 bytes for the driver `plain_callbacks`, as
`at_parser_alloc` returns it. -/
def eight_instance : AtParser Unit := at_parser_alloc 8 plain_callbacks ()

/-- A parser with a buffer of 7 bytes for the driver `payload_callbacks`,
awaiting a response in `STATE_READLINE`. -/
def seven_instance : AtParser Unit :=
  at_parser_await_response (at_parser_alloc 7 payload_callbacks ())

/-- The parser `small_instance` awaiting a response, after the intermediate
line `"AB"` CR LF, which with its newline fills the buffer of 4 bytes. -/
def small_instance_AB : AtParser Unit :=
  (at_parser_feed (at_parser_await_response (at_parser_reset small_instance))
    (wire_lines [str_AB])).1

/-- The parser `seven_instance` after the header line `"R3"` CR LF and the 3
payload bytes of `raw_payload`, which fill the buffer of 7 bytes. -/
def seven_instance_full : AtParser Unit :=
  (at_parser_feed (at_parser_feed seven_instance (str_R3 ++ [13, 10])).1 raw_payload).1



theorem at_parser_feed_append (p : AtParser σ) (A B : List Nat) :
    at_parser_feed p (A ++ B) =
      ((at_parser_feed (at_parser_feed p A).1 B).1,
       (at_parser_feed p A).2 ++ (at_parser_feed (at_parser_feed p A).1 B).2) := by
  induction A generalizing p with
  | nil => simp [at_parser_feed]
  | cons a A ih =>
    rw [List.cons_append]
    simp only [at_parser_feed]
    rw [ih]
    simp

theorem size_minus_one_pos {n : Nat} (h : 0 < n) : size_minus_one n = n - 1 := by
  unfold size_minus_one
  rw [if_neg (by omega)]

theorem parser_append_cursors (p : AtParser σ) (ch : Nat) (h : cursors_ok p) :
    cursors_kept p (parser_append p ch) ∧
      (parser_append p ch).buf_current = p.buf_current := by
  obtain ⟨h1, h2⟩ := h
  have hs := size_minus_one_pos (Nat.zero_lt_of_lt h2)
  unfold parser_append cursors_kept cursors_ok
  by_cases hlt : p.buf_used < size_minus_one p.buf_size
  · rw [if_pos hlt]
    rw [hs] at hlt
    dsimp only
    omega
  · rw [if_neg hlt]
    exact ⟨⟨⟨h1, h2⟩, rfl⟩, rfl⟩

theorem parser_include_line_cursors (p : AtParser σ) (h : cursors_ok p) :
    cursors_kept p (parser_include_line p) := by
  obtain ⟨⟨⟨h1, h2⟩, h3⟩, _⟩ := parser_append_cursors p 10 h
  exact ⟨⟨le_refl _, h2⟩, h3⟩

theorem parser_discard_line_cursors (p : AtParser σ) (h : cursors_ok p) :
    cursors_kept p (parser_discard_line p) := by
  obtain ⟨h1, h2⟩ := h
  exact ⟨⟨le_refl _, lt_of_le_of_lt h1 h2⟩, rfl⟩

theorem determine_type_cursors (p : AtParser σ) (line : List Nat) (len : Nat)
    (h : cursors_ok p) : cursors_kept p (determine_type p line len).2 := by
  unfold determine_type
  dsimp only
  split <;> exact ⟨h, rfl⟩

theorem cursors_kept_trans {p q r : AtParser σ} (h1 : cursors_kept p q)
    (h2 : cursors_kept q r) : cursors_kept p r :=
  ⟨h2.1, h2.2.trans h1.2⟩

theorem parser_finalize_buf_size (p : AtParser σ) :
    (parser_finalize p).buf_size = p.buf_size := by
  unfold parser_finalize
  dsimp only
  split <;> rfl

theorem parser_act_cursors (p : AtParser σ) (type : Nat) (h : cursors_ok p) :
    cursors_kept p (parser_act p type).1 := by
  have hpos : 0 < p.buf_size := Nat.zero_lt_of_lt h.2
  unfold parser_act
  dsimp only
  split
  · refine ⟨⟨le_refl _, ?_⟩, ?_⟩
    · show 0 < (parser_finalize p).buf_size
      rw [parser_finalize_buf_size]
      exact hpos
    · exact parser_finalize_buf_size p
  · split
    · exact ⟨h, rfl⟩
    · split
      · exact ⟨h, rfl⟩
      · exact ⟨h, rfl⟩

theorem parser_fire_urc_cursors (p : AtParser σ) (line : List Nat) (len : Nat)
    (h : cursors_ok p) : cursors_kept p (parser_fire_urc p line len).1 :=
  ⟨⟨le_refl _, lt_of_le_of_lt h.1 h.2⟩, rfl⟩

theorem parser_handle_line_cursors (p : AtParser σ) (h : cursors_ok p) :
    cursors_kept p (parser_handle_line p).1 := by
  unfold parser_handle_line
  by_cases he : p.buf_used = p.buf_current
  · rw [if_pos he]; exact ⟨h, rfl⟩
  · rw [if_neg he]
    dsimp only
    have h0 : cursors_kept p (parser_terminate p) := ⟨h, rfl⟩
    have h1 := cursors_kept_trans h0 (determine_type_cursors (parser_terminate p)
      (current_line (parser_terminate p))
      ((parser_terminate p).buf_used - (parser_terminate p).buf_current) h0.1)
    generalize determine_type _ _ _ = r at h1
    split
    · exact cursors_kept_trans h1 (parser_fire_urc_cursors _ _ _ h1.1)
    · refine cursors_kept_trans (cursors_kept_trans h1 ?_) (parser_act_cursors _ _ ?_)
      · split
        · exact parser_include_line_cursors _ h1.1
        · exact parser_discard_line_cursors _ h1.1
      · split
        · exact (parser_include_line_cursors _ h1.1).1
        · exact (parser_discard_line_cursors _ h1.1).1

theorem call_character_handler_cursors (p : AtParser σ) (ch : Nat) (h : cursors_ok p) :
    cursors_kept p (call_character_handler p ch).1 := by
  unfold call_character_handler
  split
  · exact ⟨h, rfl⟩
  · exact ⟨h, rfl⟩

theorem at_parser_feed_line_cursors (p : AtParser σ) (ch : Nat) (h : cursors_ok p) :
    cursors_kept p (at_parser_feed_line p ch).1 := by
  unfold at_parser_feed_line
  dsimp only
  have h1 : cursors_kept p (if ch ≠ 13 ∧ ch ≠ 10 then parser_append p ch else p) := by
    split
    · exact (parser_append_cursors p ch h).1
    · exact ⟨h, rfl⟩
  generalize (if ch ≠ 13 ∧ ch ≠ 10 then parser_append p ch else p) = q at h1
  have h2 := cursors_kept_trans h1 (call_character_handler_cursors q ch h1.1)
  generalize call_character_handler q ch = r at h2
  split
  · exact cursors_kept_trans h2 (parser_handle_line_cursors _ h2.1)
  · exact h2

theorem parser_data_done_cursors (p : AtParser σ) (h : cursors_ok p) :
    cursors_kept p (parser_data_done p) := by
  unfold parser_data_done
  split
  · exact parser_include_line_cursors p h
  · exact ⟨h, rfl⟩

theorem at_parser_feed_rawdata_cursors (p : AtParser σ) (ch : Nat) (h : cursors_ok p) :
    cursors_kept p (at_parser_feed_rawdata p ch) := by
  unfold at_parser_feed_rawdata
  dsimp only
  refine cursors_kept_trans ?_ (parser_data_done_cursors _ ?_)
  · split
    · exact (parser_append_cursors p ch h).1
    · exact ⟨h, rfl⟩
  · split
    · exact (parser_append_cursors p ch h).1.1
    · exact h

theorem at_parser_feed_hexdata_cursors (p : AtParser σ) (ch : Nat) (h : cursors_ok p) :
    cursors_kept p (at_parser_feed_hexdata p ch) := by
  unfold at_parser_feed_hexdata
  dsimp only
  refine cursors_kept_trans ?_ (parser_data_done_cursors _ ?_)
  · split
    · split
      · split
        · exact ⟨h, rfl⟩
        · exact (parser_append_cursors { p with nibble := -1 } _ h).1
      · exact ⟨h, rfl⟩
    · exact ⟨h, rfl⟩
  · split
    · split
      · split
        · exact h
        · exact (parser_append_cursors { p with nibble := -1 } _ h).1.1
      · exact h
    · exact h

theorem at_parser_feed_byte_cursors (p : AtParser σ) (ch : Nat) (h : cursors_ok p) :
    cursors_kept p (at_parser_feed_byte p ch).1 := by
  unfold at_parser_feed_byte
  split
  · exact at_parser_feed_line_cursors p ch h
  · exact at_parser_feed_line_cursors p ch h
  · exact at_parser_feed_line_cursors p ch h
  · exact at_parser_feed_rawdata_cursors p ch h
  · exact at_parser_feed_hexdata_cursors p ch h

theorem at_parser_feed_cursors (p : AtParser σ) (data : List Nat) (h : cursors_ok p) :
    cursors_kept p (at_parser_feed p data).1 := by
  induction data generalizing p with
  | nil => exact ⟨h, rfl⟩
  | cons ch data ih =>
    have h1 := at_parser_feed_byte_cursors p ch h
    exact cursors_kept_trans h1 (ih _ h1.1)

theorem at_call_apply_cursors (p : AtParser σ) (c : at_call σ) (h : cursors_ok p) :
    cursors_kept p (at_call.apply p c) := by
  have hpos : 0 < p.buf_size := Nat.zero_lt_of_lt h.2
  cases c with
  | reset => exact ⟨⟨le_refl _, hpos⟩, rfl⟩
  | await_response => exact ⟨h, rfl⟩
  | expect_dataprompt prompt => exact ⟨h, rfl⟩
  | set_character_handler handler => exact ⟨h, rfl⟩
  | feed data => exact at_parser_feed_cursors p data h

theorem at_parser_calls_cursors (p : AtParser σ) (cs : List (at_call σ)) (h : cursors_ok p) :
    cursors_kept p (at_parser_calls p cs) := by
  induction cs generalizing p with
  | nil => exact ⟨h, rfl⟩
  | cons c cs ih =>
    have h1 := at_call_apply_cursors p c h
    exact cursors_kept_trans h1 (ih _ h1.1)

/-- C1: feeding `A` and then `B` leaves the parser in the same state, and
makes the same `handle_urc` / `handle_response` calls in the same order, as
feeding `A ++ B` at once; for every parser state and every callback set. -/
theorem C1_feed_chunk_invariant (p : AtParser σ) (A B : List Nat) :
    (at_parser_feed (at_parser_feed p A).1 B).1 = (at_parser_feed p (A ++ B)).1 ∧
      (at_parser_feed p A).2 ++ (at_parser_feed (at_parser_feed p A).1 B).2 =
        (at_parser_feed p (A ++ B)).2 := by
  rw [at_parser_feed_append]
  exact ⟨rfl, rfl⟩

theorem take_set_succ (l : List Nat) (n v : Nat) (h : n < l.length) :
    (l.set n v).take (n + 1) = l.take n ++ [v] := by
  induction l generalizing n with
  | nil => simp at h
  | cons a l ih =>
    cases n with
    | zero => simp
    | succ n =>
      simp only [List.length_cons, Nat.add_lt_add_iff_right] at h
      simp [ih n h]

theorem take_set_le (l : List Nat) (n m v : Nat) (h : m ≤ n) :
    (l.set n v).take m = l.take m := by
  induction l generalizing n m with
  | nil => simp
  | cons a l ih =>
    cases n with
    | zero =>
      have : m = 0 := by omega
      subst this
      simp
    | succ n =>
      cases m with
      | zero => simp
      | succ m => simp [ih n m (by omega)]

theorem take_append_of_take (l a b : List Nat) (h : l.take (a.length + b.length) = a ++ b) :
    l.take a.length = a := by
  have := congrArg (List.take a.length) h
  rw [List.take_take] at this
  simpa using this

theorem current_line_eq (p : AtParser σ) :
    current_line p = (p.buf.take p.buf_used).drop p.buf_current := by
  unfold current_line
  rw [List.drop_take]

theorem in_line_current_line {st : at_parser_state} {cbs : at_parser_callbacks σ}
    {hd : Option (at_character_handler σ)} {size : Nat} {body line : List Nat} {p : AtParser σ}
    (h : in_line st cbs hd size body line p) : current_line p = line := by
  obtain ⟨_, _, _, _, _, hc, hu, ht, _⟩ := h
  rw [current_line_eq, hu, ht, hc]
  simp

theorem in_line_terminate {st : at_parser_state} {cbs : at_parser_callbacks σ}
    {hd : Option (at_character_handler σ)} {size : Nat} {body line : List Nat} {p : AtParser σ}
    (h : in_line st cbs hd size body line p) :
    in_line st cbs hd size body line (parser_terminate p) := by
  obtain ⟨h1, h2, h3, h4, h5, hc, hu, ht, hlt⟩ := h
  refine ⟨h1, h2, h3, h4, ?_, hc, hu, ?_, hlt⟩
  · simp [parser_terminate, h5]
  · simp only [parser_terminate]
    rw [hu, take_set_le _ _ _ _ (le_refl _)]
    exact ht

theorem parser_append_in_line {st : at_parser_state} {cbs : at_parser_callbacks σ}
    {hd : Option (at_character_handler σ)} {size : Nat} {body line : List Nat} {p : AtParser σ} (ch : Nat)
    (h : in_line st cbs hd size body line p) (hroom : body.length + line.length + 1 < size) :
    in_line st cbs hd size body (line ++ [ch]) (parser_append p ch) := by
  obtain ⟨h1, h2, h3, h4, h5, hc, hu, ht, hlt⟩ := h
  have hs : size_minus_one p.buf_size = size - 1 := by
    rw [h4]; exact size_minus_one_pos (by omega)
  have hr : p.buf_used < size_minus_one p.buf_size := by rw [hs, hu]; omega
  unfold parser_append
  rw [if_pos hr]
  refine ⟨h1, h2, h3, h4, ?_, hc, ?_, ?_, ?_⟩
  · simp [h5]
  · simp [hu]; omega
  · dsimp only
    rw [List.length_append, List.length_singleton, ← Nat.add_assoc, hu,
      take_set_succ _ _ _ (by omega), ht, List.append_assoc]
  · simp; omega

theorem parser_append_full {st : at_parser_state} {cbs : at_parser_callbacks σ}
    {hd : Option (at_character_handler σ)} {size : Nat} {body line : List Nat} {p : AtParser σ} (ch : Nat)
    (h : in_line st cbs hd size body line p) (hfull : body.length + line.length + 1 = size) :
    parser_append p ch = p := by
  obtain ⟨h1, h2, h3, h4, h5, hc, hu, ht, hlt⟩ := h
  have hs : size_minus_one p.buf_size = size - 1 := by
    rw [h4]; exact size_minus_one_pos (by omega)
  unfold parser_append
  rw [if_neg (by rw [hs, hu]; omega)]

theorem call_character_handler_none (p : AtParser σ) (ch : Nat)
    (h : p.character_handler = none) : call_character_handler p ch = (p, ch) := by
  unfold call_character_handler
  rw [h]


theorem at_parser_feed_byte_char {st : at_parser_state} {cbs : at_parser_callbacks σ}
    {size : Nat} {body line : List Nat} {p : AtParser σ} (ch : Nat)
    (h : in_line st cbs none size body line p) (hst : st = STATE_IDLE ∨ st = STATE_READLINE)
    (h13 : ch ≠ 13) (h10 : ch ≠ 10) :
    at_parser_feed_byte p ch = (parser_append p ch, []) := by
  have hs := h.2.1
  have hh : (parser_append p ch).character_handler = none := by
    unfold parser_append; split <;> exact h.2.2.1
  have hs2 : (parser_append p ch).state = st := by
    unfold parser_append; split <;> exact hs
  have : at_parser_feed_line p ch = (parser_append p ch, []) := by
    have hq : (if ch ≠ 13 ∧ ch ≠ 10 then parser_append p ch else p) = parser_append p ch :=
      if_pos ⟨h13, h10⟩
    unfold at_parser_feed_line
    dsimp only
    rw [hq, call_character_handler_none _ _ hh]
    dsimp only
    apply if_neg
    rintro (h | ⟨h, _⟩)
    · exact h10 h
    · rw [hs2] at h; rcases hst with rfl | rfl <;> cases h
  unfold at_parser_feed_byte
  rw [hs]
  rcases hst with rfl | rfl <;> exact this

theorem at_parser_feed_byte_cr {st : at_parser_state} {cbs : at_parser_callbacks σ}
    {size : Nat} {body line : List Nat} {p : AtParser σ}
    (h : in_line st cbs none size body line p) (hst : st = STATE_IDLE ∨ st = STATE_READLINE) :
    at_parser_feed_byte p 13 = (p, []) := by
  have hs := h.2.1
  have : at_parser_feed_line p 13 = (p, []) := by
    have hq : (if (13 : Nat) ≠ 13 ∧ (13 : Nat) ≠ 10 then parser_append p 13 else p) = p :=
      if_neg (by simp)
    unfold at_parser_feed_line
    dsimp only
    rw [hq, call_character_handler_none _ _ h.2.2.1]
    dsimp only
    apply if_neg
    rintro (h | ⟨h, _⟩)
    · cases h
    · rw [hs] at h; rcases hst with rfl | rfl <;> cases h
  unfold at_parser_feed_byte
  rw [hs]
  rcases hst with rfl | rfl <;> exact this

theorem at_parser_feed_byte_lf {st : at_parser_state} {cbs : at_parser_callbacks σ}
    {size : Nat} {body line : List Nat} {p : AtParser σ}
    (h : in_line st cbs none size body line p) (hst : st = STATE_IDLE ∨ st = STATE_READLINE) :
    at_parser_feed_byte p 10 = parser_handle_line p := by
  have hs := h.2.1
  have : at_parser_feed_line p 10 = parser_handle_line p := by
    have hq : (if (10 : Nat) ≠ 13 ∧ (10 : Nat) ≠ 10 then parser_append p 10 else p) = p :=
      if_neg (by simp)
    unfold at_parser_feed_line
    dsimp only
    rw [hq, call_character_handler_none _ _ h.2.2.1]
    dsimp only
    exact if_pos (Or.inl rfl)
  unfold at_parser_feed_byte
  rw [hs]
  rcases hst with rfl | rfl <;> exact this

/-- Feeding characters other than CR and LF that fit in the buffer appends
them to the line in progress and fires no callback. -/
theorem at_parser_feed_chars {st : at_parser_state} {cbs : at_parser_callbacks σ}
    {size : Nat} {body : List Nat} (L : List Nat) (line : List Nat) (p : AtParser σ)
    (h : in_line st cbs none size body line p) (hst : st = STATE_IDLE ∨ st = STATE_READLINE)
    (hL : ∀ c ∈ L, c ≠ 13 ∧ c ≠ 10) (hroom : body.length + line.length + L.length < size) :
    (at_parser_feed p L).2 = [] ∧
      in_line st cbs none size body (line ++ L) (at_parser_feed p L).1 := by
  induction L generalizing line p with
  | nil => simpa [at_parser_feed] using h
  | cons c L ih =>
    have hc := hL c (List.mem_cons_self _ _)
    simp only [List.length_cons] at hroom
    have h1 := parser_append_in_line c h (by omega)
    have := ih (line ++ [c]) (parser_append p c) h1
      (fun x hx => hL x (List.mem_cons_of_mem _ hx)) (by simp; omega)
    simp only [at_parser_feed, at_parser_feed_byte_char c h hst hc.1 hc.2]
    simpa using this


theorem determine_type_snd (p : AtParser σ) (line : List Nat) (len : Nat) :
    (determine_type p line len).2 =
      { p with priv := (determine_type p line len).2.priv } := by
  unfold determine_type
  dsimp only
  split <;> rfl

theorem in_line_determine_type {st : at_parser_state} {cbs : at_parser_callbacks σ}
    {hd : Option (at_character_handler σ)} {size : Nat} {body line : List Nat} {p : AtParser σ} (l : List Nat) (n : Nat)
    (h : in_line st cbs hd size body line p) :
    in_line st cbs hd size body line (determine_type p l n).2 := by
  rw [determine_type_snd]
  exact h

/-- What `parser_handle_line` does on a non-empty line, in terms of the type
determined for it. -/
theorem parser_handle_line_eq {st : at_parser_state} {cbs : at_parser_callbacks σ}
    {hd : Option (at_character_handler σ)} {size : Nat} {body line : List Nat} {p : AtParser σ}
    (h : in_line st cbs hd size body line p) (hne : line ≠ []) :
    parser_handle_line p =
      if (determine_type (parser_terminate p) line line.length).1 = AT_RESPONSE_URC ∨
          st = STATE_IDLE then
        parser_fire_urc (determine_type (parser_terminate p) line line.length).2
          line line.length
      else
        parser_act
          (if (determine_type (parser_terminate p) line line.length).1 ≠ AT_RESPONSE_FINAL_OK
            then parser_include_line (determine_type (parser_terminate p) line line.length).2
            else parser_discard_line (determine_type (parser_terminate p) line line.length).2)
          (determine_type (parser_terminate p) line line.length).1 := by
  have ht := in_line_terminate h
  have hl := in_line_current_line ht
  have hlen : (parser_terminate p).buf_used - (parser_terminate p).buf_current = line.length := by
    rw [ht.2.2.2.2.2.2.1, ht.2.2.2.2.2.1]; omega
  have hne2 : ¬ p.buf_used = p.buf_current := by
    rw [h.2.2.2.2.2.2.1, h.2.2.2.2.2.1]
    have : 0 < line.length := List.length_pos.mpr hne
    omega
  have hst : (determine_type (parser_terminate p) line line.length).2.state = st :=
    (in_line_determine_type line line.length ht).2.1
  unfold parser_handle_line
  rw [if_neg hne2]
  dsimp only
  rw [hl, hlen, hst]

theorem parser_fire_urc_in_line {st : at_parser_state} {cbs : at_parser_callbacks σ}
    {hd : Option (at_character_handler σ)} {size : Nat} {body line : List Nat} {p : AtParser σ} (l : List Nat) (n : Nat)
    (h : in_line st cbs hd size body line p) :
    (parser_fire_urc p l n).2 = [at_event.urc l n] ∧
      in_line st cbs hd size body [] (parser_fire_urc p l n).1 := by
  obtain ⟨h1, h2, h3, h4, h5, hc, hu, ht, hlt⟩ := h
  refine ⟨rfl, h1, h2, h3, h4, h5, hc, ?_, ?_, ?_⟩
  · simpa [parser_fire_urc, parser_discard_line] using hc
  · simpa using take_append_of_take _ _ _ ht
  · simp; omega

theorem parser_discard_line_in_line {st : at_parser_state} {cbs : at_parser_callbacks σ}
    {hd : Option (at_character_handler σ)} {size : Nat} {body line : List Nat} {p : AtParser σ}
    (h : in_line st cbs hd size body line p) :
    in_line st cbs hd size body [] (parser_discard_line p) := by
  obtain ⟨h1, h2, h3, h4, h5, hc, hu, ht, hlt⟩ := h
  refine ⟨h1, h2, h3, h4, h5, hc, ?_, ?_, ?_⟩
  · simpa [parser_discard_line] using hc
  · simpa using take_append_of_take _ _ _ ht
  · simp; omega

theorem parser_include_line_in_line {st : at_parser_state} {cbs : at_parser_callbacks σ}
    {hd : Option (at_character_handler σ)} {size : Nat} {body line : List Nat} {p : AtParser σ}
    (h : in_line st cbs hd size body line p) (hroom : body.length + line.length + 1 < size) :
    in_line st cbs hd size (body ++ line ++ [10]) [] (parser_include_line p) := by
  obtain ⟨h1, h2, h3, h4, h5, hc, hu, ht, hlt⟩ := parser_append_in_line 10 h hroom
  unfold parser_include_line
  refine ⟨h1, h2, h3, h4, h5, ?_, ?_, ?_, ?_⟩
  · simpa [Nat.add_assoc] using hu
  · simpa [Nat.add_assoc] using hu
  · simpa [Nat.add_assoc] using ht
  · simp; omega

theorem in_line_set_state {st : at_parser_state} {cbs : at_parser_callbacks σ}
    {hd : Option (at_character_handler σ)} {size : Nat} {body line : List Nat} {p : AtParser σ} (st2 : at_parser_state) (n : Nat)
    (h : in_line st cbs hd size body line p) :
    in_line st2 cbs hd size body line { p with data_left := n, state := st2 } := by
  obtain ⟨h1, h2, h3, h4, h5, hc, hu, ht, hlt⟩ := h
  exact ⟨h1, rfl, h3, h4, h5, hc, hu, ht, hlt⟩

theorem parser_act_intermediate (p : AtParser σ) :
    parser_act p AT_RESPONSE_INTERMEDIATE = (p, []) := by
  unfold parser_act
  dsimp only
  rw [if_neg (by decide), if_neg (by decide), if_neg (by decide)]

/-- The buffer as `parser_finalize` leaves it, when no line is in progress. -/
theorem parser_finalize_in_line {st : at_parser_state} {cbs : at_parser_callbacks σ}
    {hd : Option (at_character_handler σ)} {size : Nat} {body : List Nat} {p : AtParser σ}
    (h : in_line st cbs hd size body [] p) :
    (parser_finalize p).buf_used = body.length - 1 ∧
      (parser_finalize p).buf.take (parser_finalize p).buf_used = body.dropLast := by
  obtain ⟨h1, h2, h3, h4, h5, hc, hu, ht, hlt⟩ := h
  simp only [List.length_nil, Nat.add_zero, List.append_nil] at hu ht
  unfold parser_finalize
  dsimp only
  split
  · dsimp only
    rw [hu, take_set_le _ _ _ _ (le_refl _), List.dropLast_eq_take, ← ht, List.take_take]
    simp
  · rename_i h0
    have hb : body.length = 0 := by omega
    have hb2 : body = [] := List.length_eq_zero.mp hb
    subst hb2
    simp [hu]

theorem parser_act_final (p : AtParser σ) (type : Nat)
    (h : type = AT_RESPONSE_FINAL_OK ∨ type = AT_RESPONSE_FINAL) :
    parser_act p type =
      (at_parser_reset { parser_finalize p with
          priv := (parser_finalize p).cbs.handle_response
            ((parser_finalize p).buf.take (parser_finalize p).buf_used)
            (parser_finalize p).buf_used (parser_finalize p).priv },
       [at_event.response ((parser_finalize p).buf.take (parser_finalize p).buf_used)
          (parser_finalize p).buf_used]) := by
  unfold parser_act
  dsimp only
  rw [if_pos]
  rcases h with rfl | rfl
  · left; decide
  · right; decide


theorem stored_lines_eq (L : List Nat) (lines : List (List Nat)) :
    stored_lines (L :: lines) = response_body (L :: lines) ++ [10] := by
  induction lines generalizing L with
  | nil => simp [stored_lines, response_body, List.intercalate]
  | cons L2 lines ih =>
    have := ih L2
    simp only [stored_lines, response_body, List.intercalate, List.map_cons,
      List.flatten_cons, List.intersperse_cons_cons] at this ⊢
    rw [this]
    simp

theorem stored_lines_dropLast (lines : List (List Nat)) :
    (stored_lines lines).dropLast = response_body lines ∧
      (stored_lines lines).length - 1 = (response_body lines).length := by
  cases lines with
  | nil => simp [stored_lines, response_body, List.intercalate]
  | cons L lines => rw [stored_lines_eq]; simp

theorem stored_lines_length (lines : List (List Nat)) :
    (stored_lines lines).length = (lines.map (fun L => L.length + 1)).sum := by
  induction lines with
  | nil => rfl
  | cons L lines ih =>
    simp only [stored_lines, List.map_cons, List.flatten_cons, List.length_append,
      List.sum_cons] at ih ⊢
    rw [ih]
    simp

/-- A complete line read in `STATE_READLINE`: the parser after its characters
and the CR, about to handle the LF. -/
theorem at_parser_feed_line_cr {cbs : at_parser_callbacks σ}
    {size : Nat} {body : List Nat} (L : List Nat) (p : AtParser σ)
    (h : in_line STATE_READLINE cbs none size body [] p)
    (hL : ∀ c ∈ L, c ≠ 13 ∧ c ≠ 10) (hroom : body.length + L.length < size) :
    at_parser_feed p (L ++ [13, 10]) = parser_handle_line (at_parser_feed p L).1 ∧
      in_line STATE_READLINE cbs none size body L (at_parser_feed p L).1 := by
  have h1 := at_parser_feed_chars L [] p h (Or.inr rfl) hL (by simpa using hroom)
  simp only [List.nil_append] at h1
  refine ⟨?_, h1.2⟩
  rw [at_parser_feed_append]
  simp only [at_parser_feed, at_parser_feed_byte_cr h1.2 (Or.inr rfl),
    at_parser_feed_byte_lf h1.2 (Or.inr rfl), h1.1, List.nil_append, List.append_nil]

theorem at_parser_feed_intermediate {cbs : at_parser_callbacks σ}
    {size : Nat} {body : List Nat} (L : List Nat) (p : AtParser σ)
    (h : in_line STATE_READLINE cbs none size body [] p) (hne : L ≠ [])
    (hL : ∀ c ∈ L, c ≠ 13 ∧ c ≠ 10)
    (hty : classified cbs L AT_RESPONSE_INTERMEDIATE)
    (hroom : body.length + L.length + 1 < size) :
    (at_parser_feed p (L ++ [13, 10])).2 = [] ∧
      in_line STATE_READLINE cbs none size (body ++ L ++ [10]) []
        (at_parser_feed p (L ++ [13, 10])).1 := by
  obtain ⟨h1, h2⟩ := at_parser_feed_line_cr L p h hL (by omega)
  have ht := in_line_terminate h2
  have hty2 := hty _ ht.1 ht.2.1
  have hq := in_line_determine_type L L.length ht
  rw [h1, parser_handle_line_eq h2 hne, hty2, if_neg (by decide), if_pos (by decide),
    parser_act_intermediate]
  exact ⟨rfl, parser_include_line_in_line hq hroom⟩

theorem at_parser_feed_urc {cbs : at_parser_callbacks σ}
    {size : Nat} {body : List Nat} (L : List Nat) (p : AtParser σ)
    (h : in_line STATE_READLINE cbs none size body [] p) (hne : L ≠ [])
    (hL : ∀ c ∈ L, c ≠ 13 ∧ c ≠ 10)
    (hty : classified cbs L AT_RESPONSE_URC)
    (hroom : body.length + L.length < size) :
    (at_parser_feed p (L ++ [13, 10])).2 = [at_event.urc L L.length] ∧
      in_line STATE_READLINE cbs none size body [] (at_parser_feed p (L ++ [13, 10])).1 := by
  obtain ⟨h1, h2⟩ := at_parser_feed_line_cr L p h hL hroom
  have ht := in_line_terminate h2
  have hty2 := hty _ ht.1 ht.2.1
  have hq := in_line_determine_type L L.length ht
  rw [h1, parser_handle_line_eq h2 hne, hty2, if_pos (Or.inl rfl)]
  exact parser_fire_urc_in_line L L.length hq

theorem at_parser_feed_final_ok {cbs : at_parser_callbacks σ}
    {size : Nat} {body : List Nat} (L : List Nat) (p : AtParser σ)
    (h : in_line STATE_READLINE cbs none size body [] p) (hne : L ≠ [])
    (hL : ∀ c ∈ L, c ≠ 13 ∧ c ≠ 10)
    (hty : classified cbs L AT_RESPONSE_FINAL_OK)
    (hroom : body.length + L.length < size) :
    (at_parser_feed p (L ++ [13, 10])).2 =
        [at_event.response body.dropLast (body.length - 1)] ∧
      (at_parser_feed p (L ++ [13, 10])).1 =
        at_parser_reset (at_parser_feed p (L ++ [13, 10])).1 := by
  obtain ⟨h1, h2⟩ := at_parser_feed_line_cr L p h hL hroom
  have ht := in_line_terminate h2
  have hty2 := hty _ ht.1 ht.2.1
  have hq := parser_discard_line_in_line (in_line_determine_type L L.length ht)
  obtain ⟨hf1, hf2⟩ := parser_finalize_in_line hq
  rw [hf1] at hf2
  rw [h1, parser_handle_line_eq h2 hne, hty2, if_neg (by decide), if_neg (by decide),
    parser_act_final _ _ (Or.inl rfl), hf1, hf2]
  exact ⟨rfl, rfl⟩

theorem at_parser_feed_final {cbs : at_parser_callbacks σ}
    {size : Nat} {body : List Nat} (L : List Nat) (p : AtParser σ)
    (h : in_line STATE_READLINE cbs none size body [] p) (hne : L ≠ [])
    (hL : ∀ c ∈ L, c ≠ 13 ∧ c ≠ 10)
    (hty : classified cbs L AT_RESPONSE_FINAL)
    (hroom : body.length + L.length + 1 < size) :
    (at_parser_feed p (L ++ [13, 10])).2 =
        [at_event.response (body ++ L) (body.length + L.length)] ∧
      (at_parser_feed p (L ++ [13, 10])).1 =
        at_parser_reset (at_parser_feed p (L ++ [13, 10])).1 := by
  obtain ⟨h1, h2⟩ := at_parser_feed_line_cr L p h hL (by omega)
  have ht := in_line_terminate h2
  have hty2 := hty _ ht.1 ht.2.1
  have hq := parser_include_line_in_line (in_line_determine_type L L.length ht) hroom
  obtain ⟨hf1, hf2⟩ := parser_finalize_in_line hq
  rw [hf1] at hf2
  rw [h1, parser_handle_line_eq h2 hne, hty2, if_neg (by decide), if_pos (by decide),
    parser_act_final _ _ (Or.inr rfl), hf1, hf2]
  refine ⟨?_, rfl⟩
  simp

/-- Intermediate lines accumulate in the buffer, each followed by a newline,
and fire no callback. -/
theorem at_parser_feed_lines {cbs : at_parser_callbacks σ}
    {size : Nat} (lines : List (List Nat)) (body : List Nat) (p : AtParser σ)
    (h : in_line STATE_READLINE cbs none size body [] p)
    (hlines : ∀ L ∈ lines, L ≠ [] ∧ (∀ c ∈ L, c ≠ 13 ∧ c ≠ 10) ∧
      classified cbs L AT_RESPONSE_INTERMEDIATE)
    (hroom : body.length + (stored_lines lines).length < size) :
    (at_parser_feed p (wire_lines lines)).2 = [] ∧
      in_line STATE_READLINE cbs none size (body ++ stored_lines lines) []
        (at_parser_feed p (wire_lines lines)).1 := by
  induction lines generalizing body p with
  | nil => simpa [wire_lines, stored_lines, at_parser_feed] using h
  | cons L lines ih =>
    obtain ⟨hne, hL, hty⟩ := hlines L (List.mem_cons_self _ _)
    have hlen : (stored_lines (L :: lines)).length =
        L.length + 1 + (stored_lines lines).length := by
      simp only [stored_lines, List.map_cons, List.flatten_cons, List.length_append,
        List.length_singleton]
    rw [hlen] at hroom
    obtain ⟨h1, h2⟩ := at_parser_feed_intermediate L p h hne hL hty (by omega)
    obtain ⟨h3, h4⟩ := ih (body ++ L ++ [10]) _ h2
      (fun M hM => hlines M (List.mem_cons_of_mem _ hM)) (by simp; omega)
    have hw : wire_lines (L :: lines) = (L ++ [13, 10]) ++ wire_lines lines := by
      simp [wire_lines]
    have hs : body ++ stored_lines (L :: lines) = body ++ L ++ [10] ++ stored_lines lines := by
      simp [stored_lines]
    rw [hw, at_parser_feed_append, hs]
    exact ⟨by rw [h1, h3]; rfl, h4⟩

theorem in_line_await_reset (p : AtParser σ) (hbuf : p.buf.length = p.buf_size)
    (hsize : 0 < p.buf_size) :
    in_line STATE_READLINE p.cbs none p.buf_size [] []
      (at_parser_await_response (at_parser_reset p)) :=
  ⟨rfl, rfl, rfl, rfl, hbuf, rfl, rfl, by simp [at_parser_await_response, at_parser_reset],
    hsize⟩

/-- C3: when `parser_handle_line` handles a non-empty line in a state other
than `STATE_IDLE` and determines the type `AT_RESPONSE_FINAL_OK` or
`AT_RESPONSE_FINAL` for it, it calls `handle_response` once and no other
callback, and leaves the parser fully reset: `STATE_IDLE`, both cursors and
`data_left` 0, no prompt armed and no character handler. -/
theorem C3_final_line_resets (p : AtParser σ) (hne : p.buf_used ≠ p.buf_current)
    (hst : p.state ≠ STATE_IDLE)
    (hty : line_type p = AT_RESPONSE_FINAL_OK ∨ line_type p = AT_RESPONSE_FINAL) :
    (∃ body len, (parser_handle_line p).2 = [at_event.response body len]) ∧
      (parser_handle_line p).1.state = STATE_IDLE ∧
      (parser_handle_line p).1.buf_used = 0 ∧
      (parser_handle_line p).1.buf_current = 0 ∧
      (parser_handle_line p).1.data_left = 0 ∧
      (parser_handle_line p).1.dataprompt = none ∧
      (parser_handle_line p).1.character_handler = none := by
  unfold line_type at hty
  have hs : (determine_type (parser_terminate p) (current_line (parser_terminate p))
      (p.buf_used - p.buf_current)).2.state = p.state := by
    rw [determine_type_snd]; rfl
  have hnu : ¬ ((determine_type (parser_terminate p) (current_line (parser_terminate p))
      (p.buf_used - p.buf_current)).1 = AT_RESPONSE_URC ∨
      (determine_type (parser_terminate p) (current_line (parser_terminate p))
      (p.buf_used - p.buf_current)).2.state = STATE_IDLE) := by
    rw [hs]
    rintro (h | h)
    · rw [h] at hty; revert hty; decide
    · exact hst h
  have he : parser_handle_line p = parser_act
      (if (determine_type (parser_terminate p) (current_line (parser_terminate p))
          (p.buf_used - p.buf_current)).1 ≠ AT_RESPONSE_FINAL_OK
        then parser_include_line (determine_type (parser_terminate p)
          (current_line (parser_terminate p)) (p.buf_used - p.buf_current)).2
        else parser_discard_line (determine_type (parser_terminate p)
          (current_line (parser_terminate p)) (p.buf_used - p.buf_current)).2)
      (determine_type (parser_terminate p) (current_line (parser_terminate p))
          (p.buf_used - p.buf_current)).1 := by
    unfold parser_handle_line
    rw [if_neg hne]
    dsimp only
    exact if_neg hnu
  rw [he, parser_act_final _ _ hty]
  exact ⟨⟨_, _, rfl⟩, rfl, rfl, rfl, rfl, rfl, rfl⟩

/-- C3 on a concrete parser: the line `"OK"` received while a response is
awaited. -/
theorem C3_final_line_resets_witness :
    (∃ body len, (parser_handle_line
        (at_parser_feed (at_parser_await_response plain_instance) str_OK).1).2 =
          [at_event.response body len]) ∧
      (parser_handle_line
        (at_parser_feed (at_parser_await_response plain_instance) str_OK).1).1.state =
          STATE_IDLE ∧
      (parser_handle_line
        (at_parser_feed (at_parser_await_response plain_instance) str_OK).1).1.buf_used = 0 ∧
      (parser_handle_line
        (at_parser_feed (at_parser_await_response plain_instance) str_OK).1).1.buf_current = 0 ∧
      (parser_handle_line
        (at_parser_feed (at_parser_await_response plain_instance) str_OK).1).1.data_left = 0 ∧
      (parser_handle_line
        (at_parser_feed (at_parser_await_response plain_instance) str_OK).1).1.dataprompt = none ∧
      (parser_handle_line
        (at_parser_feed (at_parser_await_response plain_instance) str_OK).1).1.character_handler
          = none :=
  C3_final_line_resets _ (by decide) (by decide) (by decide)


theorem generic_line_scanner_readline (line : List Nat) (len : Nat) (q q2 : AtParser σ)
    (hq : q.state = STATE_READLINE) (hq2 : q2.state = STATE_READLINE) :
    generic_line_scanner line len q = generic_line_scanner line len q2 := by
  unfold generic_line_scanner
  rw [hq, hq2]
  simp

/-- With no `scan_line`, the type of a line read in `STATE_READLINE` is the
one the generic scanner gives it. -/
theorem classified_plain (line : List Nat) :
    classified plain_callbacks line
      (generic_line_scanner line line.length (at_parser_await_response plain_instance)) := by
  intro q hc hs
  unfold determine_type
  rw [hc]
  simp only [plain_callbacks, AT_RESPONSE_UNKNOWN, if_true]
  exact generic_line_scanner_readline _ _ _ _ hs rfl

theorem current_line_terminate (p : AtParser σ) :
    current_line (parser_terminate p) = current_line p := by
  rw [current_line_eq, current_line_eq]
  show ((p.buf.set p.buf_used 0).take p.buf_used).drop p.buf_current = _
  rw [take_set_le _ _ _ _ (le_refl _)]

/-- A parser with a well-formed buffer holds what it holds. -/
theorem in_line_of_cursors (p : AtParser σ) (hbuf : p.buf.length = p.buf_size)
    (hcur : p.buf_current ≤ p.buf_used) (hused : p.buf_used < p.buf_size) :
    in_line p.state p.cbs p.character_handler p.buf_size (p.buf.take p.buf_current)
      (current_line p) p := by
  have hl1 : (p.buf.take p.buf_current).length = p.buf_current := by
    rw [List.length_take]; omega
  have hl2 : (current_line p).length = p.buf_used - p.buf_current := by
    rw [current_line_eq, List.length_drop, List.length_take]; omega
  refine ⟨rfl, rfl, rfl, rfl, hbuf, hl1.symm, by rw [hl1, hl2]; omega, ?_, by rw [hl1, hl2]; omega⟩
  rw [hl1, hl2, current_line_eq]
  have : p.buf_current + (p.buf_used - p.buf_current) = p.buf_used := by omega
  rw [this]
  have h2 : p.buf.take p.buf_current = (p.buf.take p.buf_used).take p.buf_current := by
    rw [List.take_take]; congr 1; omega
  rw [h2, List.take_append_drop]

theorem line_type_eq (p : AtParser σ) (hcur : p.buf_current ≤ p.buf_used)
    (hbuf : p.buf.length = p.buf_size) (hused : p.buf_used < p.buf_size) :
    line_type p =
      (determine_type (parser_terminate p) (current_line p) (current_line p).length).1 := by
  have hl2 : (current_line p).length = p.buf_used - p.buf_current := by
    rw [current_line_eq, List.length_drop, List.length_take]; omega
  unfold line_type
  rw [current_line_terminate, hl2]

/-- C5: (1) when `parser_handle_line` handles a non-empty line and determines
the type `AT_RESPONSE_URC` for it, in any state and so while a command is
outstanding (`STATE_READLINE` or `STATE_DATAPROMPT`), it calls `handle_urc` once with that line and no
other callback, rewinds `buf_used` to `buf_current`, and leaves `buf_current`,
the state and the bytes accumulated before the line as they were.  (2) So the
line is in no later body: after `at_parser_reset` and
`at_parser_await_response`, intermediate lines, then a line `U` of type
`AT_RESPONSE_URC`, then more intermediate lines, then `"OK"`, all fitting in
the buffer, give one `handle_urc` call with `U` and then one `handle_response`
call with the intermediate lines alone. -/
theorem C5_urc_during_command (p : AtParser σ)
    (hbuf : p.buf.length = p.buf_size) (hcur : p.buf_current < p.buf_used)
    (hused : p.buf_used < p.buf_size) (hty : line_type p = AT_RESPONSE_URC)
    (p0 : AtParser σ) (before after : List (List Nat)) (U : List Nat)
    (hbuf0 : p0.buf.length = p0.buf_size)
    (hlines : ∀ L ∈ before ++ after, L ≠ [] ∧ (∀ c ∈ L, c ≠ 13 ∧ c ≠ 10) ∧
      classified p0.cbs L AT_RESPONSE_INTERMEDIATE)
    (hU : U ≠ [] ∧ (∀ c ∈ U, c ≠ 13 ∧ c ≠ 10) ∧ classified p0.cbs U AT_RESPONSE_URC)
    (hok : classified p0.cbs str_OK AT_RESPONSE_FINAL_OK)
    (hfitU : (before.map (fun L => L.length + 1)).sum + U.length < p0.buf_size)
    (hfit : ((before ++ after).map (fun L => L.length + 1)).sum + 2 < p0.buf_size) :
    ((parser_handle_line p).2 =
        [at_event.urc (current_line p) (p.buf_used - p.buf_current)] ∧
      (parser_handle_line p).1.buf_used = p.buf_current ∧
      (parser_handle_line p).1.buf_current = p.buf_current ∧
      (parser_handle_line p).1.state = p.state ∧
      (parser_handle_line p).1.buf.take p.buf_current = p.buf.take p.buf_current) ∧
    (at_parser_feed (at_parser_await_response (at_parser_reset p0))
        (wire_lines before ++ ((U ++ [13, 10]) ++
          (wire_lines after ++ (str_OK ++ [13, 10]))))).2 =
      [at_event.urc U U.length,
       at_event.response (response_body (before ++ after))
         (response_body (before ++ after)).length] := by
  constructor
  · have h := in_line_of_cursors p hbuf (le_of_lt hcur) hused
    have hl1 : (p.buf.take p.buf_current).length = p.buf_current := by
      rw [List.length_take]; omega
    have hl2 : (current_line p).length = p.buf_used - p.buf_current := by
      rw [current_line_eq, List.length_drop, List.length_take]; omega
    have hne : current_line p ≠ [] := by
      intro h0; rw [h0] at hl2; simp at hl2; omega
    rw [line_type_eq p (le_of_lt hcur) hbuf hused] at hty
    have hq := in_line_determine_type (current_line p) (current_line p).length
      (in_line_terminate h)
    obtain ⟨he, h1, h2, h3, h4, h5, hc, hu, ht, hlt⟩ := parser_fire_urc_in_line
      (current_line p) (current_line p).length hq
    rw [parser_handle_line_eq h hne, hty, if_pos (Or.inl rfl)]
    rw [hl1] at hc hu ht
    simp only [List.length_nil, Nat.add_zero, List.append_nil] at hu ht
    refine ⟨?_, hu, hc, h2, ht⟩
    rw [he, hl2]
  · have h0 := in_line_await_reset p0 hbuf0 (by omega)
    rw [← stored_lines_length] at hfit hfitU
    have hsl : stored_lines (before ++ after) = stored_lines before ++ stored_lines after := by
      simp [stored_lines]
    rw [hsl, List.length_append] at hfit
    obtain ⟨h1, h2⟩ := at_parser_feed_lines before [] _ h0
      (fun L hL => hlines L (List.mem_append_left _ hL)) (by simp; omega)
    simp only [List.nil_append] at h2
    obtain ⟨h3, h4⟩ := at_parser_feed_urc U _ h2 hU.1 hU.2.1 hU.2.2 hfitU
    obtain ⟨h5, h6⟩ := at_parser_feed_lines after _ _ h4
      (fun L hL => hlines L (List.mem_append_right _ hL)) (by omega)
    obtain ⟨h7, _⟩ := at_parser_feed_final_ok str_OK _ h6 (by decide) (by decide) hok
      (by simp [str_OK]; omega)
    rw [at_parser_feed_append, h1, at_parser_feed_append, h3, at_parser_feed_append, h5, h7,
      ← hsl, (stored_lines_dropLast _).1, (stored_lines_dropLast _).2]
    rfl


/-- C5 on the stream `"RING"` CR LF `"+CSQ: 15,99"` CR LF `"OK"` CR LF: one
`handle_urc` call with `"RING"`, then the body `"+CSQ: 15,99"`. -/
theorem C5_urc_during_command_witness :
    (plain_instance_RING.buf_current < plain_instance_RING.buf_used ∧
      line_type plain_instance_RING = AT_RESPONSE_URC ∧
      classified plain_instance.cbs str_RING AT_RESPONSE_URC) ∧
    ((parser_handle_line plain_instance_RING).2 = [at_event.urc str_RING 4] ∧
      (parser_handle_line plain_instance_RING).1.buf_used = 0) ∧
    (at_parser_feed (at_parser_await_response (at_parser_reset plain_instance))
        (wire_lines [] ++ ((str_RING ++ [13, 10]) ++
          (wire_lines [str_CSQ] ++ (str_OK ++ [13, 10]))))).2 =
      [at_event.urc str_RING 4, at_event.response str_CSQ 11] :=
  have h2 : ∀ L ∈ [] ++ [str_CSQ], L ≠ [] ∧ (∀ c ∈ L, c ≠ 13 ∧ c ≠ 10) ∧
      classified plain_instance.cbs L AT_RESPONSE_INTERMEDIATE := by
    intro L hL
    rw [List.nil_append, List.mem_singleton] at hL
    subst hL
    exact ⟨by decide, by decide, classified_plain str_CSQ⟩
  have h := C5_urc_during_command plain_instance_RING (by decide) (by decide) (by decide)
    (by decide) plain_instance [] [str_CSQ] str_RING (by decide) h2
    ⟨by decide, by decide, classified_plain str_RING⟩ (classified_plain str_OK)
    (by decide) (by decide)
  ⟨⟨by decide, by decide, classified_plain str_RING⟩, ⟨h.1.1, h.1.2.1⟩, h.2⟩

theorem delivered_line_cr (size : Nat) (cur : List Nat) :
    delivered_line size (cur ++ [13]) = delivered_line size cur := by
  simp [delivered_line]

theorem delivered_line_char_room (size : Nat) (cur : List Nat) (c : Nat) (hc : c ≠ 13)
    (h : (delivered_line size cur).length + 1 < size) :
    delivered_line size (cur ++ [c]) = delivered_line size cur ++ [c] := by
  unfold delivered_line at *
  rw [List.length_take] at h
  have hf : (cur ++ [c]).filter (fun c => c != 13) = cur.filter (fun c => c != 13) ++ [c] := by
    simp [List.filter_append, hc]
  rw [hf, List.take_of_length_le (by simp; omega),
    List.take_of_length_le (by omega)]

theorem delivered_line_char_full (size : Nat) (cur : List Nat) (c : Nat) (hc : c ≠ 13)
    (h : (delivered_line size cur).length + 1 = size) :
    delivered_line size (cur ++ [c]) = delivered_line size cur := by
  unfold delivered_line at *
  rw [List.length_take] at h
  have hf : (cur ++ [c]).filter (fun c => c != 13) = cur.filter (fun c => c != 13) ++ [c] := by
    simp [List.filter_append, hc]
  rw [hf, List.take_append_of_le_length (by omega)]

theorem delivered_line_nil (size : Nat) : delivered_line size [] = [] := by
  simp [delivered_line]

theorem parser_handle_line_empty (p : AtParser σ) (h : p.buf_used = p.buf_current) :
    parser_handle_line p = (p, []) := by
  unfold parser_handle_line
  rw [if_pos h]

theorem pending_line_lf (cur data : List Nat) : pending_line cur (data ++ [10]) = [] := by
  induction data generalizing cur with
  | nil => simp [pending_line]
  | cons ch data ih =>
    simp only [List.cons_append, pending_line]
    split <;> exact ih _

/-- An idle parser with no character handler hands every non-empty completed
line to `handle_urc` and stays idle with nothing accumulated. -/
theorem at_parser_feed_idle {cbs : at_parser_callbacks σ} {size : Nat}
    (data cur : List Nat) (p : AtParser σ)
    (h : in_line STATE_IDLE cbs none size [] (delivered_line size cur) p) :
    (at_parser_feed p data).2 = idle_urcs size cur data ∧
      in_line STATE_IDLE cbs none size [] (delivered_line size (pending_line cur data))
        (at_parser_feed p data).1 := by
  induction data generalizing cur p with
  | nil => exact ⟨rfl, h⟩
  | cons ch data ih =>
    have hlt := h.2.2.2.2.2.2.2.2
    simp only [List.length_nil, Nat.zero_add] at hlt
    by_cases h10 : ch = 10
    · subst h10
      have hlf := at_parser_feed_byte_lf h (Or.inl rfl)
      by_cases hemp : delivered_line size cur = []
      · have hu : p.buf_used = p.buf_current := by
          rw [h.2.2.2.2.2.2.1, h.2.2.2.2.2.1, hemp]; rfl
        have h2 : in_line STATE_IDLE cbs none size [] (delivered_line size []) p := by
          rw [hemp] at h; rw [delivered_line_nil]; exact h
        obtain ⟨e1, e2⟩ := ih [] p h2
        simp only [at_parser_feed, hlf, parser_handle_line_empty p hu, List.nil_append,
          pending_line, if_true]
        refine ⟨?_, e2⟩
        rw [e1]
        simp [idle_urcs, completed_lines, hemp]
      · have hq := in_line_determine_type (delivered_line size cur)
          (delivered_line size cur).length (in_line_terminate h)
        obtain ⟨f1, f2⟩ := parser_fire_urc_in_line (delivered_line size cur)
          (delivered_line size cur).length hq
        have he : parser_handle_line p = parser_fire_urc
            (determine_type (parser_terminate p) (delivered_line size cur)
              (delivered_line size cur).length).2
            (delivered_line size cur) (delivered_line size cur).length := by
          rw [parser_handle_line_eq h hemp, if_pos (Or.inr rfl)]
        obtain ⟨e1, e2⟩ := ih [] _ (show in_line STATE_IDLE cbs none size []
          (delivered_line size []) _ from by rw [delivered_line_nil]; exact f2)
        simp only [at_parser_feed, hlf, he, f1, pending_line, if_true]
        refine ⟨?_, e2⟩
        rw [e1]
        simp [idle_urcs, completed_lines, hemp]
    · have hcl : completed_lines cur (ch :: data) = completed_lines (cur ++ [ch]) data := by
        simp [completed_lines, h10]
      have hpl : pending_line cur (ch :: data) = pending_line (cur ++ [ch]) data := by
        simp [pending_line, h10]
      have hiu : idle_urcs size cur (ch :: data) = idle_urcs size (cur ++ [ch]) data := by
        simp only [idle_urcs, hcl]
      rw [hiu, hpl]
      by_cases h13 : ch = 13
      · subst h13
        have h2 : in_line STATE_IDLE cbs none size [] (delivered_line size (cur ++ [13])) p := by
          rw [delivered_line_cr]; exact h
        obtain ⟨e1, e2⟩ := ih _ p h2
        simp only [at_parser_feed, at_parser_feed_byte_cr h (Or.inl rfl), List.nil_append]
        exact ⟨e1, e2⟩
      · have hb := at_parser_feed_byte_char ch h (Or.inl rfl) h13 h10
        by_cases hroom : (delivered_line size cur).length + 1 < size
        · have h2 := parser_append_in_line ch h (by simpa using hroom)
          rw [← delivered_line_char_room size cur ch h13 hroom] at h2
          obtain ⟨e1, e2⟩ := ih _ _ h2
          simp only [at_parser_feed, hb, List.nil_append]
          exact ⟨e1, e2⟩
        · have hfull : (delivered_line size cur).length + 1 = size := by omega
          have h2 : in_line STATE_IDLE cbs none size []
              (delivered_line size (cur ++ [ch])) p := by
            rw [delivered_line_char_full size cur ch h13 hfull]; exact h
          obtain ⟨e1, e2⟩ := ih _ p h2
          simp only [at_parser_feed, hb,
            parser_append_full ch h (by simpa using hfull), List.nil_append]
          exact ⟨e1, e2⟩

theorem in_line_reset (p : AtParser σ) (hbuf : p.buf.length = p.buf_size)
    (hsize : 0 < p.buf_size) :
    in_line STATE_IDLE p.cbs none p.buf_size [] [] (at_parser_reset p) :=
  ⟨rfl, rfl, rfl, rfl, hbuf, rfl, rfl, by simp [at_parser_reset], hsize⟩

/-- C6: a parser that was reset and is fed any byte stream, with no
`at_parser_await_response` since, calls `handle_urc` for every non-empty
completed line, in arrival order and whatever type its callbacks determine,
and makes no other callback invocation (so never `handle_response`); it stays
in `STATE_IDLE` with `buf_current = 0`, and after each completed line (a
stream that ends in a line feed) the buffer is empty, `buf_used = 0`. -/
theorem C6_idle_lines_are_urcs (p : AtParser σ) (data : List Nat)
    (hbuf : p.buf.length = p.buf_size) (hsize : 1 ≤ p.buf_size) :
    (at_parser_feed (at_parser_reset p) data).2 = idle_urcs p.buf_size [] data ∧
      (∀ e ∈ (at_parser_feed (at_parser_reset p) data).2,
        ∃ line len, e = at_event.urc line len) ∧
      (at_parser_feed (at_parser_reset p) data).1.state = STATE_IDLE ∧
      (at_parser_feed (at_parser_reset p) data).1.buf_current = 0 ∧
      (at_parser_feed (at_parser_reset p) (data ++ [10])).1.buf_used = 0 := by
  have hd : delivered_line p.buf_size [] = [] := delivered_line_nil _
  have h0 : in_line STATE_IDLE p.cbs none p.buf_size [] (delivered_line p.buf_size [])
      (at_parser_reset p) := by
    rw [hd]; exact in_line_reset p hbuf hsize
  obtain ⟨e1, e2⟩ := at_parser_feed_idle data [] _ h0
  obtain ⟨_, e4⟩ := at_parser_feed_idle (data ++ [10]) [] _ h0
  refine ⟨e1, ?_, e2.2.1, e2.2.2.2.2.2.1, ?_⟩
  · rw [e1]
    intro e he
    simp only [idle_urcs, List.mem_map] at he
    obtain ⟨l, _, rfl⟩ := he
    exact ⟨_, _, rfl⟩
  · rw [e4.2.2.2.2.2.2.1, pending_line_lf, hd]
    rfl

/-- C6 on a concrete stream: the line `"OK"` is handed to `handle_urc`, the
empty line and the unfinished line `"A"` are not. -/
theorem C6_idle_lines_are_urcs_witness :
    (plain_instance.buf.length = plain_instance.buf_size ∧ 1 ≤ plain_instance.buf_size ∧
      idle_urcs plain_instance.buf_size [] idle_stream = [at_event.urc str_OK 2]) ∧
    ((at_parser_feed (at_parser_reset plain_instance) idle_stream).2 =
        idle_urcs plain_instance.buf_size [] idle_stream ∧
      (∀ e ∈ (at_parser_feed (at_parser_reset plain_instance) idle_stream).2,
        ∃ line len, e = at_event.urc line len) ∧
      (at_parser_feed (at_parser_reset plain_instance) idle_stream).1.state = STATE_IDLE ∧
      (at_parser_feed (at_parser_reset plain_instance) idle_stream).1.buf_current = 0 ∧
      (at_parser_feed (at_parser_reset plain_instance) (idle_stream ++ [10])).1.buf_used = 0) :=
  ⟨⟨by decide, by decide, by decide⟩,
    C6_idle_lines_are_urcs plain_instance idle_stream (by decide) (by decide)⟩

theorem strlen_eq_length (t : List Nat) (h0 : ∀ c ∈ t, c ≠ 0) : strlen t = t.length := by
  unfold strlen cstr
  rw [List.takeWhile_eq_self_iff.mpr]
  intro c hc
  simpa using h0 c hc

theorem strncmp_eq_iff (t line : List Nat) (h0 : ∀ c ∈ t, c ≠ 0) :
    strncmp_eq line t t.length = true ↔ t <+: line := by
  induction t generalizing line with
  | nil => simp [strncmp_eq]
  | cons c t ih =>
    have hc : c ≠ 0 := h0 c (List.mem_cons_self _ _)
    have ht : ∀ x ∈ t, x ≠ 0 := fun x hx => h0 x (List.mem_cons_of_mem _ hx)
    cases line with
    | nil =>
      simp [strncmp_eq, hc, Ne.symm hc]
    | cons a l =>
      simp only [List.length_cons, strncmp_eq, List.headD_cons, List.tail_cons]
      by_cases hac : a = c
      · subst hac
        simp [hc, ih l ht, List.cons_prefix_cons]
      · simp [hac, List.cons_prefix_cons, Ne.symm hac]

theorem at_prefix_in_table_iff (line : List Nat) (table : List (List Nat))
    (h0 : ∀ t ∈ table, ∀ c ∈ t, c ≠ 0) :
    at_prefix_in_table line table = true ↔ ∃ t ∈ table, t <+: line := by
  induction table with
  | nil => simp [at_prefix_in_table]
  | cons t table ih =>
    have ht := h0 t (List.mem_cons_self _ _)
    have ih2 := ih (fun x hx => h0 x (List.mem_cons_of_mem _ hx))
    unfold at_prefix_in_table
    rw [strlen_eq_length t ht]
    by_cases hs : strncmp_eq line t t.length = true
    · rw [if_pos hs]
      simp [(strncmp_eq_iff t line ht).mp hs]
    · rw [if_neg hs, ih2]
      have : ¬ t <+: line := fun h => hs ((strncmp_eq_iff t line ht).mpr h)
      simp [this]


theorem urc_responses_iff (line : List Nat) :
    at_prefix_in_table line urc_responses = true ↔ str_RING <+: line := by
  rw [at_prefix_in_table_iff _ _ (by decide)]
  simp [urc_responses]

theorem final_ok_responses_iff (line : List Nat) :
    at_prefix_in_table line final_ok_responses = true ↔ str_OK <+: line := by
  rw [at_prefix_in_table_iff _ _ (by decide)]
  simp [final_ok_responses]

theorem final_responses_iff (line : List Nat) :
    at_prefix_in_table line final_responses = true ↔
      (str_OK <+: line ∨ str_ERROR <+: line ∨ str_NO_CARRIER <+: line ∨
        str_CME_ERROR <+: line ∨ str_CMS_ERROR <+: line) := by
  rw [at_prefix_in_table_iff _ _ (by decide)]
  simp [final_responses]

/-- The generic scanner on a line that is not the armed prompt and starts with
no entry of `urc_responses`. -/
theorem generic_line_scanner_eq (line : List Nat) (len : Nat) (p : AtParser σ)
    (hprompt : ¬ (p.state = STATE_DATAPROMPT ∧ line_is_dataprompt line len p = true))
    (hurc : ∀ u ∈ urc_responses, ¬ u <+: line) :
    generic_line_scanner line len p =
      if str_OK <+: line then AT_RESPONSE_FINAL_OK
      else if str_ERROR <+: line ∨ str_NO_CARRIER <+: line ∨
          str_CME_ERROR <+: line ∨ str_CMS_ERROR <+: line then AT_RESPONSE_FINAL
      else AT_RESPONSE_INTERMEDIATE := by
  have h1 : ¬ at_prefix_in_table line urc_responses = true := by
    rw [urc_responses_iff]
    exact hurc str_RING (by simp [urc_responses])
  unfold generic_line_scanner
  rw [if_neg hprompt, if_neg h1]
  by_cases hok : str_OK <+: line
  · rw [if_pos ((final_ok_responses_iff line).mpr hok), if_pos hok]
  · rw [if_neg (fun h => hok ((final_ok_responses_iff line).mp h)), if_neg hok]
    by_cases hf : str_ERROR <+: line ∨ str_NO_CARRIER <+: line ∨
          str_CME_ERROR <+: line ∨ str_CMS_ERROR <+: line
    · rw [if_pos ((final_responses_iff line).mpr (Or.inr hf)), if_pos hf]
    · rw [if_neg, if_neg hf]
      intro h
      rcases (final_responses_iff line).mp h with h | h
      · exact hok h
      · exact hf h

theorem determine_type_unknown (p : AtParser σ) (line : List Nat) (len : Nat)
    (hscan : ∀ scan, p.cbs.scan_line = some scan →
      (scan line len p.priv).1 = AT_RESPONSE_UNKNOWN) :
    ∃ q : AtParser σ, q.state = p.state ∧ q.dataprompt = p.dataprompt ∧
      (determine_type p line len).1 = generic_line_scanner line len q := by
  unfold determine_type
  dsimp only
  cases hs : p.cbs.scan_line with
  | none =>
    dsimp only
    rw [if_pos (show AT_RESPONSE_UNKNOWN = 0 from rfl)]
    exact ⟨_, rfl, rfl, rfl⟩
  | some scan =>
    dsimp only
    have := hscan scan hs
    rw [if_pos (show (scan line len p.priv).1 = 0 from this)]
    exact ⟨_, rfl, rfl, rfl⟩

theorem determine_type_generic (p : AtParser σ) (line : List Nat) (len : Nat)
    (hscan : ∀ scan, p.cbs.scan_line = some scan →
      (scan line len p.priv).1 = AT_RESPONSE_UNKNOWN)
    (hprompt : ¬ (p.state = STATE_DATAPROMPT ∧ line_is_dataprompt line len p = true))
    (hurc : ∀ u ∈ urc_responses, ¬ u <+: line) :
    (determine_type p line len).1 =
      if str_OK <+: line then AT_RESPONSE_FINAL_OK
      else if str_ERROR <+: line ∨ str_NO_CARRIER <+: line ∨
          str_CME_ERROR <+: line ∨ str_CMS_ERROR <+: line then AT_RESPONSE_FINAL
      else AT_RESPONSE_INTERMEDIATE := by
  obtain ⟨q, hq1, hq2, hq3⟩ := determine_type_unknown p line len hscan
  rw [hq3]
  apply generic_line_scanner_eq _ _ _ _ hurc
  rw [hq1]
  unfold line_is_dataprompt at hprompt ⊢
  rw [hq2]
  exact hprompt

/-- C7, the claim refuted: the line `"OKAY"`, with no `scan_line`, no generic
URC prefix and no prompt armed, is given the type `AT_RESPONSE_FINAL_OK`
though it is not exactly `"OK"`. -/
theorem C7_final_ok_exact_counterexample :
    (∀ scan, (at_parser_await_response plain_instance).cbs.scan_line = some scan →
        (scan str_OKAY 4 (at_parser_await_response plain_instance).priv).1 =
          AT_RESPONSE_UNKNOWN) ∧
      (∀ u ∈ urc_responses, ¬ u <+: str_OKAY) ∧
      ¬ ((at_parser_await_response plain_instance).state = STATE_DATAPROMPT ∧
        line_is_dataprompt str_OKAY 4 (at_parser_await_response plain_instance) = true) ∧
      str_OKAY ≠ [] ∧
      ¬ ((determine_type (at_parser_await_response plain_instance) str_OKAY 4).1 =
          AT_RESPONSE_FINAL_OK ↔ str_OKAY = str_OK) :=
  ⟨(fun scan h => by cases h), by decide, by decide, by decide, by decide⟩

/-- C7, amended: for a line for which the driver's `scan_line` returns
`AT_RESPONSE_UNKNOWN` (or there is no `scan_line`), that starts with no
generic URC prefix and is not the armed prompt, the type determined is
`AT_RESPONSE_FINAL_OK` if and only if the line starts with `"OK"`. -/
theorem C7_final_ok_iff_starts_with_ok (p : AtParser σ) (line : List Nat) (len : Nat)
    (hscan : ∀ scan, p.cbs.scan_line = some scan →
      (scan line len p.priv).1 = AT_RESPONSE_UNKNOWN)
    (hurc : ∀ u ∈ urc_responses, ¬ u <+: line)
    (hprompt : ¬ (p.state = STATE_DATAPROMPT ∧ line_is_dataprompt line len p = true)) :
    (determine_type p line len).1 = AT_RESPONSE_FINAL_OK ↔ str_OK <+: line := by
  rw [determine_type_generic p line len hscan hprompt hurc]
  by_cases hok : str_OK <+: line
  · simp [hok]
  · rw [if_neg hok]
    constructor
    · intro h
      exfalso
      split at h <;> exact absurd h (by decide)
    · intro h; exact absurd h hok

/-- C7, amended, on the line `"OKAY"`. -/
theorem C7_final_ok_iff_starts_with_ok_witness :
    ((∀ scan, (at_parser_await_response plain_instance).cbs.scan_line = some scan →
        (scan str_OKAY 4 (at_parser_await_response plain_instance).priv).1 =
          AT_RESPONSE_UNKNOWN) ∧
      (∀ u ∈ urc_responses, ¬ u <+: str_OKAY) ∧
      ¬ ((at_parser_await_response plain_instance).state = STATE_DATAPROMPT ∧
        line_is_dataprompt str_OKAY 4 (at_parser_await_response plain_instance) = true)) ∧
    ((determine_type (at_parser_await_response plain_instance) str_OKAY 4).1 =
        AT_RESPONSE_FINAL_OK ↔ str_OK <+: str_OKAY) :=
  ⟨⟨(fun scan h => by cases h), by decide, by decide⟩,
    C7_final_ok_iff_starts_with_ok (at_parser_await_response plain_instance) str_OKAY 4
      (fun scan h => by cases h) (by decide) (by decide)⟩

/-- C8, the claim refuted: (1) the line `"ERRORS"`, with no `scan_line` and no
generic URC prefix, is given the type `AT_RESPONSE_FINAL` though it is neither
`"ERROR"` nor `"NO CARRIER"` and starts with neither `"+CME ERROR:"` nor
`"+CMS ERROR:"`; (2) with the prompt `"ERROR"` armed in `STATE_DATAPROMPT`,
the line `"ERROR"` is not given the type `AT_RESPONSE_FINAL`. -/
theorem C8_final_exact_counterexample :
    ((∀ u ∈ urc_responses, ¬ u <+: str_ERRORS) ∧
      (at_parser_await_response plain_instance).cbs.scan_line.isNone = true ∧
      ¬ ((determine_type (at_parser_await_response plain_instance) str_ERRORS 6).1 =
          AT_RESPONSE_FINAL ↔
        (str_ERRORS = str_ERROR ∨ str_ERRORS = str_NO_CARRIER ∨
          str_CME_ERROR <+: str_ERRORS ∨ str_CMS_ERROR <+: str_ERRORS))) ∧
    ((∀ u ∈ urc_responses, ¬ u <+: str_ERROR) ∧
      plain_instance_prompt_ERROR.cbs.scan_line.isNone = true ∧
      ¬ ((determine_type plain_instance_prompt_ERROR str_ERROR 5).1 = AT_RESPONSE_FINAL ↔
        (str_ERROR = str_ERROR ∨ str_ERROR = str_NO_CARRIER ∨
          str_CME_ERROR <+: str_ERROR ∨ str_CMS_ERROR <+: str_ERROR))) :=
  ⟨⟨by decide, by decide, by decide⟩, ⟨by decide, by decide, by decide⟩⟩

/-- C8, amended: for a line for which the driver's `scan_line` returns
`AT_RESPONSE_UNKNOWN` (or there is no `scan_line`), that starts with no
generic URC prefix and is not the armed prompt, the type determined is
`AT_RESPONSE_FINAL` if and only if the line starts with `"ERROR"`,
`"NO CARRIER"`, `"+CME ERROR:"` or `"+CMS ERROR:"`. -/
theorem C8_final_iff_starts_with_error (p : AtParser σ) (line : List Nat) (len : Nat)
    (hscan : ∀ scan, p.cbs.scan_line = some scan →
      (scan line len p.priv).1 = AT_RESPONSE_UNKNOWN)
    (hurc : ∀ u ∈ urc_responses, ¬ u <+: line)
    (hprompt : ¬ (p.state = STATE_DATAPROMPT ∧ line_is_dataprompt line len p = true)) :
    (determine_type p line len).1 = AT_RESPONSE_FINAL ↔
      (str_ERROR <+: line ∨ str_NO_CARRIER <+: line ∨
        str_CME_ERROR <+: line ∨ str_CMS_ERROR <+: line) := by
  rw [determine_type_generic p line len hscan hprompt hurc]
  by_cases hok : str_OK <+: line
  · rw [if_pos hok]
    have hno : ¬ (str_ERROR <+: line ∨ str_NO_CARRIER <+: line ∨
        str_CME_ERROR <+: line ∨ str_CMS_ERROR <+: line) := by
      obtain ⟨r, rfl⟩ := hok
      simp [str_OK, str_ERROR, str_NO_CARRIER, str_CME_ERROR, str_CMS_ERROR,
        List.cons_prefix_cons]
    constructor
    · intro h; exact absurd h (by decide)
    · intro h; exact absurd h hno
  · rw [if_neg hok]
    by_cases hf : str_ERROR <+: line ∨ str_NO_CARRIER <+: line ∨
          str_CME_ERROR <+: line ∨ str_CMS_ERROR <+: line
    · simp [hf]
    · rw [if_neg hf]
      constructor
      · intro h; exact absurd h (by decide)
      · intro h; exact absurd h hf

/-- C8, amended, on the line `"ERRORS"`. -/
theorem C8_final_iff_starts_with_error_witness :
    ((∀ scan, (at_parser_await_response plain_instance).cbs.scan_line = some scan →
        (scan str_ERRORS 6 (at_parser_await_response plain_instance).priv).1 =
          AT_RESPONSE_UNKNOWN) ∧
      (∀ u ∈ urc_responses, ¬ u <+: str_ERRORS) ∧
      ¬ ((at_parser_await_response plain_instance).state = STATE_DATAPROMPT ∧
        line_is_dataprompt str_ERRORS 6 (at_parser_await_response plain_instance) = true)) ∧
    ((determine_type (at_parser_await_response plain_instance) str_ERRORS 6).1 =
        AT_RESPONSE_FINAL ↔
      (str_ERROR <+: str_ERRORS ∨ str_NO_CARRIER <+: str_ERRORS ∨
        str_CME_ERROR <+: str_ERRORS ∨ str_CMS_ERROR <+: str_ERRORS)) :=
  ⟨⟨(fun scan h => by cases h), by decide, by decide⟩,
    C8_final_iff_starts_with_error (at_parser_await_response plain_instance) str_ERRORS 6
      (fun scan h => by cases h) (by decide) (by decide)⟩

theorem stored_lines_append_final (lines : List (List Nat)) (F : List Nat) :
    stored_lines lines ++ F = response_body (lines ++ [F]) := by
  have h1 : stored_lines (lines ++ [F]) = stored_lines lines ++ F ++ [10] := by
    simp [stored_lines]
  have h2 : stored_lines (lines ++ [F]) = response_body (lines ++ [F]) ++ [10] := by
    cases lines with
    | nil => exact stored_lines_eq F []
    | cons L lines => exact stored_lines_eq L (lines ++ [F])
  rw [h1] at h2
  exact List.append_cancel_right h2

/-- C10, the claim refuted: after the intermediate line `"A"`, the final line
`"ERROR"` is not dropped; the body passed to `handle_response` is
`"A\nERROR"`, not the intermediate line `"A"` alone. -/
theorem C10_final_line_dropped_counterexample :
    classified plain_instance.cbs str_A AT_RESPONSE_INTERMEDIATE ∧
      classified plain_instance.cbs str_ERROR AT_RESPONSE_FINAL ∧
      (at_parser_feed (at_parser_await_response (at_parser_reset plain_instance))
        (wire_lines [str_A] ++ (str_ERROR ++ [13, 10]))).2 =
          [at_event.response (str_A ++ [10] ++ str_ERROR) 7] ∧
      str_A ++ [10] ++ str_ERROR ≠ response_body [str_A] :=
  ⟨classified_plain str_A, classified_plain str_ERROR, by decide, by decide⟩

/-- A tag below 256 packed with a length by `|` and `<< 8` is the sum. -/
theorem packed_type_eq (tag n : Nat) (h : tag < 256) : tag ||| n <<< 8 = 256 * n + tag := by
  have h2 : tag < 2 ^ 8 := by omega
  rw [Nat.or_comm, Nat.shiftLeft_eq, Nat.mul_comm n, ← Nat.mul_add_lt_is_or h2]

theorem rawdata_follows_tag (n : Nat) :
    AT_RESPONSE_RAWDATA_FOLLOWS n &&& _AT_RESPONSE_TYPE_MASK = _AT_RESPONSE_RAWDATA_FOLLOWS ∧
      AT_RESPONSE_RAWDATA_FOLLOWS n = 256 * n + 5 := by
  unfold AT_RESPONSE_RAWDATA_FOLLOWS _AT_RESPONSE_TYPE_MASK _AT_RESPONSE_RAWDATA_FOLLOWS
    _AT_RESPONSE_ENCODED_LENGTH_BIT
  have hm : (0xff : Nat) = 2 ^ 8 - 1 := by norm_num
  rw [packed_type_eq 5 n (by omega), hm, Nat.and_pow_two_sub_one_eq_mod]
  constructor <;> omega

/-- The length unpacked from a type that packs a tag below 256 with a length
below `2 ^ 23` is that length: the packed value is a positive `int`. -/
theorem encoded_length_packed (tag n : Nat) (ht : tag < 256) (hn : n < 2 ^ 23) :
    encoded_length (256 * n + tag) = n := by
  unfold encoded_length to_int to_size_t SIZE_MAX
  have h1 : (256 * n + tag) % 2 ^ 32 = 256 * n + tag := Nat.mod_eq_of_lt (by omega)
  rw [h1, if_pos (by omega)]
  have h2 : (((256 * n + tag : Nat) : Int) / 256) = (n : Int) := by omega
  rw [h2]
  have h3 : ((n : Int) % ((2 ^ 64 - 1 + 1 : Nat) : Int)) = (n : Int) := by
    norm_num
    omega
  rw [h3]
  rfl

theorem rawdata_follows_ne (n : Nat) :
    AT_RESPONSE_RAWDATA_FOLLOWS n ≠ AT_RESPONSE_URC ∧
      AT_RESPONSE_RAWDATA_FOLLOWS n ≠ AT_RESPONSE_FINAL_OK := by
  have h := (rawdata_follows_tag n).1
  constructor <;> intro e <;> rw [e] at h <;> revert h <;> decide

theorem parser_act_rawdata (p : AtParser σ) (n : Nat) (hn : n < 2 ^ 23) :
    parser_act p (AT_RESPONSE_RAWDATA_FOLLOWS n) =
      ({ p with data_left := n, state := STATE_RAWDATA }, []) := by
  obtain ⟨h1, h2⟩ := rawdata_follows_tag n
  unfold parser_act
  dsimp only
  rw [h1, if_neg (by decide), if_pos rfl, h2, encoded_length_packed 5 n (by omega) hn]

theorem in_line_transfer {st : at_parser_state} {cbs : at_parser_callbacks σ}
    {hd : Option (at_character_handler σ)} {size : Nat} {body line : List Nat}
    {p : AtParser σ} (h : in_line st cbs hd size body line p) (q : AtParser σ)
    (st2 : at_parser_state) (hst : q.state = st2) (hc : q.cbs = p.cbs)
    (hh : q.character_handler = p.character_handler) (hs : q.buf_size = p.buf_size)
    (hb : q.buf = p.buf) (hcur : q.buf_current = p.buf_current)
    (hu : q.buf_used = p.buf_used) : in_line st2 cbs hd size body line q := by
  obtain ⟨h1, h2, h3, h4, h5, h6, h7, h8, h9⟩ := h
  refine ⟨hc.trans h1, hst, hh.trans h3, hs.trans h4, ?_, hcur.trans h6, hu.trans h7, ?_, h9⟩
  · rw [hb]; exact h5
  · rw [hb]; exact h8

/-- A header line read in `STATE_READLINE` whose type announces `n` raw payload
bytes is accumulated with its newline, and the parser goes to
`STATE_RAWDATA` with `data_left = n`, firing no callback. -/
theorem at_parser_feed_rawdata_header {cbs : at_parser_callbacks σ}
    {size : Nat} {body : List Nat} (H : List Nat) (n : Nat) (p : AtParser σ)
    (h : in_line STATE_READLINE cbs none size body [] p) (hne : H ≠ [])
    (hH : ∀ c ∈ H, c ≠ 13 ∧ c ≠ 10)
    (hty : classified cbs H (AT_RESPONSE_RAWDATA_FOLLOWS n)) (hn : n < 2 ^ 23)
    (hroom : body.length + H.length + 1 < size) :
    (at_parser_feed p (H ++ [13, 10])).2 = [] ∧
      in_line STATE_RAWDATA cbs none size (body ++ H ++ [10]) []
        (at_parser_feed p (H ++ [13, 10])).1 ∧
      (at_parser_feed p (H ++ [13, 10])).1.data_left = n := by
  obtain ⟨h1, h2⟩ := at_parser_feed_line_cr H p h hH (by omega)
  have ht := in_line_terminate h2
  have hty2 := hty _ ht.1 ht.2.1
  have hq := parser_include_line_in_line (in_line_determine_type H H.length ht) hroom
  have hnu : ¬ (AT_RESPONSE_RAWDATA_FOLLOWS n = AT_RESPONSE_URC ∨
      STATE_READLINE = STATE_IDLE) := by
    rintro (e | e)
    · exact (rawdata_follows_ne n).1 e
    · cases e
  rw [h1, parser_handle_line_eq h2 hne, hty2, if_neg hnu, if_pos (rawdata_follows_ne n).2,
    parser_act_rawdata _ n hn]
  exact ⟨rfl, in_line_transfer hq _ _ rfl rfl rfl rfl rfl rfl rfl, rfl⟩

theorem parser_append_frame (p : AtParser σ) (ch : Nat) :
    (parser_append p ch).priv = p.priv ∧ (parser_append p ch).data_left = p.data_left ∧
      (parser_append p ch).nibble = p.nibble ∧
      (parser_append p ch).dataprompt = p.dataprompt ∧
      (parser_append p ch).state = p.state := by
  unfold parser_append
  split <;> exact ⟨rfl, rfl, rfl, rfl, rfl⟩

theorem at_parser_feed_rawdata_pos (p : AtParser σ) (ch : Nat) (h : 0 < p.data_left) :
    at_parser_feed_rawdata p ch =
      parser_data_done
        { parser_append p ch with data_left := (parser_append p ch).data_left - 1 } := by
  unfold at_parser_feed_rawdata
  dsimp only
  rw [if_pos h]

theorem parser_data_done_zero (p : AtParser σ) (h : p.data_left = 0) :
    parser_data_done p = { parser_include_line p with state := STATE_READLINE } := by
  unfold parser_data_done
  rw [if_pos h]

theorem parser_data_done_pos (p : AtParser σ) (h : p.data_left ≠ 0) :
    parser_data_done p = p := by
  unfold parser_data_done
  rw [if_neg h]

/-- A raw payload byte that is not the last one: appended, `data_left`
decremented, still `STATE_RAWDATA`, no callback. -/
theorem at_parser_feed_byte_rawdata {cbs : at_parser_callbacks σ}
    {hd : Option (at_character_handler σ)} {size : Nat} {body line : List Nat}
    {p : AtParser σ} (ch k : Nat) (h : in_line STATE_RAWDATA cbs hd size body line p)
    (hleft : p.data_left = k + 2) (hroom : body.length + line.length + 1 < size) :
    (at_parser_feed_byte p ch).2 = [] ∧
      in_line STATE_RAWDATA cbs hd size body (line ++ [ch]) (at_parser_feed_byte p ch).1 ∧
      (at_parser_feed_byte p ch).1.data_left = k + 1 ∧
      (at_parser_feed_byte p ch).1.priv = p.priv := by
  have ha := parser_append_in_line ch h hroom
  obtain ⟨f1, f2, _, _, _⟩ := parser_append_frame p ch
  have he : at_parser_feed_byte p ch =
      ({ parser_append p ch with data_left := (parser_append p ch).data_left - 1 }, []) := by
    unfold at_parser_feed_byte
    rw [h.2.1]
    dsimp only
    rw [at_parser_feed_rawdata_pos p ch (by omega),
      parser_data_done_pos _ (by dsimp only; rw [f2, hleft]; omega)]
  rw [he]
  refine ⟨rfl, in_line_transfer ha _ _ ha.2.1 rfl rfl rfl rfl rfl rfl, ?_, f1⟩
  show (parser_append p ch).data_left - 1 = k + 1
  rw [f2, hleft]; rfl

/-- The last raw payload byte: appended, then a newline, `buf_current`
advanced, back to `STATE_READLINE`, no callback. -/
theorem at_parser_feed_byte_rawdata_last {cbs : at_parser_callbacks σ}
    {hd : Option (at_character_handler σ)} {size : Nat} {body line : List Nat}
    {p : AtParser σ} (ch : Nat) (h : in_line STATE_RAWDATA cbs hd size body line p)
    (hleft : p.data_left = 1) (hroom : body.length + line.length + 2 < size) :
    (at_parser_feed_byte p ch).2 = [] ∧
      in_line STATE_READLINE cbs hd size (body ++ (line ++ [ch]) ++ [10]) []
        (at_parser_feed_byte p ch).1 ∧
      (at_parser_feed_byte p ch).1.priv = p.priv := by
  have ha := parser_append_in_line ch h (by omega)
  obtain ⟨f1, f2, _, _, _⟩ := parser_append_frame p ch
  have ha2 : in_line STATE_RAWDATA cbs hd size body (line ++ [ch])
      { parser_append p ch with data_left := (parser_append p ch).data_left - 1 } :=
    in_line_transfer ha _ _ ha.2.1 rfl rfl rfl rfl rfl rfl
  have hi := parser_include_line_in_line ha2 (by simp; omega)
  have he : at_parser_feed_byte p ch =
      ({ parser_include_line
          { parser_append p ch with data_left := (parser_append p ch).data_left - 1 } with
          state := STATE_READLINE }, []) := by
    unfold at_parser_feed_byte
    rw [h.2.1]
    dsimp only
    rw [at_parser_feed_rawdata_pos p ch (by omega),
      parser_data_done_zero _ (by dsimp only; rw [f2, hleft])]
  rw [he]
  refine ⟨rfl, in_line_transfer hi _ _ rfl rfl rfl rfl rfl rfl rfl, ?_⟩
  show (parser_include_line _).priv = p.priv
  unfold parser_include_line
  dsimp only
  rw [(parser_append_frame _ 10).1]
  exact f1


theorem in_line_start (p : AtParser σ) (hbuf : p.buf.length = p.buf_size)
    (hcur : p.buf_used = p.buf_current) (hlt : p.buf_used < p.buf_size) :
    in_line p.state p.cbs p.character_handler p.buf_size (p.buf.take p.buf_current) [] p := by
  have h := in_line_of_cursors p hbuf (by omega) hlt
  have hl : current_line p = [] := by
    unfold current_line
    rw [hcur]; simp
  rw [hl] at h
  exact h

theorem at_parser_feed_cons (p : AtParser σ) (c : Nat) (D : List Nat) :
    at_parser_feed p (c :: D) =
      ((at_parser_feed (at_parser_feed_byte p c).1 D).1,
       (at_parser_feed_byte p c).2 ++ (at_parser_feed (at_parser_feed_byte p c).1 D).2) :=
  rfl

theorem at_parser_feed_byte_rawdata_cbs (p : AtParser σ) (ch : Nat)
    (cbs2 : at_parser_callbacks σ) (hst : p.state = STATE_RAWDATA) :
    at_parser_feed_byte { p with cbs := cbs2 } ch =
      ({ (at_parser_feed_byte p ch).1 with cbs := cbs2 }, []) := by
  cases p
  dsimp only at hst
  subst hst
  unfold at_parser_feed_byte
  dsimp only
  unfold at_parser_feed_rawdata parser_data_done parser_include_line parser_append
  dsimp only
  split_ifs <;> rfl

/-- A raw payload of which bytes remain to come after `D`: appended verbatim,
still `STATE_RAWDATA`. -/
theorem at_parser_feed_rawdata_part {cbs : at_parser_callbacks σ}
    {hd : Option (at_character_handler σ)} {size : Nat} {body : List Nat}
    (D line : List Nat) (k : Nat) (p : AtParser σ)
    (h : in_line STATE_RAWDATA cbs hd size body line p)
    (hleft : p.data_left = D.length + (k + 1))
    (hroom : body.length + line.length + D.length < size) :
    (at_parser_feed p D).2 = [] ∧
      in_line STATE_RAWDATA cbs hd size body (line ++ D) (at_parser_feed p D).1 ∧
      (at_parser_feed p D).1.data_left = k + 1 := by
  induction D generalizing line p with
  | nil =>
    refine ⟨rfl, ?_, ?_⟩
    · simpa [at_parser_feed] using h
    · simpa [at_parser_feed] using hleft
  | cons c D ih =>
    simp only [List.length_cons] at hleft hroom
    obtain ⟨e1, e2, e3, _⟩ := at_parser_feed_byte_rawdata c (D.length + k) h
      (by rw [hleft]; omega) (by omega)
    obtain ⟨g1, g2, g3⟩ := ih (line ++ [c]) _ e2 (by rw [e3]; omega) (by simp; omega)
    simp only [at_parser_feed, e1, g1, List.append_nil]
    refine ⟨trivial, ?_, g3⟩
    simpa using g2

/-- A whole raw payload: appended verbatim and closed by a newline, back to
`STATE_READLINE` after its last byte, with no callback fired: no event, `priv`
untouched, and the same outcome whatever the callbacks are. -/
theorem at_parser_feed_rawdata_all {cbs : at_parser_callbacks σ}
    {hd : Option (at_character_handler σ)} {size : Nat} {body : List Nat}
    (D line : List Nat) (p : AtParser σ)
    (h : in_line STATE_RAWDATA cbs hd size body line p)
    (hne : D ≠ []) (hleft : p.data_left = D.length)
    (hroom : body.length + line.length + D.length + 1 < size) :
    (at_parser_feed p D).2 = [] ∧
      in_line STATE_READLINE cbs hd size (body ++ (line ++ D) ++ [10]) []
        (at_parser_feed p D).1 ∧
      (at_parser_feed p D).1.priv = p.priv ∧
      ∀ cbs2, at_parser_feed { p with cbs := cbs2 } D =
        ({ (at_parser_feed p D).1 with cbs := cbs2 }, []) := by
  induction D generalizing line p with
  | nil => exact absurd rfl hne
  | cons c D ih =>
    simp only [List.length_cons] at hleft hroom
    cases D with
    | nil =>
      obtain ⟨e1, e2, e3⟩ := at_parser_feed_byte_rawdata_last c h hleft (by simpa using hroom)
      simp only [at_parser_feed, e1, List.append_nil]
      refine ⟨trivial, e2, e3, ?_⟩
      intro cbs2
      rw [at_parser_feed_byte_rawdata_cbs p c cbs2 h.2.1]
    | cons c2 D =>
      simp only [List.length_cons] at hleft hroom
      obtain ⟨e1, e2, e3, e4⟩ := at_parser_feed_byte_rawdata c D.length h
        (by rw [hleft]) (by omega)
      obtain ⟨g1, g2, g3, g4⟩ := ih (line ++ [c]) _ e2 (by simp) (by rw [e3]; simp)
        (by simp; omega)
      have hcat : line ++ [c] ++ c2 :: D = line ++ c :: c2 :: D := by simp
      rw [hcat] at g2
      rw [at_parser_feed_cons p c]
      refine ⟨?_, ?_, ?_, ?_⟩
      · dsimp only
        rw [e1, g1]; rfl
      · exact g2
      · exact g3.trans e4
      · intro cbs2
        rw [at_parser_feed_cons _ c, at_parser_feed_byte_rawdata_cbs p c cbs2 h.2.1]
        dsimp only
        rw [g4 cbs2]
        rfl


theorem classified_of_scan (cbs : at_parser_callbacks σ) (L : List Nat) (t : Nat)
    (scan : List Nat → Nat → σ → Nat × σ) (hs : cbs.scan_line = some scan)
    (ht : ∀ s, (scan L L.length s).1 = t) (h0 : t ≠ 0) : classified cbs L t := by
  intro q hc _
  unfold determine_type
  rw [hc, hs]
  dsimp only
  rw [ht, if_neg h0]

theorem classified_generic (cbs : at_parser_callbacks σ) (L : List Nat)
    (hscan : ∀ scan, cbs.scan_line = some scan →
      ∀ s, (scan L L.length s).1 = AT_RESPONSE_UNKNOWN)
    (q0 : AtParser σ) (hq0 : q0.state = STATE_READLINE) :
    classified cbs L (generic_line_scanner L L.length q0) := by
  intro q hc hst
  obtain ⟨q2, h1, _, h3⟩ := determine_type_unknown q L L.length
    (fun scan hs => by rw [hc] at hs; exact hscan scan hs _)
  rw [h3]
  exact generic_line_scanner_readline _ _ _ _ (h1.trans hst) hq0

theorem hex2int_hex_digit (d : Nat) (h : d < 16) : hex2int (hex_digit d) = (d : Int) := by
  unfold hex_digit hex2int
  by_cases h10 : d < 10
  · rw [if_pos h10, if_pos (by omega)]
    push_cast
    omega
  · rw [if_neg h10, if_neg (by omega), if_pos (by omega)]
    push_cast
    omega

theorem at_parser_feed_hexdata_high (p : AtParser σ) (ch : Nat) (h : 0 < p.data_left)
    (hv : hex2int ch ≠ -1) (hn : p.nibble = -1) :
    at_parser_feed_hexdata p ch = parser_data_done { p with nibble := hex2int ch } := by
  unfold at_parser_feed_hexdata
  dsimp only
  rw [if_pos h, if_pos hv, if_pos hn]

theorem at_parser_feed_hexdata_low (p : AtParser σ) (ch : Nat) (h : 0 < p.data_left)
    (hv : hex2int ch ≠ -1) (hn : p.nibble ≠ -1) :
    at_parser_feed_hexdata p ch =
      parser_data_done
        { parser_append { p with nibble := -1 }
            ((hex2int ch + p.nibble * 16) % 256).toNat with
          data_left := (parser_append { p with nibble := -1 }
            ((hex2int ch + p.nibble * 16) % 256).toNat).data_left - 1 } := by
  unfold at_parser_feed_hexdata
  dsimp only
  rw [if_pos h, if_pos hv, if_neg hn]

theorem at_parser_feed_byte_hexdata (p : AtParser σ) (ch : Nat)
    (hs : p.state = STATE_HEXDATA) :
    at_parser_feed_byte p ch = (at_parser_feed_hexdata p ch, []) := by
  unfold at_parser_feed_byte
  rw [hs]

/-- The first hex digit of a byte: held as the high nibble; nothing is
appended, the state stays `STATE_HEXDATA`. -/
theorem at_parser_feed_byte_hex_high {cbs : at_parser_callbacks σ}
    {hd : Option (at_character_handler σ)} {size : Nat} {body line : List Nat}
    {p : AtParser σ} (b : Nat) (hb : b < 256)
    (h : in_line STATE_HEXDATA cbs hd size body line p)
    (hleft : 0 < p.data_left) (hn : p.nibble = -1) :
    (at_parser_feed_byte p (hex_digit (b / 16))).2 = [] ∧
      in_line STATE_HEXDATA cbs hd size body line
        (at_parser_feed_byte p (hex_digit (b / 16))).1 ∧
      (at_parser_feed_byte p (hex_digit (b / 16))).1.data_left = p.data_left ∧
      (at_parser_feed_byte p (hex_digit (b / 16))).1.nibble = ((b / 16 : Nat) : Int) ∧
      (at_parser_feed_byte p (hex_digit (b / 16))).1.priv = p.priv := by
  have hx := hex2int_hex_digit (b / 16) (by omega)
  have he : at_parser_feed_byte p (hex_digit (b / 16)) =
      ({ p with nibble := hex2int (hex_digit (b / 16)) }, []) := by
    rw [at_parser_feed_byte_hexdata p _ h.2.1,
      at_parser_feed_hexdata_high p _ hleft (by rw [hx]; omega) hn,
      parser_data_done_pos _ (by dsimp only; omega)]
  rw [he]
  exact ⟨rfl, in_line_transfer h _ _ h.2.1 rfl rfl rfl rfl rfl rfl, rfl, hx, rfl⟩

theorem hex_value (b : Nat) (hb : b < 256) :
    ((((b % 16 : Nat) : Int) + ((b / 16 : Nat) : Int) * 16) % 256).toNat = b := by
  omega


/-- The second hex digit of a byte that is not the last one: the byte is
appended, `data_left` decremented, no nibble held, still `STATE_HEXDATA`. -/
theorem at_parser_feed_byte_hex_low {cbs : at_parser_callbacks σ}
    {hd : Option (at_character_handler σ)} {size : Nat} {body line : List Nat}
    {p : AtParser σ} (b k : Nat) (hb : b < 256)
    (h : in_line STATE_HEXDATA cbs hd size body line p)
    (hleft : p.data_left = k + 2) (hn : p.nibble = ((b / 16 : Nat) : Int))
    (hroom : body.length + line.length + 1 < size) :
    (at_parser_feed_byte p (hex_digit (b % 16))).2 = [] ∧
      in_line STATE_HEXDATA cbs hd size body (line ++ [b])
        (at_parser_feed_byte p (hex_digit (b % 16))).1 ∧
      (at_parser_feed_byte p (hex_digit (b % 16))).1.data_left = k + 1 ∧
      (at_parser_feed_byte p (hex_digit (b % 16))).1.nibble = -1 ∧
      (at_parser_feed_byte p (hex_digit (b % 16))).1.priv = p.priv := by
  have hx := hex2int_hex_digit (b % 16) (by omega)
  have hp : in_line STATE_HEXDATA cbs hd size body line { p with nibble := -1 } :=
    in_line_transfer h _ _ h.2.1 rfl rfl rfl rfl rfl rfl
  have ha := parser_append_in_line b hp hroom
  obtain ⟨f1, f2, f3, _, _⟩ := parser_append_frame { p with nibble := -1 } b
  have he : at_parser_feed_byte p (hex_digit (b % 16)) =
      ({ parser_append { p with nibble := -1 } b with
          data_left := (parser_append { p with nibble := -1 } b).data_left - 1 }, []) := by
    rw [at_parser_feed_byte_hexdata p _ h.2.1,
      at_parser_feed_hexdata_low p _ (by omega) (by rw [hx]; omega) (by rw [hn]; omega),
      hx, hn, hex_value b hb,
      parser_data_done_pos _ (by dsimp only; rw [f2]; dsimp only; omega)]
  rw [he]
  refine ⟨rfl, in_line_transfer ha _ _ ha.2.1 rfl rfl rfl rfl rfl rfl, ?_, f3, f1⟩
  show (parser_append { p with nibble := -1 } b).data_left - 1 = k + 1
  rw [f2]; dsimp only; omega

/-- The second hex digit of the last byte: the byte is appended, then a
newline, `buf_current` advanced, back to `STATE_READLINE`. -/
theorem at_parser_feed_byte_hex_low_last {cbs : at_parser_callbacks σ}
    {hd : Option (at_character_handler σ)} {size : Nat} {body line : List Nat}
    {p : AtParser σ} (b : Nat) (hb : b < 256)
    (h : in_line STATE_HEXDATA cbs hd size body line p)
    (hleft : p.data_left = 1) (hn : p.nibble = ((b / 16 : Nat) : Int))
    (hroom : body.length + line.length + 2 < size) :
    (at_parser_feed_byte p (hex_digit (b % 16))).2 = [] ∧
      in_line STATE_READLINE cbs hd size (body ++ (line ++ [b]) ++ [10]) []
        (at_parser_feed_byte p (hex_digit (b % 16))).1 ∧
      (at_parser_feed_byte p (hex_digit (b % 16))).1.nibble = -1 ∧
      (at_parser_feed_byte p (hex_digit (b % 16))).1.priv = p.priv := by
  have hx := hex2int_hex_digit (b % 16) (by omega)
  have hp : in_line STATE_HEXDATA cbs hd size body line { p with nibble := -1 } :=
    in_line_transfer h _ _ h.2.1 rfl rfl rfl rfl rfl rfl
  have ha := parser_append_in_line b hp (by omega)
  obtain ⟨f1, f2, f3, _, _⟩ := parser_append_frame { p with nibble := -1 } b
  have ha2 : in_line STATE_HEXDATA cbs hd size body (line ++ [b])
      { parser_append { p with nibble := -1 } b with
          data_left := (parser_append { p with nibble := -1 } b).data_left - 1 } :=
    in_line_transfer ha _ _ ha.2.1 rfl rfl rfl rfl rfl rfl
  have hi := parser_include_line_in_line ha2 (by simp; omega)
  have he : at_parser_feed_byte p (hex_digit (b % 16)) =
      ({ parser_include_line
          { parser_append { p with nibble := -1 } b with
            data_left := (parser_append { p with nibble := -1 } b).data_left - 1 } with
          state := STATE_READLINE }, []) := by
    rw [at_parser_feed_byte_hexdata p _ h.2.1,
      at_parser_feed_hexdata_low p _ (by omega) (by rw [hx]; omega) (by rw [hn]; omega),
      hx, hn, hex_value b hb,
      parser_data_done_zero _ (by dsimp only; rw [f2]; dsimp only; omega)]
  rw [he]
  refine ⟨rfl, in_line_transfer hi _ _ rfl rfl rfl rfl rfl rfl rfl, ?_, ?_⟩
  · show (parser_include_line _).nibble = -1
    unfold parser_include_line
    dsimp only
    rw [(parser_append_frame _ 10).2.2.1]
    exact f3
  · show (parser_include_line _).priv = p.priv
    unfold parser_include_line
    dsimp only
    rw [(parser_append_frame _ 10).1]
    exact f1


theorem hex_encode_append (S1 S2 : List Nat) :
    hex_encode (S1 ++ S2) = hex_encode S1 ++ hex_encode S2 := by
  induction S1 with
  | nil => rfl
  | cons b S1 ih => simp [hex_encode, ih]

theorem at_parser_feed_two (p : AtParser σ) (c d : Nat) (D : List Nat) :
    at_parser_feed p (c :: d :: D) =
      ((at_parser_feed (at_parser_feed_byte (at_parser_feed_byte p c).1 d).1 D).1,
       (at_parser_feed_byte p c).2 ++ ((at_parser_feed_byte (at_parser_feed_byte p c).1 d).2 ++
         (at_parser_feed (at_parser_feed_byte (at_parser_feed_byte p c).1 d).1 D).2)) :=
  rfl

/-- The hex encoding of payload bytes after which more are to come: the bytes
are appended decoded, still `STATE_HEXDATA`, no nibble held. -/
theorem at_parser_feed_hexdata_part {cbs : at_parser_callbacks σ}
    {hd : Option (at_character_handler σ)} {size : Nat} {body : List Nat}
    (S line : List Nat) (k : Nat) (p : AtParser σ)
    (h : in_line STATE_HEXDATA cbs hd size body line p)
    (hS : ∀ b ∈ S, b < 256) (hn : p.nibble = -1)
    (hleft : p.data_left = S.length + (k + 1))
    (hroom : body.length + line.length + S.length < size) :
    (at_parser_feed p (hex_encode S)).2 = [] ∧
      in_line STATE_HEXDATA cbs hd size body (line ++ S) (at_parser_feed p (hex_encode S)).1 ∧
      (at_parser_feed p (hex_encode S)).1.data_left = k + 1 ∧
      (at_parser_feed p (hex_encode S)).1.nibble = -1 := by
  induction S generalizing line p with
  | nil =>
    refine ⟨rfl, ?_, ?_, hn⟩
    · simpa [hex_encode, at_parser_feed] using h
    · simpa [hex_encode, at_parser_feed] using hleft
  | cons b S ih =>
    simp only [List.length_cons] at hleft hroom
    have hb := hS b (List.mem_cons_self _ _)
    obtain ⟨e1, e2, e3, e4, _⟩ := at_parser_feed_byte_hex_high b hb h (by omega) hn
    obtain ⟨f1, f2, f3, f4, _⟩ := at_parser_feed_byte_hex_low b (S.length + k) hb e2
      (by rw [e3, hleft]; omega) e4 (by omega)
    obtain ⟨g1, g2, g3, g4⟩ := ih (line ++ [b]) _ f2
      (fun x hx => hS x (List.mem_cons_of_mem _ hx)) f4 (by rw [f3]; omega) (by simp; omega)
    have hcat : line ++ [b] ++ S = line ++ b :: S := by simp
    rw [hcat] at g2
    show (at_parser_feed p (hex_digit (b / 16) :: hex_digit (b % 16) :: hex_encode S)).2 = [] ∧ _
    rw [at_parser_feed_two]
    dsimp only
    rw [e1, f1, g1]
    exact ⟨rfl, g2, g3, g4⟩

/-- The hex encoding of a whole payload: the bytes are appended decoded and
closed by a newline, back to `STATE_READLINE` after the last digit. -/
theorem at_parser_feed_hexdata_all {cbs : at_parser_callbacks σ}
    {hd : Option (at_character_handler σ)} {size : Nat} {body : List Nat}
    (S line : List Nat) (p : AtParser σ)
    (h : in_line STATE_HEXDATA cbs hd size body line p)
    (hS : ∀ b ∈ S, b < 256) (hn : p.nibble = -1)
    (hne : S ≠ []) (hleft : p.data_left = S.length)
    (hroom : body.length + line.length + S.length + 1 < size) :
    (at_parser_feed p (hex_encode S)).2 = [] ∧
      in_line STATE_READLINE cbs hd size (body ++ (line ++ S) ++ [10]) []
        (at_parser_feed p (hex_encode S)).1 ∧
      (at_parser_feed p (hex_encode S)).1.nibble = -1 := by
  obtain ⟨S1, b, rfl⟩ : ∃ S1 b, S = S1 ++ [b] :=
    ⟨S.dropLast, S.getLast hne, (List.dropLast_append_getLast hne).symm⟩
  simp only [List.length_append, List.length_singleton] at hleft hroom
  have hb : b < 256 := hS b (by simp)
  obtain ⟨a1, a2, a3, a4⟩ := at_parser_feed_hexdata_part S1 line 0 p h
    (fun x hx => hS x (by simp [hx])) hn (by rw [hleft]) (by omega)
  obtain ⟨e1, e2, e3, e4, _⟩ := at_parser_feed_byte_hex_high b hb a2 (by omega) a4
  obtain ⟨f1, f2, f3, _⟩ := at_parser_feed_byte_hex_low_last b hb e2 (by rw [e3, a3]) e4
    (by simp; omega)
  have hcat : line ++ S1 ++ [b] = line ++ (S1 ++ [b]) := by simp
  rw [hcat] at f2
  rw [hex_encode_append, at_parser_feed_append, a1]
  show ([] ++ (at_parser_feed _ (hex_digit (b / 16) :: hex_digit (b % 16) :: [])).2 = [] ∧ _)
  rw [at_parser_feed_two]
  dsimp only
  rw [e1, f1]
  exact ⟨rfl, f2, f3⟩


theorem at_parser_feed_byte_dataprompt_char (p : AtParser σ) (ch : Nat)
    (hs : p.state = STATE_DATAPROMPT) (hh : p.character_handler = none)
    (h13 : ch ≠ 13) (h10 : ch ≠ 10) :
    at_parser_feed_byte p ch =
      if dataprompt_matches (parser_append p ch) = true then
        parser_handle_line (parser_append p ch)
      else (parser_append p ch, []) := by
  have hh2 : (parser_append p ch).character_handler = none := by
    unfold parser_append; split <;> exact hh
  have hs2 : (parser_append p ch).state = STATE_DATAPROMPT :=
    (parser_append_frame p ch).2.2.2.2.trans hs
  have hq : (if ch ≠ 13 ∧ ch ≠ 10 then parser_append p ch else p) = parser_append p ch :=
    if_pos ⟨h13, h10⟩
  have : at_parser_feed_line p ch =
      if dataprompt_matches (parser_append p ch) = true then
        parser_handle_line (parser_append p ch)
      else (parser_append p ch, []) := by
    unfold at_parser_feed_line
    dsimp only
    rw [hq, call_character_handler_none _ _ hh2]
    dsimp only
    by_cases hm : dataprompt_matches (parser_append p ch) = true
    · rw [if_pos (Or.inr ⟨hs2, hm⟩), if_pos hm]
    · rw [if_neg, if_neg hm]
      rintro (h | ⟨_, h⟩)
      · exact h10 h
      · exact hm h
  unfold at_parser_feed_byte
  rw [hs]
  exact this

/-- While fewer characters than the prompt has are in the buffer, the prompt
test of `at_parser_feed` fails. -/
theorem dataprompt_matches_short (p : AtParser σ) (P : List Nat)
    (hP : p.dataprompt = some P) (h0 : ∀ c ∈ P, c ≠ 0) (hlt : p.buf_used < P.length) :
    dataprompt_matches p = false := by
  unfold dataprompt_matches
  rw [hP]
  dsimp only
  rw [strlen_eq_length P h0]
  have : ¬ p.buf_used = P.length := by omega
  simp [this]

/-- When the buffer holds exactly the prompt, the prompt test succeeds. -/
theorem dataprompt_matches_prompt {cbs : at_parser_callbacks σ}
    {hd : Option (at_character_handler σ)} {size : Nat} {p : AtParser σ} (P : List Nat)
    (h : in_line STATE_DATAPROMPT cbs hd size [] P p)
    (hP : p.dataprompt = some P) (h0 : ∀ c ∈ P, c ≠ 0) :
    dataprompt_matches p = true := by
  obtain ⟨_, _, _, _, _, _, hu, ht, _⟩ := h
  simp only [List.length_nil, Nat.zero_add, List.nil_append] at hu ht
  unfold dataprompt_matches
  rw [hP]
  dsimp only
  rw [strlen_eq_length P h0, hu]
  simp [memcmp_eq, ht]

/-- Characters of the prompt short of its last one: appended, no callback. -/
theorem at_parser_feed_dataprompt_part {cbs : at_parser_callbacks σ} {size : Nat}
    (L line P : List Nat) (p : AtParser σ)
    (h : in_line STATE_DATAPROMPT cbs none size [] line p)
    (hP : p.dataprompt = some P) (h0 : ∀ c ∈ P, c ≠ 0)
    (hL : ∀ c ∈ L, c ≠ 13 ∧ c ≠ 10)
    (hlt : line.length + L.length < P.length) (hroom : line.length + L.length < size) :
    (at_parser_feed p L).2 = [] ∧
      in_line STATE_DATAPROMPT cbs none size [] (line ++ L) (at_parser_feed p L).1 ∧
      (at_parser_feed p L).1.dataprompt = some P := by
  induction L generalizing line p with
  | nil =>
    refine ⟨rfl, ?_, hP⟩
    simpa [at_parser_feed] using h
  | cons c L ih =>
    simp only [List.length_cons] at hlt hroom
    obtain ⟨h13, h10⟩ := hL c (List.mem_cons_self _ _)
    have ha := parser_append_in_line c h (by simp; omega)
    have hP2 : (parser_append p c).dataprompt = some P :=
      (parser_append_frame p c).2.2.2.1.trans hP
    have hm := dataprompt_matches_short (parser_append p c) P hP2 h0
      (by rw [ha.2.2.2.2.2.2.1]; simp; omega)
    have he : at_parser_feed_byte p c = (parser_append p c, []) := by
      rw [at_parser_feed_byte_dataprompt_char p c h.2.1 h.2.2.1 h13 h10, hm]
      rfl
    obtain ⟨g1, g2, g3⟩ := ih (line ++ [c]) _ ha hP2
      (fun x hx => hL x (List.mem_cons_of_mem _ hx)) (by simp; omega) (by simp; omega)
    rw [at_parser_feed_cons, he]
    dsimp only
    rw [g1]
    refine ⟨rfl, ?_, g3⟩
    simpa using g2


theorem generic_line_scanner_prompt (P : List Nat) (q : AtParser σ)
    (hs : q.state = STATE_DATAPROMPT) (hP : q.dataprompt = some P) (h0 : ∀ c ∈ P, c ≠ 0) :
    generic_line_scanner P P.length q = AT_RESPONSE_FINAL_OK := by
  have : line_is_dataprompt P P.length q = true := by
    unfold line_is_dataprompt
    rw [hP]
    dsimp only
    rw [strlen_eq_length P h0]
    simp [memcmp_eq]
  unfold generic_line_scanner
  rw [if_pos ⟨hs, this⟩]

/-- The last character of the prompt: the line is completed at once, typed
`AT_RESPONSE_FINAL_OK` and discarded; `handle_response` gets the empty body
and the parser is reset. -/
theorem at_parser_feed_byte_dataprompt_last {cbs : at_parser_callbacks σ} {size : Nat}
    (line P : List Nat) (ch : Nat) (p : AtParser σ)
    (h : in_line STATE_DATAPROMPT cbs none size [] line p)
    (hP : p.dataprompt = some P) (h0 : ∀ c ∈ P, c ≠ 0)
    (hch : ch ≠ 13 ∧ ch ≠ 10) (hlast : line ++ [ch] = P)
    (hscan : ∀ scan, cbs.scan_line = some scan →
      ∀ s, (scan P P.length s).1 = AT_RESPONSE_UNKNOWN)
    (hroom : P.length < size) :
    (at_parser_feed_byte p ch).2 = [at_event.response [] 0] ∧
      (at_parser_feed_byte p ch).1 = at_parser_reset (at_parser_feed_byte p ch).1 := by
  have hlen : P.length = line.length + 1 := by rw [← hlast]; simp
  have ha := parser_append_in_line ch h (by simp; omega)
  rw [hlast] at ha
  have hP2 : (parser_append p ch).dataprompt = some P :=
    (parser_append_frame p ch).2.2.2.1.trans hP
  have hm := dataprompt_matches_prompt P ha hP2 h0
  have hne : P ≠ [] := by rw [← hlast]; simp
  have ht := in_line_terminate ha
  obtain ⟨q, hq1, hq2, hq3⟩ := determine_type_unknown (parser_terminate (parser_append p ch))
    P P.length (fun scan hs => hscan scan (by rw [← ht.1]; exact hs) _)
  have hty : (determine_type (parser_terminate (parser_append p ch)) P P.length).1 =
      AT_RESPONSE_FINAL_OK := by
    rw [hq3]
    exact generic_line_scanner_prompt P q (hq1.trans ht.2.1) (hq2.trans hP2) h0
  have hd := parser_discard_line_in_line (in_line_determine_type P P.length ht)
  obtain ⟨hf1, hf2⟩ := parser_finalize_in_line hd
  rw [hf1] at hf2
  rw [at_parser_feed_byte_dataprompt_char p ch h.2.1 h.2.2.1 hch.1 hch.2, if_pos hm,
    parser_handle_line_eq ha hne, hty, if_neg (by decide), if_neg (by decide),
    parser_act_final _ _ (Or.inl rfl), hf1, hf2]
  exact ⟨rfl, rfl⟩

theorem in_line_prompt_armed (p : AtParser σ) (P : List Nat)
    (hbuf : p.buf.length = p.buf_size) (hsize : 0 < p.buf_size) :
    in_line STATE_DATAPROMPT p.cbs none p.buf_size [] []
      (at_parser_await_response (at_parser_expect_dataprompt (at_parser_reset p) (some P))) :=
  ⟨rfl, rfl, rfl, rfl, hbuf, rfl, rfl,
    by simp [at_parser_await_response, at_parser_expect_dataprompt, at_parser_reset], hsize⟩

/-- C13: for a non-empty prompt `P` without CR, LF (or NUL, being a C string)
that is shorter than the buffer: after `at_parser_reset`,
`at_parser_expect_dataprompt(P)` and `at_parser_await_response`, with a
driver scanner that returns `AT_RESPONSE_UNKNOWN` for `P` (or none), feeding
exactly the bytes of `P` calls `handle_response` once, with the empty body of
length 0, and makes no other callback invocation; the call is made at the
last byte of `P` (no proper prefix of `P` fires any callback) and leaves the
parser in `STATE_IDLE`. -/
theorem C13_dataprompt_completes (p : AtParser σ) (P : List Nat)
    (hbuf : p.buf.length = p.buf_size)
    (hP : P ≠ [] ∧ ∀ c ∈ P, c ≠ 13 ∧ c ≠ 10 ∧ c ≠ 0)
    (hlen : P.length < p.buf_size)
    (hscan : ∀ scan, p.cbs.scan_line = some scan →
      ∀ s, (scan P P.length s).1 = AT_RESPONSE_UNKNOWN) :
    (at_parser_feed (at_parser_await_response
        (at_parser_expect_dataprompt (at_parser_reset p) (some P))) P).2 =
      [at_event.response [] 0] ∧
    (at_parser_feed (at_parser_await_response
        (at_parser_expect_dataprompt (at_parser_reset p) (some P))) P).1.state = STATE_IDLE ∧
    (∀ P1 P2, P = P1 ++ P2 → P2 ≠ [] →
      (at_parser_feed (at_parser_await_response
        (at_parser_expect_dataprompt (at_parser_reset p) (some P))) P1).2 = []) := by
  have h0 := in_line_prompt_armed p P hbuf (by omega)
  have hdp : (at_parser_await_response
      (at_parser_expect_dataprompt (at_parser_reset p) (some P))).dataprompt = some P := rfl
  generalize at_parser_await_response
    (at_parser_expect_dataprompt (at_parser_reset p) (some P)) = q0 at h0 hdp ⊢
  have hz : ∀ c ∈ P, c ≠ 0 := fun c hc => (hP.2 c hc).2.2
  have hpart : ∀ P1 P2, P = P1 ++ P2 → P2 ≠ [] →
      (at_parser_feed q0 P1).2 = [] ∧
      in_line STATE_DATAPROMPT p.cbs none p.buf_size [] P1 (at_parser_feed q0 P1).1 ∧
      (at_parser_feed q0 P1).1.dataprompt = some P := by
    intro P1 P2 e hne2
    have hl2 : 0 < P2.length := List.length_pos.mpr hne2
    have hl : P.length = P1.length + P2.length := by rw [e]; simp
    have := at_parser_feed_dataprompt_part P1 [] P _ h0 hdp hz
      (fun c hc => ⟨(hP.2 c (by rw [e]; simp [hc])).1, (hP.2 c (by rw [e]; simp [hc])).2.1⟩)
      (by simp; omega) (by simp; omega)
    simpa using this
  have e : P = P.dropLast ++ [P.getLast hP.1] := (List.dropLast_append_getLast hP.1).symm
  obtain ⟨a1, a2, a3⟩ := hpart _ _ e (by simp)
  have hc := hP.2 (P.getLast hP.1) (List.getLast_mem hP.1)
  obtain ⟨b1, b2⟩ := at_parser_feed_byte_dataprompt_last _ P (P.getLast hP.1) _ a2 a3 hz
    ⟨hc.1, hc.2.1⟩ e.symm hscan hlen
  have hfeed : at_parser_feed q0 (P.dropLast ++ [P.getLast hP.1]) =
      ((at_parser_feed_byte (at_parser_feed q0 P.dropLast).1 (P.getLast hP.1)).1,
       [] ++ ((at_parser_feed_byte (at_parser_feed q0 P.dropLast).1
          (P.getLast hP.1)).2 ++ [])) := by
    rw [at_parser_feed_append, a1]
    rfl
  rw [← e] at hfeed
  rw [hfeed]
  refine ⟨?_, ?_, fun P1 P2 e2 hne2 => (hpart P1 P2 e2 hne2).1⟩
  · dsimp only
    rw [b1]; rfl
  · dsimp only
    rw [b2]; rfl

/-- C13 on the prompt `"> "`. -/
theorem C13_dataprompt_completes_witness :
    (plain_instance.buf.length = plain_instance.buf_size ∧
      (str_prompt ≠ [] ∧ ∀ c ∈ str_prompt, c ≠ 13 ∧ c ≠ 10 ∧ c ≠ 0) ∧
      str_prompt.length < plain_instance.buf_size) ∧
    (at_parser_feed (at_parser_await_response
        (at_parser_expect_dataprompt (at_parser_reset plain_instance) (some str_prompt)))
        str_prompt).2 = [at_event.response [] 0] ∧
    (at_parser_feed (at_parser_await_response
        (at_parser_expect_dataprompt (at_parser_reset plain_instance) (some str_prompt)))
        str_prompt).1.state = STATE_IDLE :=
  have h := C13_dataprompt_completes plain_instance str_prompt (by decide)
    ⟨by decide, by decide⟩ (by decide) (fun scan hs => by cases hs)
  ⟨⟨by decide, ⟨by decide, by decide⟩, by decide⟩, h.1, h.2.1⟩

theorem determine_type_dataprompt (p : AtParser σ) (line : List Nat) (len : Nat) :
    (determine_type p line len).2.dataprompt = p.dataprompt := by
  rw [determine_type_snd]

theorem parser_include_line_dataprompt (p : AtParser σ) :
    (parser_include_line p).dataprompt = p.dataprompt := by
  unfold parser_include_line
  exact (parser_append_frame p 10).2.2.2.1

theorem parser_act_dataprompt_none (p : AtParser σ) (type : Nat)
    (h : p.dataprompt = none) : (parser_act p type).1.dataprompt = none := by
  unfold parser_act
  dsimp only
  split
  · rfl
  · split
    · exact h
    · split
      · exact h
      · exact h

theorem parser_handle_line_dataprompt_none (p : AtParser σ)
    (h : p.dataprompt = none) : (parser_handle_line p).1.dataprompt = none := by
  unfold parser_handle_line
  split
  · exact h
  · dsimp only
    have hd := determine_type_dataprompt (parser_terminate p)
      (current_line (parser_terminate p))
      ((parser_terminate p).buf_used - (parser_terminate p).buf_current)
    have hd2 : (determine_type (parser_terminate p) (current_line (parser_terminate p))
      ((parser_terminate p).buf_used - (parser_terminate p).buf_current)).2.dataprompt =
        none := hd.trans h
    generalize determine_type _ _ _ = r at hd2
    split
    · exact hd2
    · apply parser_act_dataprompt_none
      split
      · exact (parser_include_line_dataprompt _).trans hd2
      · exact hd2

theorem call_character_handler_dataprompt (p : AtParser σ) (ch : Nat) :
    (call_character_handler p ch).1.dataprompt = p.dataprompt := by
  unfold call_character_handler
  split <;> rfl

theorem at_parser_feed_line_dataprompt_none (p : AtParser σ) (ch : Nat)
    (h : p.dataprompt = none) : (at_parser_feed_line p ch).1.dataprompt = none := by
  unfold at_parser_feed_line
  dsimp only
  have h1 : (if ch ≠ 13 ∧ ch ≠ 10 then parser_append p ch else p).dataprompt = none := by
    split
    · exact (parser_append_frame p ch).2.2.2.1.trans h
    · exact h
  generalize (if ch ≠ 13 ∧ ch ≠ 10 then parser_append p ch else p) = q at h1
  have h2 := (call_character_handler_dataprompt q ch).trans h1
  generalize call_character_handler q ch = r at h2
  split
  · exact parser_handle_line_dataprompt_none _ h2
  · exact h2

theorem parser_data_done_dataprompt (p : AtParser σ) :
    (parser_data_done p).dataprompt = p.dataprompt := by
  unfold parser_data_done
  split
  · exact parser_include_line_dataprompt p
  · rfl

theorem at_parser_feed_rawdata_dataprompt (p : AtParser σ) (ch : Nat) :
    (at_parser_feed_rawdata p ch).dataprompt = p.dataprompt := by
  unfold at_parser_feed_rawdata
  dsimp only
  rw [parser_data_done_dataprompt]
  split
  · exact (parser_append_frame p ch).2.2.2.1
  · rfl

theorem at_parser_feed_hexdata_dataprompt (p : AtParser σ) (ch : Nat) :
    (at_parser_feed_hexdata p ch).dataprompt = p.dataprompt := by
  unfold at_parser_feed_hexdata
  dsimp only
  rw [parser_data_done_dataprompt]
  split
  · split
    · split
      · rfl
      · exact (parser_append_frame { p with nibble := -1 } _).2.2.2.1
    · rfl
  · rfl

theorem at_parser_feed_byte_dataprompt_none (p : AtParser σ) (ch : Nat)
    (h : p.dataprompt = none) : (at_parser_feed_byte p ch).1.dataprompt = none := by
  unfold at_parser_feed_byte
  split
  · exact at_parser_feed_line_dataprompt_none p ch h
  · exact at_parser_feed_line_dataprompt_none p ch h
  · exact at_parser_feed_line_dataprompt_none p ch h
  · exact (at_parser_feed_rawdata_dataprompt p ch).trans h
  · exact (at_parser_feed_hexdata_dataprompt p ch).trans h

/-- With no prompt armed, feeding arms none: only `at_parser_expect_dataprompt`
arms a prompt. -/
theorem at_parser_feed_dataprompt_none (p : AtParser σ) (data : List Nat)
    (h : p.dataprompt = none) : (at_parser_feed p data).1.dataprompt = none := by
  induction data generalizing p with
  | nil => exact h
  | cons ch data ih => exact ih _ (at_parser_feed_byte_dataprompt_none p ch h)

/-- A final line handled while a command is outstanding leaves the parser as
`at_parser_reset` leaves it. -/
theorem parser_handle_line_final (p : AtParser σ) (hne : p.buf_used ≠ p.buf_current)
    (hst : p.state ≠ STATE_IDLE)
    (hty : line_type p = AT_RESPONSE_FINAL_OK ∨ line_type p = AT_RESPONSE_FINAL) :
    (parser_handle_line p).1 = at_parser_reset (parser_handle_line p).1 := by
  unfold line_type at hty
  have hs : (determine_type (parser_terminate p) (current_line (parser_terminate p))
      (p.buf_used - p.buf_current)).2.state = p.state := by
    rw [determine_type_snd]; rfl
  have hnu : ¬ ((determine_type (parser_terminate p) (current_line (parser_terminate p))
      (p.buf_used - p.buf_current)).1 = AT_RESPONSE_URC ∨
      (determine_type (parser_terminate p) (current_line (parser_terminate p))
      (p.buf_used - p.buf_current)).2.state = STATE_IDLE) := by
    rw [hs]
    rintro (h | h)
    · rw [h] at hty; revert hty; decide
    · exact hst h
  have he : parser_handle_line p = parser_act
      (if (determine_type (parser_terminate p) (current_line (parser_terminate p))
          (p.buf_used - p.buf_current)).1 ≠ AT_RESPONSE_FINAL_OK
        then parser_include_line (determine_type (parser_terminate p)
          (current_line (parser_terminate p)) (p.buf_used - p.buf_current)).2
        else parser_discard_line (determine_type (parser_terminate p)
          (current_line (parser_terminate p)) (p.buf_used - p.buf_current)).2)
      (determine_type (parser_terminate p) (current_line (parser_terminate p))
          (p.buf_used - p.buf_current)).1 := by
    unfold parser_handle_line
    rw [if_neg hne]
    dsimp only
    exact if_neg hnu
  rw [he, parser_act_final _ _ hty]
  rfl

/-- C14, the code at the failing input: with the prompt `"> "` armed and the
line `"AT"` already accumulated, the two characters of the prompt fire no
callback and leave the parser in `STATE_DATAPROMPT`, although the line in
progress is exactly the armed prompt and `parser_handle_line` would type it
`AT_RESPONSE_FINAL_OK`: the test of `at_parser_feed` compares the whole buffer
`"AT\n> "`, of length 5, with the prompt. -/
theorem C14_prompt_after_content_not_completed :
    (at_parser_feed (at_parser_await_response
      (at_parser_expect_dataprompt plain_instance (some str_prompt)))
      (str_AT ++ [13, 10] ++ str_prompt)).2 = [] ∧
    prompt_instance_echo.state = STATE_DATAPROMPT ∧
    prompt_instance_echo.dataprompt = some str_prompt ∧
    current_line prompt_instance_echo = str_prompt ∧
    prompt_instance_echo.buf.take prompt_instance_echo.buf_used =
      str_AT ++ [10] ++ str_prompt ∧
    dataprompt_matches prompt_instance_echo = false ∧
    line_type prompt_instance_echo = AT_RESPONSE_FINAL_OK := by
  decide

/-- C15, the claim refuted: the byte `"A"` received while idle, with no line
feed after it, is still in the buffer when the next command is armed
(`buf_used = 1`), and the body delivered for that command, `"A+CSQ: 15,99"`,
starts with it. -/
theorem C15_idle_bytes_kept_counterexample :
    (at_parser_await_response
      (at_parser_feed (at_parser_reset plain_instance) str_A).1).buf_used = 1 ∧
    (at_parser_feed (at_parser_await_response
      (at_parser_feed (at_parser_reset plain_instance) str_A).1)
      (str_CSQ ++ [13, 10] ++ str_OK ++ [13, 10])).2 =
        [at_event.response (str_A ++ str_CSQ) 12] := by
  decide

/-- C15, amended: for a byte sequence fed to a reset parser while idle, what
the buffer holds when the next command is armed is the unfinished line, the
bytes received after the last line feed (less CR, cut to capacity), with
`buf_current = 0`.  When the sequence ends in a line feed the buffer is empty
and the parser enters `STATE_READLINE`, so the body delivered for the next
command (intermediate lines and `"OK"`, fitting in the buffer) consists only
of bytes received after `at_parser_await_response`. -/
theorem C15_idle_lines_leave_buffer_empty (p : AtParser σ) (data : List Nat)
    (lines : List (List Nat))
    (hbuf : p.buf.length = p.buf_size) (hsize : 1 ≤ p.buf_size)
    (hlines : ∀ L ∈ lines, L ≠ [] ∧ (∀ c ∈ L, c ≠ 13 ∧ c ≠ 10) ∧
      classified p.cbs L AT_RESPONSE_INTERMEDIATE)
    (hok : classified p.cbs str_OK AT_RESPONSE_FINAL_OK)
    (hfit : (lines.map (fun L => L.length + 1)).sum + 2 < p.buf_size) :
    ((at_parser_await_response (at_parser_feed (at_parser_reset p) data).1).buf_current = 0 ∧
      (at_parser_await_response (at_parser_feed (at_parser_reset p) data).1).buf.take
        (at_parser_await_response (at_parser_feed (at_parser_reset p) data).1).buf_used =
          delivered_line p.buf_size (pending_line [] data)) ∧
    ((at_parser_await_response
        (at_parser_feed (at_parser_reset p) (data ++ [10])).1).buf_used = 0 ∧
      (at_parser_await_response
        (at_parser_feed (at_parser_reset p) (data ++ [10])).1).buf_current = 0 ∧
      (at_parser_await_response
        (at_parser_feed (at_parser_reset p) (data ++ [10])).1).state = STATE_READLINE ∧
      (at_parser_feed (at_parser_await_response
          (at_parser_feed (at_parser_reset p) (data ++ [10])).1)
          (wire_lines lines ++ (str_OK ++ [13, 10]))).2 =
        [at_event.response (response_body lines) (response_body lines).length]) := by
  have hd : delivered_line p.buf_size [] = [] := delivered_line_nil _
  have h0 : in_line STATE_IDLE p.cbs none p.buf_size [] (delivered_line p.buf_size [])
      (at_parser_reset p) := by
    rw [hd]; exact in_line_reset p hbuf hsize
  obtain ⟨_, e2⟩ := at_parser_feed_idle data [] _ h0
  obtain ⟨_, e4⟩ := at_parser_feed_idle (data ++ [10]) [] _ h0
  rw [pending_line_lf, hd] at e4
  have hdp : (at_parser_feed (at_parser_reset p) (data ++ [10])).1.dataprompt = none :=
    at_parser_feed_dataprompt_none _ _ rfl
  have hstate : (at_parser_await_response
      (at_parser_feed (at_parser_reset p) (data ++ [10])).1).state = STATE_READLINE := by
    unfold at_parser_await_response
    rw [hdp]; rfl
  have h5 : in_line STATE_READLINE p.cbs none p.buf_size [] []
      (at_parser_await_response (at_parser_feed (at_parser_reset p) (data ++ [10])).1) :=
    in_line_transfer e4 _ _ hstate rfl rfl rfl rfl rfl rfl
  refine ⟨⟨e2.2.2.2.2.2.1, ?_⟩, h5.2.2.2.2.2.2.1, h5.2.2.2.2.2.1, hstate, ?_⟩
  · have := e2.2.2.2.2.2.2.2.1
    simp only [List.length_nil, Nat.zero_add, List.nil_append] at this
    show (at_parser_feed (at_parser_reset p) data).1.buf.take
      (at_parser_feed (at_parser_reset p) data).1.buf_used = _
    rw [e2.2.2.2.2.2.2.1]
    simpa using this
  · rw [← stored_lines_length] at hfit
    obtain ⟨h1, h2⟩ := at_parser_feed_lines lines [] _ h5 hlines (by simp; omega)
    simp only [List.nil_append] at h2
    obtain ⟨h3, _⟩ := at_parser_feed_final_ok str_OK _ h2 (by decide) (by decide) hok
      (by simp [str_OK]; omega)
    rw [at_parser_feed_append, h1, h3, (stored_lines_dropLast lines).1,
      (stored_lines_dropLast lines).2]
    rfl

/-- C15, amended, on the idle stream `"A"` and the response `"+CSQ: 15,99"`. -/
theorem C15_idle_lines_leave_buffer_empty_witness :
    (plain_instance.buf.length = plain_instance.buf_size ∧ 1 ≤ plain_instance.buf_size ∧
      classified plain_instance.cbs str_OK AT_RESPONSE_FINAL_OK ∧
      delivered_line plain_instance.buf_size (pending_line [] str_A) = str_A) ∧
    (at_parser_await_response
        (at_parser_feed (at_parser_reset plain_instance) str_A).1).buf.take
        (at_parser_await_response
          (at_parser_feed (at_parser_reset plain_instance) str_A).1).buf_used =
      delivered_line plain_instance.buf_size (pending_line [] str_A) ∧
    (at_parser_feed (at_parser_await_response
        (at_parser_feed (at_parser_reset plain_instance) (str_A ++ [10])).1)
        (wire_lines [str_CSQ] ++ (str_OK ++ [13, 10]))).2 =
      [at_event.response (response_body [str_CSQ]) (response_body [str_CSQ]).length] :=
  have h2 : ∀ L ∈ [str_CSQ], L ≠ [] ∧ (∀ c ∈ L, c ≠ 13 ∧ c ≠ 10) ∧
      classified plain_instance.cbs L AT_RESPONSE_INTERMEDIATE := by
    intro L hL
    rw [List.mem_singleton] at hL
    subst hL
    exact ⟨by decide, by decide, classified_plain str_CSQ⟩
  have h := C15_idle_lines_leave_buffer_empty plain_instance str_A [str_CSQ] (by decide)
    (by decide) h2 (classified_plain str_OK) (by decide)
  ⟨⟨by decide, by decide, classified_plain str_OK, by decide⟩, h.1.2, h.2.2.2.2⟩


/-- C16, the claim refuted: after `at_parser_reset` and
`at_parser_await_response`, with no driver scanner, the bytes
`"AT\r\nOK\r\n"` give `handle_response` the body `"AT"` of length 2, not the
empty string. -/
theorem C16_echo_in_body_counterexample :
    (at_parser_feed (at_parser_await_response (at_parser_reset plain_instance))
      (str_AT ++ [13, 10] ++ str_OK ++ [13, 10])).2 = [at_event.response str_AT 2] ∧
    at_event.response str_AT 2 ≠ at_event.response [] 0 := by
  decide

/-- C16, amended: after `at_parser_reset` and `at_parser_await_response`, with
a driver scanner that returns `AT_RESPONSE_UNKNOWN` (or none) and a buffer of
at least 6 bytes, feeding `"AT\r\nOK\r\n"` makes one callback invocation,
`handle_response` with the body `"AT"` of length 2 (the echoed line is
accumulated as an intermediate line), and leaves the parser in `STATE_IDLE`
with an empty buffer. -/
theorem C16_echo_then_ok (p : AtParser σ)
    (hbuf : p.buf.length = p.buf_size) (hsize : 6 ≤ p.buf_size)
    (hscan : ∀ scan, p.cbs.scan_line = some scan →
      ∀ line len s, (scan line len s).1 = AT_RESPONSE_UNKNOWN) :
    (at_parser_feed (at_parser_await_response (at_parser_reset p))
      (str_AT ++ [13, 10] ++ (str_OK ++ [13, 10]))).2 = [at_event.response str_AT 2] ∧
    (at_parser_feed (at_parser_await_response (at_parser_reset p))
      (str_AT ++ [13, 10] ++ (str_OK ++ [13, 10]))).1.state = STATE_IDLE ∧
    (at_parser_feed (at_parser_await_response (at_parser_reset p))
      (str_AT ++ [13, 10] ++ (str_OK ++ [13, 10]))).1.buf_used = 0 ∧
    (at_parser_feed (at_parser_await_response (at_parser_reset p))
      (str_AT ++ [13, 10] ++ (str_OK ++ [13, 10]))).1.buf_current = 0 := by
  have h0 := in_line_await_reset p hbuf (by omega)
  have hq0 : (at_parser_await_response (at_parser_reset p)).state = STATE_READLINE := rfl
  have hnp : ¬ ((at_parser_await_response (at_parser_reset p)).state = STATE_DATAPROMPT ∧
      line_is_dataprompt str_AT str_AT.length (at_parser_await_response (at_parser_reset p))
        = true) := by
    rintro ⟨h, _⟩; rw [hq0] at h; cases h
  have hnp2 : ¬ ((at_parser_await_response (at_parser_reset p)).state = STATE_DATAPROMPT ∧
      line_is_dataprompt str_OK str_OK.length (at_parser_await_response (at_parser_reset p))
        = true) := by
    rintro ⟨h, _⟩; rw [hq0] at h; cases h
  have hat : classified p.cbs str_AT AT_RESPONSE_INTERMEDIATE := by
    have := classified_generic p.cbs str_AT (fun scan hs s => hscan scan hs _ _ _)
      (at_parser_await_response (at_parser_reset p)) hq0
    rw [generic_line_scanner_eq _ _ _ hnp (by decide)] at this
    exact this
  have hok : classified p.cbs str_OK AT_RESPONSE_FINAL_OK := by
    have := classified_generic p.cbs str_OK (fun scan hs s => hscan scan hs _ _ _)
      (at_parser_await_response (at_parser_reset p)) hq0
    rw [generic_line_scanner_eq _ _ _ hnp2 (by decide)] at this
    exact this
  obtain ⟨h1, h2⟩ := at_parser_feed_intermediate str_AT _ h0 (by decide) (by decide) hat
    (by simp [str_AT]; omega)
  obtain ⟨h3, h4⟩ := at_parser_feed_final_ok str_OK _ h2 (by decide) (by decide) hok
    (by simp [str_AT, str_OK]; omega)
  rw [at_parser_feed_append]
  dsimp only
  rw [h1, h3, h4]
  exact ⟨rfl, rfl, rfl, rfl⟩

/-- C16, amended, on a parser with a buffer of 32 bytes and no driver
scanner. -/
theorem C16_echo_then_ok_witness :
    (plain_instance.buf.length = plain_instance.buf_size ∧ 6 ≤ plain_instance.buf_size) ∧
    (at_parser_feed (at_parser_await_response (at_parser_reset plain_instance))
      (str_AT ++ [13, 10] ++ (str_OK ++ [13, 10]))).2 = [at_event.response str_AT 2] :=
  ⟨⟨by decide, by decide⟩,
    (C16_echo_then_ok plain_instance (by decide) (by decide) (fun scan hs => by cases hs)).1⟩

theorem completed_lines_line (cur L : List Nat) (hL : ∀ c ∈ L, c ≠ 10) :
    completed_lines cur (L ++ [10]) = [cur ++ L] := by
  induction L generalizing cur with
  | nil => simp [completed_lines]
  | cons c L ih =>
    have hc : c ≠ 10 := hL c (List.mem_cons_self _ _)
    have := ih (cur ++ [c]) (fun x hx => hL x (List.mem_cons_of_mem _ hx))
    rw [List.cons_append]
    show (if c = 10 then cur :: completed_lines [] (L ++ [10])
      else completed_lines (cur ++ [c]) (L ++ [10])) = _
    rw [if_neg hc, this]
    simp

theorem idle_urcs_line (size : Nat) (L : List Nat) (hL : ∀ c ∈ L, c ≠ 13 ∧ c ≠ 10)
    (hne : L.take (size - 1) ≠ []) :
    idle_urcs size [] (L ++ [10]) =
      [at_event.urc (L.take (size - 1)) (L.take (size - 1)).length] := by
  have hf : L.filter (fun c => c != 13) = L := by
    rw [List.filter_eq_self]
    intro c hc
    simpa using (hL c hc).1
  unfold idle_urcs
  rw [completed_lines_line [] L (fun c hc => (hL c hc).2)]
  simp [delivered_line, hf, hne]

/-- C17: a freshly reset parser with a buffer of `N ≥ 2` bytes hands a line of
exactly `N - 1` bytes (none CR or LF) followed by a line feed to `handle_urc`
intact, with length `N - 1`; and a line of exactly `N` such bytes as its first
`N - 1` bytes, cut by exactly one byte. -/
theorem C17_line_at_capacity (p : AtParser σ) (L L2 : List Nat)
    (hbuf : p.buf.length = p.buf_size) (hsize : 2 ≤ p.buf_size)
    (hL : ∀ c ∈ L, c ≠ 13 ∧ c ≠ 10) (hlen : L.length = p.buf_size - 1)
    (hL2 : ∀ c ∈ L2, c ≠ 13 ∧ c ≠ 10) (hlen2 : L2.length = p.buf_size) :
    (at_parser_feed (at_parser_reset p) (L ++ [10])).2 =
        [at_event.urc L (p.buf_size - 1)] ∧
      (at_parser_feed (at_parser_reset p) (L2 ++ [10])).2 =
        [at_event.urc L2.dropLast (p.buf_size - 1)] := by
  have hd : delivered_line p.buf_size [] = [] := delivered_line_nil _
  have h0 : in_line STATE_IDLE p.cbs none p.buf_size [] (delivered_line p.buf_size [])
      (at_parser_reset p) := by
    rw [hd]; exact in_line_reset p hbuf (by omega)
  obtain ⟨e1, _⟩ := at_parser_feed_idle (L ++ [10]) [] _ h0
  obtain ⟨e2, _⟩ := at_parser_feed_idle (L2 ++ [10]) [] _ h0
  have ht1 : L.take (p.buf_size - 1) = L := List.take_of_length_le (by omega)
  have ht2 : L2.take (p.buf_size - 1) = L2.dropLast := by
    rw [List.dropLast_eq_take, hlen2]
  have hn1 : L.take (p.buf_size - 1) ≠ [] := by
    rw [ht1]; intro e; rw [e] at hlen; simp at hlen; omega
  have hn2 : L2.take (p.buf_size - 1) ≠ [] := by
    intro e
    have := congrArg List.length e
    rw [List.length_take, hlen2] at this
    simp at this; omega
  rw [e1, e2, idle_urcs_line _ L hL hn1, idle_urcs_line _ L2 hL2 hn2, ht1, ht2, hlen,
    List.length_dropLast, hlen2]
  exact ⟨rfl, rfl⟩


/-- C17 on a buffer of 4 bytes and the lines `"ABC"` and `"ABCD"`. -/
theorem C17_line_at_capacity_witness :
    (small_instance.buf.length = small_instance.buf_size ∧ 2 ≤ small_instance.buf_size ∧
      str_ABC.length = small_instance.buf_size - 1 ∧
      str_ABCD.length = small_instance.buf_size) ∧
    (at_parser_feed (at_parser_reset small_instance) (str_ABC ++ [10])).2 =
        [at_event.urc str_ABC (small_instance.buf_size - 1)] ∧
      (at_parser_feed (at_parser_reset small_instance) (str_ABCD ++ [10])).2 =
        [at_event.urc str_ABCD.dropLast (small_instance.buf_size - 1)] :=
  ⟨⟨by decide, by decide, by decide, by decide⟩,
    C17_line_at_capacity small_instance str_ABC str_ABCD (by decide) (by decide)
      (by decide) (by decide) (by decide) (by decide)⟩

/-- C18, the claim refuted: in a hex block of declared length 1 (after the
header `"X1"`), the characters `"AB C"` leave no nibble held (`nibble = -1`,
not `0xC`), and the trailing `" C"` is in the buffer as the text of the line
in progress, after the payload byte `0xAB` and its newline. -/
theorem C18_trailing_digit_is_text_counterexample :
    hex1_instance.state = STATE_HEXDATA ∧ hex1_instance.data_left = 1 ∧
    (at_parser_feed hex1_instance str_AB_C).1.state = STATE_READLINE ∧
    (at_parser_feed hex1_instance str_AB_C).1.nibble = -1 ∧
    current_line (at_parser_feed hex1_instance str_AB_C).1 = [32, 67] ∧
    (at_parser_feed hex1_instance str_AB_C).1.buf.take
        (at_parser_feed hex1_instance str_AB_C).1.buf_used =
      str_X1 ++ [10] ++ [171] ++ [10] ++ [32, 67] := by
  decide

/-- C18, amended: in `STATE_HEXDATA` with one payload byte to come, no nibble
held and no character handler, the four characters `"AB C"` fire no callback;
`"AB"` is consumed as payload (the byte `0xAB` is appended, then a newline,
and `buf_current` advanced) and the parser returns to `STATE_READLINE`; the
trailing `" C"` is then appended to the buffer as the text of the line in
progress, and no nibble is held. -/
theorem C18_trailing_digit_is_text (p : AtParser σ)
    (hst : p.state = STATE_HEXDATA) (hh : p.character_handler = none)
    (hbuf : p.buf.length = p.buf_size) (hcur : p.buf_used = p.buf_current)
    (hleft : p.data_left = 1) (hn : p.nibble = -1)
    (hroom : p.buf_used + 4 < p.buf_size) :
    (at_parser_feed p str_AB_C).2 = [] ∧
    (at_parser_feed p [65, 66]).1.state = STATE_READLINE ∧
    (at_parser_feed p str_AB_C).1.state = STATE_READLINE ∧
    (at_parser_feed p str_AB_C).1.nibble = -1 ∧
    (at_parser_feed p str_AB_C).1.buf_current = p.buf_used + 2 ∧
    (at_parser_feed p str_AB_C).1.buf_used = p.buf_used + 4 ∧
    (at_parser_feed p str_AB_C).1.buf.take (p.buf_used + 4) =
      p.buf.take p.buf_used ++ [171, 10] ++ [32, 67] ∧
    current_line (at_parser_feed p str_AB_C).1 = [32, 67] := by
  have h0 := in_line_start p hbuf hcur (by omega)
  rw [hst, hh] at h0
  have hbl : (p.buf.take p.buf_current).length = p.buf_used := by
    rw [List.length_take, hcur]; omega
  obtain ⟨a1, a2, a3⟩ := at_parser_feed_hexdata_all [171] [] p h0 (by decide) hn
    (by decide) hleft (by simp [hbl]; omega)
  have hx : hex_encode [171] = [65, 66] := by decide
  rw [hx] at a1 a2 a3
  simp only [List.nil_append] at a2
  obtain ⟨b1, b2⟩ := at_parser_feed_chars [32, 67] [] _ a2 (Or.inr rfl) (by decide)
    (by simp [hbl]; omega)
  simp only [List.nil_append] at b2
  have hnib : (at_parser_feed (at_parser_feed p [65, 66]).1 [32, 67]).1.nibble = -1 := by
    have e1 := at_parser_feed_byte_char 32 a2 (Or.inr rfl) (by decide) (by decide)
    have a2b := parser_append_in_line 32 a2 (by simp [hbl]; omega)
    have e2 := at_parser_feed_byte_char 67 a2b (Or.inr rfl) (by decide) (by decide)
    rw [at_parser_feed_cons, e1]
    dsimp only
    rw [at_parser_feed_cons, e2]
    dsimp only
    show (parser_append (parser_append _ 32) 67).nibble = -1
    rw [(parser_append_frame _ 67).2.2.1, (parser_append_frame _ 32).2.2.1]
    exact a3
  have hsplit : str_AB_C = [65, 66] ++ [32, 67] := rfl
  rw [hsplit, at_parser_feed_append]
  dsimp only
  rw [a1, b1]
  refine ⟨rfl, a2.2.1, b2.2.1, hnib, ?_, ?_, ?_, in_line_current_line b2⟩
  · rw [b2.2.2.2.2.2.1]; simp [hbl]
  · rw [b2.2.2.2.2.2.2.1]; simp [hbl]
  · have := b2.2.2.2.2.2.2.2.1
    simp only [List.length_append, List.length_singleton, hbl, List.length_cons,
      List.length_nil] at this
    rw [← hcur] at this
    simpa using this

/-- C18, amended, on the parser that has read the header `"X1"`. -/
theorem C18_trailing_digit_is_text_witness :
    (hex1_instance.state = STATE_HEXDATA ∧ hex1_instance.data_left = 1 ∧
      hex1_instance.nibble = -1 ∧ hex1_instance.buf_used + 4 < hex1_instance.buf_size) ∧
    (at_parser_feed hex1_instance str_AB_C).1.state = STATE_READLINE ∧
    (at_parser_feed hex1_instance str_AB_C).1.nibble = -1 ∧
    current_line (at_parser_feed hex1_instance str_AB_C).1 = [32, 67] :=
  have h := C18_trailing_digit_is_text hex1_instance (by decide) rfl (by decide)
    (by decide) (by decide) (by decide) (by decide)
  ⟨⟨by decide, by decide, by decide, by decide⟩, h.2.2.1, h.2.2.2.1, h.2.2.2.2.2.2.2⟩

/-- C20: `at_parser_await_response` enters `STATE_DATAPROMPT` if and only if a
prompt is armed, and `STATE_READLINE` otherwise.  The prompt is armed for one
command: when that command completes (a non-empty line of type
`AT_RESPONSE_FINAL_OK` or `AT_RESPONSE_FINAL` handled outside `STATE_IDLE`),
then whatever bytes are fed afterwards, the next `at_parser_await_response`
enters `STATE_READLINE`, and enters `STATE_DATAPROMPT` if
`at_parser_expect_dataprompt` is called again before it. -/
theorem C20_dataprompt_one_command (p q : AtParser σ) (data P : List Nat)
    (hne : q.buf_used ≠ q.buf_current) (hst : q.state ≠ STATE_IDLE)
    (hty : line_type q = AT_RESPONSE_FINAL_OK ∨ line_type q = AT_RESPONSE_FINAL) :
    ((at_parser_await_response p).state = STATE_DATAPROMPT ↔ p.dataprompt ≠ none) ∧
    ((at_parser_await_response p).state = STATE_READLINE ↔ p.dataprompt = none) ∧
    (at_parser_await_response
      (at_parser_feed (parser_handle_line q).1 data).1).state = STATE_READLINE ∧
    (at_parser_await_response (at_parser_expect_dataprompt
      (at_parser_feed (parser_handle_line q).1 data).1 (some P))).state =
        STATE_DATAPROMPT := by
  refine ⟨?_, ?_, ?_, rfl⟩
  · unfold at_parser_await_response
    cases h : p.dataprompt <;> simp
  · unfold at_parser_await_response
    cases h : p.dataprompt <;> simp
  · have h1 : (parser_handle_line q).1.dataprompt = none := by
      rw [parser_handle_line_final q hne hst hty]; rfl
    have h2 := at_parser_feed_dataprompt_none _ data h1
    unfold at_parser_await_response
    rw [h2]
    rfl


/-- C20 on a command armed with the prompt `"> "` that ends with `"OK"`, with
the unsolicited line `"RING"` received before the next command. -/
theorem C20_dataprompt_one_command_witness :
    (prompt_instance_OK.buf_used ≠ prompt_instance_OK.buf_current ∧
      prompt_instance_OK.state = STATE_DATAPROMPT ∧
      prompt_instance_OK.dataprompt = some str_prompt ∧
      line_type prompt_instance_OK = AT_RESPONSE_FINAL_OK) ∧
    (at_parser_await_response
      (at_parser_feed (parser_handle_line prompt_instance_OK).1
        (str_RING ++ [13, 10])).1).state = STATE_READLINE ∧
    (at_parser_await_response (at_parser_expect_dataprompt
      (at_parser_feed (parser_handle_line prompt_instance_OK).1
        (str_RING ++ [13, 10])).1 (some str_prompt))).state = STATE_DATAPROMPT :=
  have h := C20_dataprompt_one_command plain_instance prompt_instance_OK
    (str_RING ++ [13, 10]) str_prompt (by decide) (by decide) (Or.inl (by decide))
  ⟨⟨by decide, by decide, by decide, by decide⟩, h.2.2.1, h.2.2.2⟩

/-- A byte received in `STATE_READLINE` by a parser with no character handler
whose buffer is full, the line in progress empty, changes nothing and invokes
no callback. -/
theorem at_parser_feed_byte_full (p : AtParser σ) (ch : Nat)
    (hst : p.state = STATE_READLINE) (hh : p.character_handler = none)
    (hcur : p.buf_used = p.buf_current)
    (hfull : ¬ p.buf_used < size_minus_one p.buf_size) :
    at_parser_feed_byte p ch = (p, []) := by
  have happ : parser_append p ch = p := by
    unfold parser_append
    rw [if_neg hfull]
  have hline : parser_handle_line p = (p, []) := by
    unfold parser_handle_line
    rw [if_pos hcur]
  unfold at_parser_feed_byte
  rw [hst]
  show at_parser_feed_line p ch = (p, [])
  unfold at_parser_feed_line
  by_cases hc : ch ≠ 13 ∧ ch ≠ 10
  · rw [if_pos hc, happ]
    dsimp only
    rw [call_character_handler_none p ch hh]
    have h10 : ¬ (ch = 10 ∨ (p.state = STATE_DATAPROMPT ∧ dataprompt_matches p = true)) := by
      rintro (h | h)
      · exact hc.2 h
      · rw [hst] at h; exact absurd h.1 (by decide)
    show (if ch = 10 ∨ (p.state = STATE_DATAPROMPT ∧ dataprompt_matches p = true) then
      parser_handle_line p else (p, [])) = (p, [])
    rw [if_neg h10]
  · rw [if_neg hc]
    dsimp only
    rw [call_character_handler_none p ch hh]
    show (if ch = 10 ∨ (p.state = STATE_DATAPROMPT ∧ dataprompt_matches p = true) then
      parser_handle_line p else (p, [])) = (p, [])
    split_ifs
    · exact hline
    · rfl

/-- A parser in `STATE_READLINE` with no character handler whose buffer is
full, the line in progress empty, ignores every stream. -/
theorem at_parser_feed_full (p : AtParser σ) (data : List Nat)
    (hst : p.state = STATE_READLINE) (hh : p.character_handler = none)
    (hcur : p.buf_used = p.buf_current)
    (hfull : ¬ p.buf_used < size_minus_one p.buf_size) :
    at_parser_feed p data = (p, []) := by
  induction data with
  | nil => rfl
  | cons c D ih =>
    rw [at_parser_feed_cons, at_parser_feed_byte_full p c hst hh hcur hfull, ih]
    rfl

/-- C22: at the failing input, a buffer of 4 bytes and the stream `"ABC"` CR LF
`"OK"` CR LF received while a command is outstanding, the intermediate line
`"ABC"` fills the buffer, and the final line `"OK"` that follows is not
recognised: `handle_response` is not invoked, the parser stays in
`STATE_READLINE` with the buffer full, and from there no stream whatever
invokes a callback or changes the parser. -/
theorem C22_full_buffer_hides_final_line :
    classified small_instance.cbs str_ABC AT_RESPONSE_INTERMEDIATE ∧
    classified small_instance.cbs str_OK AT_RESPONSE_FINAL_OK ∧
    (at_parser_feed (at_parser_await_response small_instance)
      (str_ABC ++ [13, 10] ++ (str_OK ++ [13, 10]))).2 = [] ∧
    (at_parser_feed (at_parser_await_response small_instance)
      (str_ABC ++ [13, 10] ++ (str_OK ++ [13, 10]))).1 = small_instance_full ∧
    small_instance_full.state = STATE_READLINE ∧
    small_instance_full.buf.take small_instance_full.buf_used = str_ABC ∧
    small_instance_full.buf_current = small_instance_full.buf_used ∧
    ∀ data : List Nat, at_parser_feed small_instance_full data = (small_instance_full, []) := by
  refine ⟨?_, ?_, by decide, rfl, by decide, by decide, by decide, ?_⟩
  · exact classified_plain str_ABC
  · exact classified_plain str_OK
  · intro data
    exact at_parser_feed_full small_instance_full data (by decide) rfl (by decide) (by decide)

/-- C23: at the failing input, a buffer of 6 bytes and the final line `"ERROR"`
CR LF received while a command is outstanding, the line fills the buffer, the
newline `parser_include_line` appends is dropped, and `parser_finalize` removes
the last character of the line: the accumulated content is `"ERROR"` and
`handle_response` receives `"ERRO"`. -/
theorem C23_finalize_strips_line_character :
    classified six_instance.cbs str_ERROR AT_RESPONSE_FINAL ∧
    (at_parser_feed (at_parser_await_response six_instance) str_ERROR).1.buf.take
      (at_parser_feed (at_parser_await_response six_instance) str_ERROR).1.buf_used = str_ERROR ∧
    (parser_include_line
      (at_parser_feed (at_parser_await_response six_instance) str_ERROR).1).buf_used = 5 ∧
    (at_parser_feed (at_parser_await_response six_instance) (str_ERROR ++ [13, 10])).2 =
      [at_event.response str_ERRO 4] ∧
    str_ERRO ≠ str_ERROR := by
  refine ⟨?_, by decide, by decide, by decide, by decide⟩
  exact classified_plain str_ERROR

/-- C24: at the failing input, the line `"6, CONNECT OK"`, the `scan_line` of
the SIM800 driver stores into `socket_status` at index 6, which is not an index
of the array of `SIM800_NSOCKETS` = 6 elements: the guard admits the character
`'0' + SIM800_NSOCKETS`.  (At the line `"5, CLOSED"` the store is at index 5,
the last element.) -/
theorem C24_scan_line_index_past_end :
    (sim800.scan_line str_6_CONNECT_OK str_6_CONNECT_OK.length).store =
      some (6, SIM800_SOCKET_STATUS_CONNECTED) ∧
    (sim800.scan_line str_6_CONNECT_OK str_6_CONNECT_OK.length).type = AT_RESPONSE_URC ∧
    ¬ 6 < SIM800_NSOCKETS ∧
    (sim800.scan_line str_5_CLOSED str_5_CLOSED.length).store =
      some (5, SIM800_SOCKET_STATUS_ERROR) := by
  decide

theorem at_parser_feed_hexdata_nonhex (p : AtParser σ) (ch : Nat) (h : 0 < p.data_left)
    (hv : hex2int ch = -1) : at_parser_feed_hexdata p ch = p := by
  unfold at_parser_feed_hexdata
  dsimp only
  rw [if_pos h, if_neg (not_not.2 hv)]
  exact parser_data_done_pos p (by omega)

/-- A character that is no hex digit, received in `STATE_HEXDATA` while payload
bytes are expected, changes nothing. -/
theorem at_parser_feed_byte_nonhex (p : AtParser σ) (ch : Nat)
    (hs : p.state = STATE_HEXDATA) (h : 0 < p.data_left) (hv : hex2int ch = -1) :
    at_parser_feed_byte p ch = (p, []) := by
  rw [at_parser_feed_byte_hexdata p ch hs, at_parser_feed_hexdata_nonhex p ch h hv]

theorem hex2int_ne_neg_one_nonneg (ch : Nat) : -1 ≤ hex2int ch := by
  unfold hex2int
  split_ifs <;> omega

/-- A hex digit that is not the last one expected leaves the parser in
`STATE_HEXDATA`, expecting one digit less. -/
theorem at_parser_feed_byte_hex_digit (p : AtParser σ) (ch : Nat)
    (hs : p.state = STATE_HEXDATA) (hv : hex2int ch ≠ -1) (hr : 1 < hex_remaining p) :
    (at_parser_feed_byte p ch).1.state = STATE_HEXDATA ∧
      hex_remaining (at_parser_feed_byte p ch).1 = hex_remaining p - 1 := by
  rw [at_parser_feed_byte_hexdata p ch hs]
  have hpos : 0 < p.data_left := by
    unfold hex_remaining at hr
    omega
  by_cases hn : p.nibble = -1
  · rw [at_parser_feed_hexdata_high p ch hpos hv hn, parser_data_done_pos _ (by
      show p.data_left ≠ 0
      omega)]
    refine ⟨hs, ?_⟩
    unfold hex_remaining
    rw [if_pos hn]
    show 2 * p.data_left - (if hex2int ch = -1 then 0 else 1) = _
    rw [if_neg hv]
    omega
  · have hdl : 2 ≤ p.data_left := by
      unfold hex_remaining at hr
      rw [if_neg hn] at hr
      omega
    have hf := parser_append_frame { p with nibble := -1 }
      ((hex2int ch + p.nibble * 16) % 256).toNat
    have hdl2 : (parser_append { p with nibble := -1 }
        ((hex2int ch + p.nibble * 16) % 256).toNat).data_left = p.data_left := hf.2.1
    rw [at_parser_feed_hexdata_low p ch hpos hv hn, parser_data_done_pos _ (by
      show (parser_append { p with nibble := -1 }
        ((hex2int ch + p.nibble * 16) % 256).toNat).data_left - 1 ≠ 0
      rw [hdl2]
      omega)]
    refine ⟨hf.2.2.2.2.trans hs, ?_⟩
    unfold hex_remaining
    rw [if_neg hn]
    show 2 * ((parser_append { p with nibble := -1 }
        ((hex2int ch + p.nibble * 16) % 256).toNat).data_left - 1) -
      (if (parser_append { p with nibble := -1 }
        ((hex2int ch + p.nibble * 16) % 256).toNat).nibble = -1 then 0 else 1) = _
    rw [hdl2, if_pos hf.2.2.1]
    omega

/-- In `STATE_HEXDATA`, the characters that are no hex digit and come before the
last hex digit expected are as good as absent. -/
theorem at_parser_feed_hex_filter (pre rest : List Nat) (p : AtParser σ)
    (hs : p.state = STATE_HEXDATA)
    (hr : (pre.filter is_hex).length < hex_remaining p) :
    at_parser_feed p (pre ++ rest) = at_parser_feed p (pre.filter is_hex ++ rest) := by
  induction pre generalizing p with
  | nil => rfl
  | cons c D ih =>
    by_cases hv : hex2int c = -1
    · have hc : is_hex c = false := by
        unfold is_hex
        exact decide_eq_false (not_not.2 hv)
      have hpos : 0 < p.data_left := by
        unfold hex_remaining at hr
        omega
      rw [List.filter_cons_of_neg (by rw [hc]; decide)] at hr ⊢
      rw [List.cons_append, at_parser_feed_cons, at_parser_feed_byte_nonhex p c hs hpos hv]
      rw [ih p hs hr]
      rfl
    · have hc : is_hex c = true := by
        unfold is_hex
        exact decide_eq_true hv
      rw [List.filter_cons_of_pos hc] at hr ⊢
      rw [List.length_cons] at hr
      have hd := at_parser_feed_byte_hex_digit p c hs hv (by omega)
      rw [List.cons_append, List.cons_append, at_parser_feed_cons, at_parser_feed_cons,
        ih _ hd.1 (by rw [hd.2]; omega)]

theorem hex2int_lower (c : Nat) (h1 : 65 ≤ c) (h2 : c ≤ 70) :
    hex2int (c + 32) = hex2int c := by
  unfold hex2int
  rw [if_neg (by omega), if_neg (by omega), if_pos (by omega), if_neg (by omega),
    if_pos (by omega)]
  push_cast
  omega

theorem at_parser_feed_hexdata_congr (p : AtParser σ) (c d : Nat)
    (h : hex2int c = hex2int d) : at_parser_feed_hexdata p c = at_parser_feed_hexdata p d := by
  unfold at_parser_feed_hexdata
  rw [h]

theorem hex_encode_length (S : List Nat) : (hex_encode S).length = 2 * S.length := by
  induction S with
  | nil => rfl
  | cons b S ih =>
    show (hex_encode S).length + 1 + 1 = 2 * (S.length + 1)
    omega

/-- In `STATE_HEXDATA`, two runs of hex digits of the same values, no longer
than the digits expected, are decoded alike. -/
theorem at_parser_feed_hex_congr (A B : List Nat) (p : AtParser σ)
    (hs : p.state = STATE_HEXDATA) (hA : A.length ≤ hex_remaining p)
    (hall : ∀ c ∈ A, hex2int c ≠ -1) (h : A.map hex2int = B.map hex2int) :
    at_parser_feed p A = at_parser_feed p B := by
  induction A generalizing B p with
  | nil =>
    cases B with
    | nil => rfl
    | cons b B => cases h
  | cons a A ih =>
    cases B with
    | nil => cases h
    | cons b B =>
      rw [List.map_cons, List.map_cons, List.cons.injEq] at h
      have hb : at_parser_feed_byte p a = at_parser_feed_byte p b := by
        rw [at_parser_feed_byte_hexdata p _ hs, at_parser_feed_byte_hexdata p _ hs,
          at_parser_feed_hexdata_congr p a b h.1]
      rw [at_parser_feed_cons, at_parser_feed_cons, ← hb]
      cases A with
      | nil =>
        cases B with
        | nil => rfl
        | cons b2 B => cases h.2
      | cons a2 A =>
        rw [List.length_cons, List.length_cons] at hA
        have hd := at_parser_feed_byte_hex_digit p a hs
          (hall a (List.mem_cons_self _ _)) (by omega)
        rw [ih B _ hd.1 (by rw [hd.2, List.length_cons]; omega)
          (fun c hc => hall c (List.mem_cons_of_mem _ hc)) h.2]

/-- C25: while a parser in `STATE_HEXDATA` expects payload bytes, a character
that is no hex digit changes nothing: neither the buffer, nor the count of
bytes to come, nor the high nibble held.  So the characters that are no hex
digits among the digits expected, those before the last one, are as good as
absent, and a stream that ends in a hex digit and whose hex digits have the
values of those of the `n` payload bytes `S` is decoded as the digits of `S`
alone.  A lowercase hex digit has the value of the uppercase one and is
decoded alike. -/
theorem C25_nonhex_ignored_in_hexdata (p : AtParser σ) (pre rest S : List Nat) (ch d : Nat)
    (hst : p.state = STATE_HEXDATA) (hleft : 1 ≤ p.data_left)
    (hch : hex2int ch = -1)
    (hpre : (pre.filter is_hex).length < hex_remaining p)
    (hn : p.nibble = -1) (hS : p.data_left = S.length) (hd : hex2int d ≠ -1)
    (hdig : ((pre ++ [d]).filter is_hex).map hex2int = (hex_encode S).map hex2int) :
    at_parser_feed_byte p ch = (p, []) ∧
    at_parser_feed p (pre ++ rest) = at_parser_feed p (pre.filter is_hex ++ rest) ∧
    at_parser_feed p (pre ++ [d]) = at_parser_feed p (hex_encode S) ∧
    (∀ c, 65 ≤ c → c ≤ 70 → hex2int (c + 32) = hex2int c ∧
      at_parser_feed_byte p (c + 32) = at_parser_feed_byte p c) := by
  refine ⟨at_parser_feed_byte_nonhex p ch hst (by omega) hch,
    at_parser_feed_hex_filter pre rest p hst hpre, ?_, fun c h1 h2 => ?_⟩
  · have hdt : is_hex d = true := by
      unfold is_hex
      exact decide_eq_true hd
    have hf : (pre ++ [d]).filter is_hex = pre.filter is_hex ++ [d] := by
      rw [List.filter_append, List.filter_cons_of_pos hdt, List.filter_nil]
    have hlen : ((pre ++ [d]).filter is_hex).length = 2 * S.length := by
      rw [← hex_encode_length S, ← List.length_map ((pre ++ [d]).filter is_hex) hex2int, hdig,
        List.length_map]
    have hrem : hex_remaining p = 2 * S.length := by
      unfold hex_remaining
      rw [if_pos hn, hS]
      omega
    rw [at_parser_feed_hex_filter pre [d] p hst hpre, ← hf]
    refine at_parser_feed_hex_congr _ _ p hst (by rw [hlen, hrem]) (fun c hc => ?_) hdig
    have := (List.mem_filter.1 hc).2
    unfold is_hex at this
    exact of_decide_eq_true this
  · refine ⟨hex2int_lower c h1 h2, ?_⟩
    rw [at_parser_feed_byte_hexdata p _ hst, at_parser_feed_byte_hexdata p _ hst,
      at_parser_feed_hexdata_congr p (c + 32) c (hex2int_lower c h1 h2)]

/-- C25 at the parser `hex2_instance`, which expects 2 payload bytes, and the
stream `hex_payload_spaced`: the decoded payload is `0xDE 0x0A`. -/
theorem C25_nonhex_ignored_in_hexdata_witness :
    (hex2_instance.state = STATE_HEXDATA ∧ hex2_instance.data_left = 2 ∧
      hex2_instance.nibble = -1 ∧
      hex2int 32 = -1 ∧ hex_payload_spaced = [32, 100, 13, 10, 69, 44, 48, 32] ++ [97] ∧
      hex_payload_spaced.filter is_hex = [100, 69, 48, 97] ∧
      hex_encode hex_payload = [68, 69, 48, 65]) ∧
    at_parser_feed_byte hex2_instance 32 = (hex2_instance, []) ∧
    at_parser_feed hex2_instance ([32, 100, 13, 10, 69, 44, 48, 32] ++ [97]) =
      at_parser_feed hex2_instance (hex_encode hex_payload) ∧
    (at_parser_feed hex2_instance hex_payload_spaced).1.buf.take
      (at_parser_feed hex2_instance hex_payload_spaced).1.buf_used =
      str_X2 ++ [10] ++ hex_payload ++ [10] :=
  ⟨⟨by decide, by decide, by decide, by decide, by decide, by decide, by decide⟩,
   (C25_nonhex_ignored_in_hexdata hex2_instance [32, 100, 13, 10, 69, 44, 48, 32] []
      hex_payload 32 97 (by decide) (by decide) (by decide) (by decide) (by decide)
      (by decide) (by decide) (by decide)).1,
   (C25_nonhex_ignored_in_hexdata hex2_instance [32, 100, 13, 10, 69, 44, 48, 32] []
      hex_payload 32 97 (by decide) (by decide) (by decide) (by decide) (by decide)
      (by decide) (by decide) (by decide)).2.2.1,
   by decide⟩

theorem determine_type_scan (p : AtParser σ) (line : List Nat) (len : Nat)
    (scan : List Nat → Nat → σ → Nat × σ) (hs : p.cbs.scan_line = some scan) :
    (determine_type p line len).1 =
      if (scan line len p.priv).1 = AT_RESPONSE_UNKNOWN then
        generic_line_scanner line len { p with priv := (scan line len p.priv).2 }
      else (scan line len p.priv).1 := by
  unfold determine_type
  rw [hs]
  dsimp only
  by_cases h : (scan line len p.priv).1 = 0
  · rw [if_pos h, if_pos (show _ = AT_RESPONSE_UNKNOWN from h)]
  · rw [if_neg h, if_neg (show ¬ _ = AT_RESPONSE_UNKNOWN from h)]

theorem determine_type_no_scan (q : AtParser σ) (line : List Nat) (len : Nat)
    (hs : q.cbs.scan_line = none) :
    (determine_type q line len).1 = generic_line_scanner line len q := by
  unfold determine_type
  rw [hs]
  rfl

theorem scanner_cipstatus_final (F : List Nat) (n : Nat) (s : σ) (hF : str_C_5 <+: F) :
    (scanner_cipstatus F n s).1 = AT_RESPONSE_FINAL := by
  have h1 : strcmp_eq F str_OK = false := by
    obtain ⟨r, rfl⟩ := hF
    rfl
  have h2 : strncmp_eq F str_C_5 (strlen str_C_5) = true :=
    (strncmp_eq_iff str_C_5 F (by decide)).2 hF
  unfold scanner_cipstatus
  rw [h1, h2]
  rfl

/-- C27, as stated, fails: with the scanner `scanner_cipstatus` consulted for
every line, the line `"ERROR"`, for which the scanner returns
`AT_RESPONSE_UNKNOWN`, is classified by the generic tables and terminates the
command, though it does not start with `"C: 5"`. -/
theorem C27_terminates_only_at_c5_counterexample :
    (scanner_cipstatus str_ERROR str_ERROR.length ()).1 = AT_RESPONSE_UNKNOWN ∧
    (at_parser_feed (at_parser_await_response cipstatus_instance)
      (str_ERROR ++ [13, 10])).2 = [at_event.response str_ERROR 5] ∧
    (at_parser_feed (at_parser_await_response cipstatus_instance)
      (str_ERROR ++ [13, 10])).1.state = STATE_IDLE ∧
    ¬ str_C_5 <+: str_ERROR := by
  refine ⟨by decide, by decide, by decide, by decide⟩

/-- C27, amended: the type `parser_handle_line` determines for a line is the
one the driver's `scan_line` returns, whatever the generic tables say, unless
that is `AT_RESPONSE_UNKNOWN` or no `scan_line` is registered, and then it is
the one the generic scanner returns.  With the scanner `scanner_cipstatus` the
line `"OK"` is an intermediate line and every line starting with `"C: 5"` a
final one, so that the answer `"OK"` CR LF `F` CR LF terminates the command
at `F` with the body `"OK"` LF `F`; the line `"ERROR"`, left to the generic
tables, is a final line too. -/
theorem C27_scan_line_takes_precedence (p q c : AtParser σ) (line F : List Nat) (len : Nat)
    (scan : List Nat → Nat → σ → Nat × σ)
    (hs : p.cbs.scan_line = some scan) (hq : q.cbs.scan_line = none)
    (hc : c.cbs.scan_line = some scanner_cipstatus)
    (hbuf : c.buf.length = c.buf_size)
    (hF : str_C_5 <+: F) (hF2 : ∀ x ∈ F, x ≠ 13 ∧ x ≠ 10)
    (hfit : str_OK.length + 1 + F.length + 1 < c.buf_size) :
    ((scan line len p.priv).1 ≠ AT_RESPONSE_UNKNOWN →
      (determine_type p line len).1 = (scan line len p.priv).1) ∧
    ((scan line len p.priv).1 = AT_RESPONSE_UNKNOWN →
      (determine_type p line len).1 =
        generic_line_scanner line len { p with priv := (scan line len p.priv).2 }) ∧
    (determine_type q line len).1 = generic_line_scanner line len q ∧
    classified c.cbs str_OK AT_RESPONSE_INTERMEDIATE ∧
    classified c.cbs F AT_RESPONSE_FINAL ∧
    classified c.cbs str_ERROR AT_RESPONSE_FINAL ∧
    (at_parser_feed (at_parser_await_response (at_parser_reset c))
      (str_OK ++ [13, 10])).2 = [] ∧
    (at_parser_feed (at_parser_await_response (at_parser_reset c))
      (str_OK ++ [13, 10])).1.state = STATE_READLINE ∧
    (at_parser_feed (at_parser_await_response (at_parser_reset c))
      (str_OK ++ [13, 10] ++ (F ++ [13, 10]))).2 =
      [at_event.response (str_OK ++ [10] ++ F) (str_OK.length + 1 + F.length)] := by
  have hOK : classified c.cbs str_OK AT_RESPONSE_INTERMEDIATE :=
    classified_of_scan c.cbs str_OK _ scanner_cipstatus hc (fun _ => rfl) (by decide)
  have hFin : classified c.cbs F AT_RESPONSE_FINAL :=
    classified_of_scan c.cbs F _ scanner_cipstatus hc
      (fun s => scanner_cipstatus_final F F.length s hF) (by decide)
  have hERR : classified c.cbs str_ERROR AT_RESPONSE_FINAL :=
    classified_generic c.cbs str_ERROR
      (fun scan2 h2 s => by
        rw [hc] at h2
        cases h2
        rfl)
      (at_parser_await_response (at_parser_reset c)) rfl
  have h0 := in_line_await_reset c hbuf (by omega)
  have hFne : F ≠ [] := by
    rintro rfl
    exact absurd hF (by decide)
  have h1 := at_parser_feed_intermediate str_OK _ h0 (by decide) (by decide) hOK
    (by simp only [List.length_nil]; omega)
  have h2 := at_parser_feed_final F _ h1.2 hFne hF2 hFin
    (by simp only [List.length_append, List.length_nil, List.length_singleton]; omega)
  refine ⟨fun h => ?_, fun h => ?_, determine_type_no_scan q line len hq, hOK, hFin, hERR,
    h1.1, h1.2.2.1, ?_⟩
  · rw [determine_type_scan p line len scan hs, if_neg h]
  · rw [determine_type_scan p line len scan hs, if_pos h]
  · rw [at_parser_feed_append, h1.1, h2.1]
    simp only [List.nil_append, List.length_append, List.length_nil, List.length_singleton,
      Nat.zero_add]

/-- C27, amended, at the scanner `scanner_cipstatus` and the answer `"OK"` CR LF
`C: 5,0,"","","","INITIAL"` CR LF. -/
theorem C27_scan_line_takes_precedence_witness :
    (cipstatus_instance.cbs.scan_line = some scanner_cipstatus ∧
      plain_instance.cbs.scan_line = none ∧
      (scanner_cipstatus str_OK 2 cipstatus_instance.priv).1 ≠ AT_RESPONSE_UNKNOWN ∧
      str_C_5 <+: str_C_5_INITIAL) ∧
    (determine_type cipstatus_instance str_OK 2).1 = AT_RESPONSE_INTERMEDIATE ∧
    generic_line_scanner str_OK 2 plain_instance = AT_RESPONSE_FINAL_OK ∧
    (at_parser_feed (at_parser_await_response (at_parser_reset cipstatus_instance))
      (str_OK ++ [13, 10] ++ (str_C_5_INITIAL ++ [13, 10]))).2 =
      [at_event.response (str_OK ++ [10] ++ str_C_5_INITIAL)
        (str_OK.length + 1 + str_C_5_INITIAL.length)] :=
  ⟨⟨rfl, rfl, by decide, by decide⟩,
   ((C27_scan_line_takes_precedence cipstatus_instance plain_instance cipstatus_instance
      str_OK str_C_5_INITIAL 2 scanner_cipstatus rfl rfl rfl (by decide) (by decide)
      (by decide) (by decide)).1 (by decide)).trans (by decide),
   by decide,
   (C27_scan_line_takes_precedence cipstatus_instance plain_instance cipstatus_instance
      str_OK str_C_5_INITIAL 2 scanner_cipstatus rfl rfl rfl (by decide) (by decide)
      (by decide) (by decide)).2.2.2.2.2.2.2.2⟩

theorem generic_line_scanner_tag (line : List Nat) (len : Nat) (p : AtParser σ) :
    generic_line_scanner line len p &&& _AT_RESPONSE_TYPE_MASK ≠ _AT_RESPONSE_RAWDATA_FOLLOWS ∧
    generic_line_scanner line len p &&& _AT_RESPONSE_TYPE_MASK ≠
      _AT_RESPONSE_HEXDATA_FOLLOWS := by
  unfold generic_line_scanner
  split_ifs <;> decide

theorem determine_type_tag (p : AtParser σ) (line : List Nat) (len : Nat)
    (hscan : no_payload p.cbs) :
    (determine_type p line len).1 &&& _AT_RESPONSE_TYPE_MASK ≠ _AT_RESPONSE_RAWDATA_FOLLOWS ∧
    (determine_type p line len).1 &&& _AT_RESPONSE_TYPE_MASK ≠
      _AT_RESPONSE_HEXDATA_FOLLOWS := by
  unfold determine_type
  dsimp only
  cases hs : p.cbs.scan_line with
  | none =>
    dsimp only
    rw [if_pos (show AT_RESPONSE_UNKNOWN = 0 from rfl)]
    exact generic_line_scanner_tag _ _ _
  | some scan =>
    dsimp only
    by_cases h : (scan line len p.priv).1 = 0
    · rw [if_pos h]
      exact generic_line_scanner_tag _ _ _
    · rw [if_neg h]
      exact hscan scan hs line len p.priv

theorem parser_append_frame_cbs (p : AtParser σ) (ch : Nat) :
    (parser_append p ch).cbs = p.cbs ∧
      (parser_append p ch).character_handler = p.character_handler := by
  unfold parser_append
  split <;> exact ⟨rfl, rfl⟩

/-- After `parser_act` on a type that announces no payload the cursors are
equal if they were, the callbacks and the absence of a handler are kept, and
the state is kept or `STATE_IDLE`. -/
theorem parser_act_line_mode (p : AtParser σ) (type : Nat)
    (hh : p.character_handler = none) (hcur : p.buf_used = p.buf_current)
    (h5 : type &&& _AT_RESPONSE_TYPE_MASK ≠ _AT_RESPONSE_RAWDATA_FOLLOWS)
    (h6 : type &&& _AT_RESPONSE_TYPE_MASK ≠ _AT_RESPONSE_HEXDATA_FOLLOWS) :
    (parser_act p type).1.cbs = p.cbs ∧ (parser_act p type).1.character_handler = none ∧
      ((parser_act p type).1.state = p.state ∨ (parser_act p type).1.state = STATE_IDLE) ∧
      (parser_act p type).1.buf_used = (parser_act p type).1.buf_current := by
  unfold parser_act
  dsimp only
  by_cases hf : type &&& _AT_RESPONSE_TYPE_MASK = AT_RESPONSE_FINAL_OK ∨
      type &&& _AT_RESPONSE_TYPE_MASK = AT_RESPONSE_FINAL
  · rw [if_pos hf]
    refine ⟨?_, rfl, Or.inr rfl, rfl⟩
    show (parser_finalize p).cbs = p.cbs
    unfold parser_finalize
    dsimp only
    split_ifs <;> rfl
  · rw [if_neg hf, if_neg h5, if_neg h6]
    exact ⟨rfl, hh, Or.inl rfl, hcur⟩

/-- After `parser_handle_line`, in a parser with no character handler whose
`scan_line` announces no payload, the line in progress is empty, there is
still no handler, and the state is the one before or `STATE_IDLE`. -/
theorem parser_handle_line_line_mode (p : AtParser σ) (hh : p.character_handler = none)
    (hscan : no_payload p.cbs) :
    (parser_handle_line p).1.cbs = p.cbs ∧
      (parser_handle_line p).1.character_handler = none ∧
      ((parser_handle_line p).1.state = p.state ∨
        (parser_handle_line p).1.state = STATE_IDLE) ∧
      (parser_handle_line p).1.buf_used = (parser_handle_line p).1.buf_current := by
  unfold parser_handle_line
  by_cases he : p.buf_used = p.buf_current
  · rw [if_pos he]
    exact ⟨rfl, hh, Or.inl rfl, he⟩
  · rw [if_neg he]
    dsimp only
    have htag := determine_type_tag (parser_terminate p) (current_line (parser_terminate p))
      ((parser_terminate p).buf_used - (parser_terminate p).buf_current) hscan
    have hsnd := determine_type_snd (parser_terminate p) (current_line (parser_terminate p))
      ((parser_terminate p).buf_used - (parser_terminate p).buf_current)
    generalize determine_type (parser_terminate p) (current_line (parser_terminate p))
      ((parser_terminate p).buf_used - (parser_terminate p).buf_current) = r at htag hsnd ⊢
    have hc : r.2.cbs = p.cbs := by rw [hsnd]; rfl
    have hh2 : r.2.character_handler = none := by rw [hsnd]; exact hh
    have hs2 : r.2.state = p.state := by rw [hsnd]; rfl
    split
    · exact ⟨hc, hh2, Or.inl hs2, rfl⟩
    · by_cases hok : r.1 ≠ AT_RESPONSE_FINAL_OK
      · rw [if_pos hok]
        have hi : (parser_include_line r.2).cbs = p.cbs ∧
            (parser_include_line r.2).character_handler = none ∧
            (parser_include_line r.2).state = p.state ∧
            (parser_include_line r.2).buf_used = (parser_include_line r.2).buf_current := by
          unfold parser_include_line
          dsimp only
          exact ⟨(parser_append_frame_cbs r.2 10).1.trans hc,
            (parser_append_frame_cbs r.2 10).2.trans hh2,
            (parser_append_frame r.2 10).2.2.2.2.trans hs2, rfl⟩
        obtain ⟨a1, a2, a3, a4⟩ := parser_act_line_mode (parser_include_line r.2) r.1
          hi.2.1 hi.2.2.2 htag.1 htag.2
        refine ⟨a1.trans hi.1, a2, ?_, a4⟩
        rcases a3 with a3 | a3
        · exact Or.inl (a3.trans hi.2.2.1)
        · exact Or.inr a3
      · rw [if_neg hok]
        obtain ⟨a1, a2, a3, a4⟩ := parser_act_line_mode (parser_discard_line r.2) r.1
          hh2 rfl htag.1 htag.2
        refine ⟨a1.trans hc, a2, ?_, a4⟩
        rcases a3 with a3 | a3
        · exact Or.inl (a3.trans hs2)
        · exact Or.inr a3

/-- A carriage return received by a parser in `line_mode` changes nothing and
invokes no callback. -/
theorem at_parser_feed_byte_cr_line_mode {cbs : at_parser_callbacks σ} (p : AtParser σ)
    (h : line_mode cbs p) : at_parser_feed_byte p 13 = (p, []) := by
  obtain ⟨_, hh, hst, hp⟩ := h
  have hline : at_parser_feed_line p 13 = (p, []) := by
    unfold at_parser_feed_line
    rw [if_neg (show ¬ ((13 : Nat) ≠ 13 ∧ (13 : Nat) ≠ 10) by decide)]
    dsimp only
    rw [call_character_handler_none p 13 hh]
    show (if 13 = 10 ∨ (p.state = STATE_DATAPROMPT ∧ dataprompt_matches p = true) then
      parser_handle_line p else (p, [])) = (p, [])
    split_ifs with hc
    · rcases hc with hc | hc
      · exact absurd hc (by decide)
      · unfold parser_handle_line
        rw [if_pos (hp hc.1 hc.2)]
    · rfl
  unfold at_parser_feed_byte
  rcases hst with e | e | e <;> rw [e] <;> exact hline

/-- Every byte keeps a parser whose `scan_line` announces no payload in
`line_mode`. -/
theorem at_parser_feed_byte_line_mode {cbs : at_parser_callbacks σ} (p : AtParser σ)
    (ch : Nat) (hscan : no_payload cbs) (h : line_mode cbs p) :
    line_mode cbs (at_parser_feed_byte p ch).1 := by
  obtain ⟨hc, hh, hst, hp⟩ := h
  have hfl : at_parser_feed_byte p ch = at_parser_feed_line p ch := by
    unfold at_parser_feed_byte
    rcases hst with e | e | e <;> rw [e]
  rw [hfl]
  unfold at_parser_feed_line
  dsimp only
  generalize hq : (if ch ≠ 13 ∧ ch ≠ 10 then parser_append p ch else p) = q
  have hqc : q.cbs = cbs ∧ q.character_handler = none ∧ q.state = p.state := by
    rw [← hq]
    split_ifs
    · exact ⟨(parser_append_frame_cbs p ch).1.trans hc,
        (parser_append_frame_cbs p ch).2.trans hh, (parser_append_frame p ch).2.2.2.2⟩
    · exact ⟨hc, hh, rfl⟩
  rw [call_character_handler_none q ch hqc.2.1]
  show line_mode cbs (if ch = 10 ∨ (q.state = STATE_DATAPROMPT ∧ dataprompt_matches q = true)
    then parser_handle_line q else (q, [])).1
  split_ifs with hcond
  · obtain ⟨a1, a2, a3, a4⟩ := parser_handle_line_line_mode q hqc.2.1
      (by rw [hqc.1]; exact hscan)
    refine ⟨a1.trans hqc.1, a2, ?_, fun _ _ => a4⟩
    rcases a3 with a3 | a3
    · rw [a3, hqc.2.2]
      exact hst
    · exact Or.inl a3
  · refine ⟨hqc.1, hqc.2.1, by rw [hqc.2.2]; exact hst, fun h1 h2 => ?_⟩
    exact absurd (Or.inr ⟨h1, h2⟩) hcond

/-- A parser in `line_mode` whose `scan_line` announces no payload treats a
stream and the stream without its carriage returns alike. -/
theorem at_parser_feed_cr_filter {cbs : at_parser_callbacks σ} (data : List Nat)
    (p : AtParser σ) (hscan : no_payload cbs) (h : line_mode cbs p) :
    at_parser_feed p data = at_parser_feed p (data.filter (fun c => c != 13)) := by
  induction data generalizing p with
  | nil => rfl
  | cons c D ih =>
    by_cases hc : c = 13
    · subst hc
      rw [List.filter_cons_of_neg (by decide), at_parser_feed_cons,
        at_parser_feed_byte_cr_line_mode p h, ih p h]
      rfl
    · rw [List.filter_cons_of_pos (by simpa using hc), at_parser_feed_cons,
        at_parser_feed_cons, ih _ (at_parser_feed_byte_line_mode p c hscan h)]

/-- C28: for a freshly reset parser, for one on which a prompt was then armed,
and for one on which a response was then awaited, with or without a prompt
armed, whose `scan_line` never announces payload bytes (no character handler
is installed after a reset), every stream and the stream with all its
carriage returns deleted give the same callback invocations and leave the same
parser. -/
theorem C28_cr_bytes_ignored (q : AtParser σ) (prompt : Option (List Nat))
    (data : List Nat) (hscan : no_payload q.cbs) :
    (at_parser_reset q).character_handler = none ∧
    at_parser_feed (at_parser_reset q) data =
      at_parser_feed (at_parser_reset q) (data.filter (fun c => c != 13)) ∧
    at_parser_feed (at_parser_expect_dataprompt (at_parser_reset q) prompt) data =
      at_parser_feed (at_parser_expect_dataprompt (at_parser_reset q) prompt)
        (data.filter (fun c => c != 13)) ∧
    at_parser_feed (at_parser_await_response (at_parser_reset q)) data =
      at_parser_feed (at_parser_await_response (at_parser_reset q))
        (data.filter (fun c => c != 13)) ∧
    at_parser_feed
        (at_parser_await_response (at_parser_expect_dataprompt (at_parser_reset q) prompt))
        data =
      at_parser_feed
        (at_parser_await_response (at_parser_expect_dataprompt (at_parser_reset q) prompt))
        (data.filter (fun c => c != 13)) := by
  refine ⟨rfl, ?_, ?_, ?_, ?_⟩
  · exact at_parser_feed_cr_filter data _ hscan
      ⟨rfl, rfl, Or.inl rfl,
        fun h => absurd (show STATE_IDLE = STATE_DATAPROMPT from h) (by decide)⟩
  · exact at_parser_feed_cr_filter data _ hscan
      ⟨rfl, rfl, Or.inl rfl,
        fun h => absurd (show STATE_IDLE = STATE_DATAPROMPT from h) (by decide)⟩
  · exact at_parser_feed_cr_filter data _ hscan
      ⟨rfl, rfl, Or.inr (Or.inl rfl),
        fun h => absurd (show STATE_READLINE = STATE_DATAPROMPT from h) (by decide)⟩
  · refine at_parser_feed_cr_filter data _ hscan ⟨rfl, rfl, ?_, fun _ _ => rfl⟩
    cases prompt with
    | none => exact Or.inr (Or.inl rfl)
    | some s => exact Or.inr (Or.inr rfl)

/-- C28 at the parser `plain_instance` awaiting a response and the stream
`cr_stream`, which without its carriage returns is `"OK"` LF `"A"`. -/
theorem C28_cr_bytes_ignored_witness :
    no_payload plain_instance.cbs ∧
    cr_stream.filter (fun c => c != 13) = str_OK ++ [10] ++ str_A ∧
    at_parser_feed (at_parser_await_response (at_parser_reset plain_instance)) cr_stream =
      at_parser_feed (at_parser_await_response (at_parser_reset plain_instance))
        (str_OK ++ [10] ++ str_A) ∧
    (at_parser_feed (at_parser_await_response (at_parser_reset plain_instance)) cr_stream).2 =
      [at_event.response [] 0] :=
  ⟨fun _ h => Option.noConfusion h, by decide,
   (C28_cr_bytes_ignored plain_instance none cr_stream
      (fun _ h => Option.noConfusion h)).2.2.2.1,
   by decide⟩

/-- C29: at the failing input, the answer `"2,ABCD"` CR LF `"OK"` CR LF to
`AT+NMGR` and a caller's buffer of `length` 1, the parser delivers the response
body `"2,"` LF `0xAB 0xCD`, and `nb501_socket_recv` copies 2 bytes into the
buffer and returns 2: more than `length`, which it never reads. -/
theorem C29_socket_recv_ignores_length :
    (at_parser_feed nmgr_recv_instance nmgr_stream).2 =
      [at_event.response nmgr_response 5] ∧
    nb501_socket_recv (some nmgr_response) 1 = { ret := 2, copied := 2 } ∧
    ¬ (2 : Nat) ≤ 1 ∧
    ∀ length : Nat, nb501_socket_recv (some nmgr_response) length =
      nb501_socket_recv (some nmgr_response) 1 := by
  refine ⟨by decide, by decide, by decide, fun _ => rfl⟩

theorem prefix_cstr_iff (t line : List Nat) (h0 : ∀ c ∈ t, c ≠ 0) :
    t <+: cstr line ↔ t <+: line := by
  constructor
  · intro h
    exact h.trans (List.takeWhile_prefix _)
  · rintro ⟨r, rfl⟩
    unfold cstr
    rw [List.takeWhile_append_of_pos (fun c hc => by simpa using h0 c hc)]
    exact List.prefix_append _ _

/-- C30: the function `at_prefix_in_table` returns true exactly when an entry of
the table is a prefix of the line, a C string (the entries being C strings,
without a NUL inside); on the empty table it returns false, and the
`scan_line` of the NB-IoT driver, whose table is empty, returns
`AT_RESPONSE_UNKNOWN` for every line. -/
theorem C30_prefix_in_table_iff (line : List Nat) (table : List (List Nat))
    (len : Nat) (arg : σ) (h0 : ∀ t ∈ table, ∀ c ∈ t, c ≠ 0) :
    (at_prefix_in_table line table = true ↔ ∃ t ∈ table, t <+: cstr line) ∧
    at_prefix_in_table line [] = false ∧
    at_prefix_in_table line nb501_urc_responses = false ∧
    nb501.scan_line line len arg = (AT_RESPONSE_UNKNOWN, arg) := by
  refine ⟨?_, rfl, rfl, rfl⟩
  rw [at_prefix_in_table_iff line table h0]
  constructor
  · rintro ⟨t, ht, h⟩
    exact ⟨t, ht, (prefix_cstr_iff t line (h0 t ht)).2 h⟩
  · rintro ⟨t, ht, h⟩
    exact ⟨t, ht, (prefix_cstr_iff t line (h0 t ht)).1 h⟩

/-- C30 at the table `urc_responses` and the line `"RING"`. -/
theorem C30_prefix_in_table_iff_witness :
    (∀ t ∈ urc_responses, ∀ c ∈ t, c ≠ 0) ∧
    (at_prefix_in_table str_RING urc_responses = true ↔
      ∃ t ∈ urc_responses, t <+: cstr str_RING) ∧
    nb501.scan_line str_RING 4 () = (AT_RESPONSE_UNKNOWN, ()) :=
  ⟨by decide,
   (C30_prefix_in_table_iff str_RING urc_responses 4 () (by decide)).1,
   (C30_prefix_in_table_iff str_RING urc_responses 4 () (by decide)).2.2.2⟩

theorem call_character_handler_frame (p : AtParser σ) (ch : Nat) :
    (call_character_handler p ch).1.state = p.state ∧
      (call_character_handler p ch).1.dataprompt = p.dataprompt := by
  unfold call_character_handler
  split <;> exact ⟨rfl, rfl⟩

theorem parser_act_prompt_armed (p : AtParser σ) (type : Nat) (h : prompt_armed p) :
    prompt_armed (parser_act p type).1 := by
  unfold parser_act
  dsimp only
  split_ifs
  · intro hs
    cases hs
  · intro hs
    cases hs
  · intro hs
    cases hs
  · exact h

theorem parser_include_line_prompt_armed (p : AtParser σ) (h : prompt_armed p) :
    prompt_armed (parser_include_line p) := by
  intro hs
  have h1 : (parser_include_line p).state = p.state := (parser_append_frame p 10).2.2.2.2
  have h2 : (parser_include_line p).dataprompt = p.dataprompt :=
    (parser_append_frame p 10).2.2.2.1
  rw [h2]
  exact h (h1.symm.trans hs)

theorem parser_handle_line_prompt_armed (p : AtParser σ) (h : prompt_armed p) :
    prompt_armed (parser_handle_line p).1 := by
  unfold parser_handle_line
  by_cases h1 : p.buf_used = p.buf_current
  · rw [if_pos h1]
    exact h
  · rw [if_neg h1]
    dsimp only
    have hsnd := determine_type_snd (parser_terminate p) (current_line (parser_terminate p))
      ((parser_terminate p).buf_used - (parser_terminate p).buf_current)
    generalize determine_type (parser_terminate p) (current_line (parser_terminate p))
      ((parser_terminate p).buf_used - (parser_terminate p).buf_current) = r at hsnd ⊢
    have hr : prompt_armed r.2 := by
      rw [hsnd]
      exact h
    split_ifs
    · exact hr
    · exact parser_act_prompt_armed _ _ (parser_include_line_prompt_armed _ hr)
    · exact parser_act_prompt_armed _ _ hr

theorem at_parser_feed_line_prompt_armed (p : AtParser σ) (ch : Nat) (h : prompt_armed p) :
    prompt_armed (at_parser_feed_line p ch).1 := by
  unfold at_parser_feed_line
  dsimp only
  have hq : prompt_armed (if ch ≠ 13 ∧ ch ≠ 10 then parser_append p ch else p) := by
    split_ifs
    · intro hs
      rw [(parser_append_frame p ch).2.2.2.1]
      exact h ((parser_append_frame p ch).2.2.2.2.symm.trans hs)
    · exact h
  generalize (if ch ≠ 13 ∧ ch ≠ 10 then parser_append p ch else p) = q at hq
  have hc : prompt_armed (call_character_handler q ch).1 := by
    intro hs
    rw [(call_character_handler_frame q ch).2]
    exact hq ((call_character_handler_frame q ch).1.symm.trans hs)
  split_ifs
  · exact parser_handle_line_prompt_armed _ hc
  · exact hc

theorem parser_data_done_state (p : AtParser σ) (h : p.state ≠ STATE_DATAPROMPT) :
    (parser_data_done p).state ≠ STATE_DATAPROMPT := by
  unfold parser_data_done
  split_ifs
  · intro hs
    cases hs
  · exact h

/-- Every byte keeps the prompt armed in `STATE_DATAPROMPT`: no step of
`at_parser_feed` enters that state or clears the prompt without leaving it. -/
theorem at_parser_feed_byte_prompt_armed (p : AtParser σ) (ch : Nat) (h : prompt_armed p) :
    prompt_armed (at_parser_feed_byte p ch).1 := by
  unfold at_parser_feed_byte
  split
  · exact at_parser_feed_line_prompt_armed p ch h
  · exact at_parser_feed_line_prompt_armed p ch h
  · exact at_parser_feed_line_prompt_armed p ch h
  · rename_i hs
    intro hd
    refine absurd hd ?_
    unfold at_parser_feed_rawdata
    dsimp only
    apply parser_data_done_state
    split_ifs
    · show (parser_append p ch).state ≠ STATE_DATAPROMPT
      rw [(parser_append_frame p ch).2.2.2.2, hs]
      decide
    · rw [hs]
      decide
  · rename_i hs
    intro hd
    refine absurd hd ?_
    unfold at_parser_feed_hexdata
    dsimp only
    apply parser_data_done_state
    split_ifs
    · rw [hs]
      decide
    · show (parser_append { p with nibble := -1 } _).state ≠ STATE_DATAPROMPT
      rw [(parser_append_frame { p with nibble := -1 } _).2.2.2.2]
      show p.state ≠ STATE_DATAPROMPT
      rw [hs]
      decide
    · rw [hs]
      decide
    · rw [hs]
      decide

theorem at_parser_feed_prompt_armed (p : AtParser σ) (data : List Nat) (h : prompt_armed p) :
    prompt_armed (at_parser_feed p data).1 := by
  induction data generalizing p with
  | nil => exact h
  | cons c D ih => exact ih _ (at_parser_feed_byte_prompt_armed p c h)

theorem calls_defined_split (p : AtParser σ) (cs1 cs2 : List (at_call σ)) (c : at_call σ)
    (hd : calls_defined p (cs1 ++ c :: cs2)) :
    at_call.defined (at_parser_calls p cs1) c := by
  induction cs1 generalizing p with
  | nil => exact hd.1
  | cons d cs1 ih => exact ih _ hd.2

/-- C2: for a parser with a buffer of at least one byte, freshly reset (as
`at_parser_alloc` leaves it), after every sequence of calls of
`at_parser_reset`, `at_parser_await_response`, `at_parser_expect_dataprompt`,
`at_parser_set_character_handler` and `at_parser_feed` that the source
completes (bytes are never fed in `STATE_DATAPROMPT` with a `NULL` prompt,
which `at_parser_feed` would read through), the cursors satisfy
`buf_current ≤ buf_used < buf_size`.  A feed of a prefix of a stream being a
call, this is the state after each processed byte; and in such a run every byte
of every stream fed finds a prompt armed in `STATE_DATAPROMPT`. -/
theorem C2_cursor_invariant (p : AtParser σ) (hsize : 1 ≤ p.buf_size)
    (calls : List (at_call σ)) (hdef : calls_defined (at_parser_reset p) calls) :
    ((at_parser_calls (at_parser_reset p) calls).buf_current ≤
        (at_parser_calls (at_parser_reset p) calls).buf_used ∧
      (at_parser_calls (at_parser_reset p) calls).buf_used <
        (at_parser_calls (at_parser_reset p) calls).buf_size) ∧
    (∀ (cs1 cs2 : List (at_call σ)) (A B : List Nat),
      calls = cs1 ++ at_call.feed (A ++ B) :: cs2 →
      prompt_armed (at_parser_feed (at_parser_calls (at_parser_reset p) cs1) A).1 ∧
      (at_parser_feed (at_parser_calls (at_parser_reset p) cs1) A).1.buf_current ≤
        (at_parser_feed (at_parser_calls (at_parser_reset p) cs1) A).1.buf_used ∧
      (at_parser_feed (at_parser_calls (at_parser_reset p) cs1) A).1.buf_used <
        (at_parser_feed (at_parser_calls (at_parser_reset p) cs1) A).1.buf_size) := by
  have h0 : cursors_ok (at_parser_reset p) := ⟨le_refl _, hsize⟩
  refine ⟨(at_parser_calls_cursors _ calls h0).1, fun cs1 cs2 A B e => ?_⟩
  subst e
  have h1 := calls_defined_split _ cs1 cs2 _ hdef
  have h2 := at_parser_calls_cursors _ cs1 h0
  exact ⟨at_parser_feed_prompt_armed _ A h1, (at_parser_feed_cursors _ A h2.1).1⟩

/-- C2 on a concrete run: a command answered in two chunks, a prompt armed
and half received. -/
theorem C2_cursor_invariant_witness :
    (1 ≤ plain_instance.buf_size ∧ calls_defined (at_parser_reset plain_instance) plain_calls) ∧
      ((at_parser_calls (at_parser_reset plain_instance) plain_calls).buf_current ≤
          (at_parser_calls (at_parser_reset plain_instance) plain_calls).buf_used ∧
        (at_parser_calls (at_parser_reset plain_instance) plain_calls).buf_used <
          (at_parser_calls (at_parser_reset plain_instance) plain_calls).buf_size) :=
  have hd : calls_defined (at_parser_reset plain_instance) plain_calls :=
    ⟨trivial, fun h => absurd h (by decide), fun h => absurd h (by decide), trivial, trivial,
      fun _ => by decide, trivial⟩
  ⟨⟨by decide, hd⟩, (C2_cursor_invariant plain_instance (by decide) plain_calls hd).1⟩

/-- After `at_parser_reset` and `at_parser_await_response`, intermediate lines
and then `"OK"`, all of it with room in the buffer, make exactly one callback
invocation: `handle_response` with the lines separated by single newlines. -/
theorem at_parser_feed_lines_then_ok (p : AtParser σ) (lines : List (List Nat))
    (hbuf : p.buf.length = p.buf_size)
    (hlines : ∀ L ∈ lines, L ≠ [] ∧ (∀ c ∈ L, c ≠ 13 ∧ c ≠ 10) ∧
      classified p.cbs L AT_RESPONSE_INTERMEDIATE)
    (hok : classified p.cbs str_OK AT_RESPONSE_FINAL_OK)
    (hfit : (lines.map (fun L => L.length + 1)).sum + 2 < p.buf_size) :
    (at_parser_feed (at_parser_await_response (at_parser_reset p))
        (wire_lines lines ++ (str_OK ++ [13, 10]))).2 =
      [at_event.response (response_body lines) (response_body lines).length] := by
  have h0 := in_line_await_reset p hbuf (by omega)
  rw [← stored_lines_length] at hfit
  obtain ⟨h1, h2⟩ := at_parser_feed_lines lines [] _ h0 hlines (by simp; omega)
  simp only [List.nil_append] at h2
  obtain ⟨h3, _⟩ := at_parser_feed_final_ok str_OK _ h2 (by decide) (by decide) hok
    (by simp [str_OK]; omega)
  rw [at_parser_feed_append, h1, h3, (stored_lines_dropLast lines).1,
    (stored_lines_dropLast lines).2]
  rfl

/-- After `at_parser_reset` and `at_parser_await_response`, intermediate lines
and then a line of type `AT_RESPONSE_FINAL`, all of it with room in the buffer,
make exactly one callback invocation: `handle_response` with the lines and the
final line, separated by single newlines. -/
theorem at_parser_feed_lines_then_final (p : AtParser σ) (lines : List (List Nat)) (F : List Nat)
    (hbuf : p.buf.length = p.buf_size)
    (hlines : ∀ L ∈ lines, L ≠ [] ∧ (∀ c ∈ L, c ≠ 13 ∧ c ≠ 10) ∧
      classified p.cbs L AT_RESPONSE_INTERMEDIATE)
    (hF : F ≠ [] ∧ (∀ c ∈ F, c ≠ 13 ∧ c ≠ 10) ∧ classified p.cbs F AT_RESPONSE_FINAL)
    (hfit : (lines.map (fun L => L.length + 1)).sum + F.length + 1 < p.buf_size) :
    (at_parser_feed (at_parser_await_response (at_parser_reset p))
        (wire_lines lines ++ (F ++ [13, 10]))).2 =
      [at_event.response (response_body (lines ++ [F]))
        (response_body (lines ++ [F])).length] := by
  have h0 := in_line_await_reset p hbuf (by omega)
  rw [← stored_lines_length] at hfit
  obtain ⟨h1, h2⟩ := at_parser_feed_lines lines [] _ h0 hlines (by simp; omega)
  simp only [List.nil_append] at h2
  obtain ⟨h3, _⟩ := at_parser_feed_final F _ h2 hF.1 hF.2.1 hF.2.2 (by omega)
  rw [at_parser_feed_append, h1, h3, ← List.length_append, stored_lines_append_final]
  rfl

/-- A raw payload with room in the buffer for it and its closing newline: it
is appended verbatim after the header line, fires no callback, and a following
`"OK"` (with room for it) delivers the body ending in the payload. -/
theorem at_parser_feed_rawdata_verbatim (p : AtParser σ) (H D : List Nat)
    (hst : p.state = STATE_READLINE) (hh : p.character_handler = none)
    (hbuf : p.buf.length = p.buf_size) (hcur : p.buf_used = p.buf_current)
    (hH : H ≠ [] ∧ (∀ c ∈ H, c ≠ 13 ∧ c ≠ 10) ∧
      classified p.cbs H (AT_RESPONSE_RAWDATA_FOLLOWS D.length))
    (hD : 1 ≤ D.length) (hlen : D.length < 2 ^ 23)
    (hfit : p.buf_used + H.length + 1 + D.length + 1 < p.buf_size) :
    (at_parser_feed p (H ++ [13, 10])).2 = [] ∧
    (at_parser_feed p (H ++ [13, 10])).1.state = STATE_RAWDATA ∧
    (at_parser_feed (at_parser_feed p (H ++ [13, 10])).1 D).2 = [] ∧
    (at_parser_feed (at_parser_feed p (H ++ [13, 10])).1 D).1.priv =
      (at_parser_feed p (H ++ [13, 10])).1.priv ∧
    (∀ cbs2, at_parser_feed { (at_parser_feed p (H ++ [13, 10])).1 with cbs := cbs2 } D =
      ({ (at_parser_feed (at_parser_feed p (H ++ [13, 10])).1 D).1 with cbs := cbs2 }, [])) ∧
    (at_parser_feed (at_parser_feed p (H ++ [13, 10])).1 D).1.buf.take
        (at_parser_feed (at_parser_feed p (H ++ [13, 10])).1 D).1.buf_used =
      p.buf.take p.buf_current ++ H ++ [10] ++ D ++ [10] ∧
    (at_parser_feed (at_parser_feed p (H ++ [13, 10])).1 D).1.buf_current =
      (at_parser_feed (at_parser_feed p (H ++ [13, 10])).1 D).1.buf_used ∧
    (at_parser_feed (at_parser_feed p (H ++ [13, 10])).1 D).1.state = STATE_READLINE ∧
    (∀ D1 D2, D = D1 ++ D2 → D2 ≠ [] →
      (at_parser_feed (at_parser_feed p (H ++ [13, 10])).1 D1).1.state = STATE_RAWDATA) ∧
    (classified p.cbs str_OK AT_RESPONSE_FINAL_OK →
      p.buf_used + H.length + 1 + D.length + 1 + 2 < p.buf_size →
      (at_parser_feed (at_parser_feed (at_parser_feed p (H ++ [13, 10])).1 D).1
          (str_OK ++ [13, 10])).2 =
        [at_event.response (p.buf.take p.buf_current ++ H ++ [10] ++ D)
          (p.buf_used + H.length + 1 + D.length)]) := by
  have h0 := in_line_start p hbuf hcur (by omega)
  rw [hst, hh] at h0
  have hbl : (p.buf.take p.buf_current).length = p.buf_used := by
    rw [List.length_take, hcur]; omega
  obtain ⟨a1, a2, a3⟩ := at_parser_feed_rawdata_header H D.length p h0 hH.1 hH.2.1 hH.2.2
    hlen (by rw [hbl]; omega)
  have hDne : D ≠ [] := by
    intro e; rw [e] at hD; simp at hD
  obtain ⟨b1, b2, b3, b4⟩ := at_parser_feed_rawdata_all D [] _ a2 hDne a3
    (by simp [hbl]; omega)
  simp only [List.nil_append] at b2
  refine ⟨a1, a2.2.1, b1, b3, b4, ?_, ?_, b2.2.1, ?_, ?_⟩
  · have := b2.2.2.2.2.2.2.2.1
    simp only [List.length_nil, Nat.add_zero, List.append_nil] at this
    rw [b2.2.2.2.2.2.2.1]
    simpa using this
  · rw [b2.2.2.2.2.2.1, b2.2.2.2.2.2.2.1]; rfl
  · intro D1 D2 e hne2
    have hl2 : 0 < D2.length := List.length_pos.mpr hne2
    have hlen : D.length = D1.length + (D2.length - 1 + 1) := by
      rw [e, List.length_append]; omega
    obtain ⟨_, c2, _⟩ := at_parser_feed_rawdata_part D1 [] (D2.length - 1) _ a2
      (by rw [a3, hlen])
      (by simp only [List.length_append, List.length_singleton, List.length_nil, hbl]; omega)
    exact c2.2.1
  · intro hok hfit2
    obtain ⟨d1, _⟩ := at_parser_feed_final_ok str_OK _ b2 (by decide) (by decide) hok
      (by simp [hbl, str_OK]; omega)
    rw [d1]
    simp only [List.dropLast_concat, List.length_append, List.length_singleton, hbl,
      Nat.add_sub_cancel]

/-- A non-empty line of type `AT_RESPONSE_FINAL` handled while a command is
outstanding, with room in the buffer for its newline: `handle_response` is
called once, with what was accumulated before the line followed by the line
itself. -/
theorem parser_handle_line_final_body (p : AtParser σ)
    (hst : p.state ≠ STATE_IDLE) (hbuf : p.buf.length = p.buf_size)
    (hcur : p.buf_current < p.buf_used) (hroom : p.buf_used + 1 < p.buf_size)
    (hty : line_type p = AT_RESPONSE_FINAL) :
    (parser_handle_line p).2 =
      [at_event.response (p.buf.take p.buf_current ++ current_line p) p.buf_used] := by
  have h := in_line_of_cursors p hbuf (le_of_lt hcur) (by omega)
  have hl1 : (p.buf.take p.buf_current).length = p.buf_current := by
    rw [List.length_take]; omega
  have hl2 : (current_line p).length = p.buf_used - p.buf_current := by
    rw [current_line_eq, List.length_drop, List.length_take]; omega
  have hne : current_line p ≠ [] := by
    intro h0; rw [h0] at hl2; simp at hl2; omega
  rw [line_type_eq p (le_of_lt hcur) hbuf (by omega)] at hty
  have hq := parser_include_line_in_line
    (in_line_determine_type (current_line p) (current_line p).length (in_line_terminate h))
    (by rw [hl1, hl2]; omega)
  obtain ⟨hf1, hf2⟩ := parser_finalize_in_line hq
  rw [hf1] at hf2
  have hnidle : ¬ (AT_RESPONSE_FINAL = AT_RESPONSE_URC ∨ p.state = STATE_IDLE) := by
    rintro (h | h)
    · revert h; decide
    · exact hst h
  rw [parser_handle_line_eq h hne, hty, if_neg hnidle, if_pos (by decide),
    parser_act_final _ _ (Or.inr rfl), hf1, hf2]
  simp only [List.length_append, List.length_singleton, Nat.add_sub_cancel,
    List.dropLast_concat, hl1, hl2]
  have : p.buf_current + (p.buf_used - p.buf_current) = p.buf_used := by omega
  rw [this]

/-- C4: at the failing input, a buffer of 4 bytes and the stream `"AB"` CR LF
`"OK"` CR LF fed after `at_parser_reset` and `at_parser_await_response`, the
intermediate line `"AB"` and its newline fit in the buffer (3 bytes, the
capacity), and `handle_response` is not invoked: the two characters of `"OK"`
are dropped, the line looks empty, and from there no stream whatever invokes a
callback or changes the parser. -/
theorem C4_lines_fit_ok_not_recognised :
    (∀ L ∈ [str_AB], L ≠ [] ∧ (∀ c ∈ L, c ≠ 13 ∧ c ≠ 10) ∧
      classified small_instance.cbs L AT_RESPONSE_INTERMEDIATE) ∧
    classified small_instance.cbs str_OK AT_RESPONSE_FINAL_OK ∧
    ([str_AB].map (fun L => L.length + 1)).sum < small_instance.buf_size ∧
    small_instance_AB.buf.take small_instance_AB.buf_used = stored_lines [str_AB] ∧
    (at_parser_feed (at_parser_await_response (at_parser_reset small_instance))
      (wire_lines [str_AB] ++ (str_OK ++ [13, 10]))).2 = [] ∧
    (at_parser_feed (at_parser_await_response (at_parser_reset small_instance))
      (wire_lines [str_AB] ++ (str_OK ++ [13, 10]))).1 = small_instance_AB ∧
    small_instance_AB.state = STATE_READLINE ∧
    ∀ data : List Nat, at_parser_feed small_instance_AB data = (small_instance_AB, []) := by
  refine ⟨?_, classified_plain str_OK, by decide, by decide, by decide, rfl, by decide, ?_⟩
  · intro L hL
    rw [List.mem_singleton] at hL
    subst hL
    exact ⟨by decide, by decide, classified_plain str_AB⟩
  · intro data
    exact at_parser_feed_full small_instance_AB data (by decide) rfl (by decide) (by decide)

/-- C9: at the failing input, a buffer of 8 bytes and the stream `"A"` CR LF
`"ERROR"` CR LF received while a command is outstanding, the accumulated line
`"A"` with its newline and the final line `"ERROR"` fit in the buffer (7 bytes,
the capacity), and the body passed to `handle_response` is `"A"` LF `"ERRO"`:
the final line is included without its last character. -/
theorem C9_final_line_loses_character :
    classified eight_instance.cbs str_A AT_RESPONSE_INTERMEDIATE ∧
    classified eight_instance.cbs str_ERROR AT_RESPONSE_FINAL ∧
    (at_parser_feed (at_parser_await_response eight_instance)
      (str_A ++ [13, 10] ++ str_ERROR)).1.buf.take
      (at_parser_feed (at_parser_await_response eight_instance)
        (str_A ++ [13, 10] ++ str_ERROR)).1.buf_used = str_A ++ [10] ++ str_ERROR ∧
    (at_parser_feed (at_parser_await_response eight_instance)
      (str_A ++ [13, 10] ++ str_ERROR)).1.buf_used < eight_instance.buf_size ∧
    (at_parser_feed (at_parser_await_response eight_instance)
      (str_A ++ [13, 10] ++ (str_ERROR ++ [13, 10]))).2 =
      [at_event.response (str_A ++ [10] ++ str_ERRO) 6] ∧
    str_A ++ [10] ++ str_ERRO ≠ str_A ++ [10] ++ str_ERROR := by
  refine ⟨classified_plain str_A, classified_plain str_ERROR, by decide, by decide, by decide,
    by decide⟩

/-- C10, amended: a non-empty line of type `AT_RESPONSE_FINAL` handled while a
command is outstanding (any state but `STATE_IDLE`), with room left in the
buffer for the newline after it, is kept in the response: the body passed to
`handle_response` is what was accumulated before the line followed by the line
itself, with no trailing newline.  So, after `at_parser_reset` and
`at_parser_await_response`, intermediate lines and then a final line `F` (all
non-empty, without CR or LF, each followed by CR LF, with room in the buffer
for them and their newlines) make exactly one callback invocation:
`handle_response` with the intermediate lines followed by `F`, separated by
single newlines. -/
theorem C10_final_line_kept (p q : AtParser σ) (lines : List (List Nat)) (F : List Nat)
    (hst : p.state ≠ STATE_IDLE) (hbuf : p.buf.length = p.buf_size)
    (hcur : p.buf_current < p.buf_used) (hroom : p.buf_used + 1 < p.buf_size)
    (hty : line_type p = AT_RESPONSE_FINAL)
    (hbufq : q.buf.length = q.buf_size)
    (hlines : ∀ L ∈ lines, L ≠ [] ∧ (∀ c ∈ L, c ≠ 13 ∧ c ≠ 10) ∧
      classified q.cbs L AT_RESPONSE_INTERMEDIATE)
    (hF : F ≠ [] ∧ (∀ c ∈ F, c ≠ 13 ∧ c ≠ 10) ∧ classified q.cbs F AT_RESPONSE_FINAL)
    (hfit : (lines.map (fun L => L.length + 1)).sum + F.length + 1 < q.buf_size) :
    (parser_handle_line p).2 =
      [at_event.response (p.buf.take p.buf_current ++ current_line p) p.buf_used] ∧
    (at_parser_feed (at_parser_await_response (at_parser_reset q))
        (wire_lines lines ++ (F ++ [13, 10]))).2 =
      [at_event.response (response_body (lines ++ [F]))
        (response_body (lines ++ [F])).length] :=
  ⟨parser_handle_line_final_body p hst hbuf hcur hroom hty,
   at_parser_feed_lines_then_final q lines F hbufq hlines hF hfit⟩

/-- C10, amended, on the line `"ERROR"` received while a response is awaited
and on the stream `"A"` CR LF `"ERROR"` CR LF. -/
theorem C10_final_line_kept_witness :
    (plain_instance_ERROR.state ≠ STATE_IDLE ∧
      plain_instance_ERROR.buf_current < plain_instance_ERROR.buf_used ∧
      plain_instance_ERROR.buf_used + 1 < plain_instance_ERROR.buf_size ∧
      line_type plain_instance_ERROR = AT_RESPONSE_FINAL ∧
      (∀ L ∈ [str_A], L ≠ [] ∧ (∀ c ∈ L, c ≠ 13 ∧ c ≠ 10) ∧
        classified plain_instance.cbs L AT_RESPONSE_INTERMEDIATE) ∧
      classified plain_instance.cbs str_ERROR AT_RESPONSE_FINAL) ∧
    (parser_handle_line plain_instance_ERROR).2 =
      [at_event.response (plain_instance_ERROR.buf.take plain_instance_ERROR.buf_current ++
        current_line plain_instance_ERROR) plain_instance_ERROR.buf_used] ∧
    (at_parser_feed (at_parser_await_response (at_parser_reset plain_instance))
        (wire_lines [str_A] ++ (str_ERROR ++ [13, 10]))).2 =
      [at_event.response (response_body ([str_A] ++ [str_ERROR]))
        (response_body ([str_A] ++ [str_ERROR])).length] :=
  have h2 : ∀ L ∈ [str_A], L ≠ [] ∧ (∀ c ∈ L, c ≠ 13 ∧ c ≠ 10) ∧
      classified plain_instance.cbs L AT_RESPONSE_INTERMEDIATE := by
    intro L hL
    rw [List.mem_singleton] at hL
    subst hL
    exact ⟨by decide, by decide, classified_plain str_A⟩
  ⟨⟨by decide, by decide, by decide, by decide, h2, classified_plain str_ERROR⟩,
    C10_final_line_kept plain_instance_ERROR plain_instance [str_A] str_ERROR (by decide)
      (by decide) (by decide) (by decide) (by decide) (by decide) h2
      ⟨by decide, by decide, classified_plain str_ERROR⟩ (by decide)⟩

/-- C12: at the failing input, a buffer of 7 bytes, the header line `"R3"` CR LF
(which announces 3 raw payload bytes), the payload CR, LF, `O` and then `"OK"`
CR LF, the payload fits in the remaining buffer (header, newline and payload
are 6 bytes, the capacity): it is appended verbatim and the parser returns to
`STATE_READLINE`, but no newline is appended after it, and the following
`"OK"` is not recognised: `handle_response` is not invoked, and from there no
stream whatever invokes a callback or changes the parser. -/
theorem C12_payload_fills_buffer :
    classified seven_instance.cbs str_R3 (AT_RESPONSE_RAWDATA_FOLLOWS raw_payload.length) ∧
    classified seven_instance.cbs str_OK AT_RESPONSE_FINAL_OK ∧
    str_R3.length + 1 + raw_payload.length < seven_instance.buf_size ∧
    seven_instance_full.state = STATE_READLINE ∧
    seven_instance_full.buf.take seven_instance_full.buf_used =
      str_R3 ++ [10] ++ raw_payload ∧
    (at_parser_feed seven_instance_full (str_OK ++ [13, 10])).2 = [] ∧
    ∀ data : List Nat, at_parser_feed seven_instance_full data = (seven_instance_full, []) := by
  refine ⟨classified_of_scan _ _ _ _ rfl (fun _ => rfl) (by decide), ?_, by decide, by decide,
    by decide, by decide, ?_⟩
  · exact classified_generic _ _ (fun scan h s => by
      cases h
      rfl) (at_parser_await_response plain_instance) rfl
  · intro data
    exact at_parser_feed_full seven_instance_full data (by decide) rfl (by decide) (by decide)

end Attentive
